import Mathlib

/-! luna-surfacemanager: surface registry, proxy substitution and fullscreen arbitration

Shallow embedding of `src/modules/weboscompositor/weboscorecompositor.cpp`.

* Pointers to `WebOSSurfaceItem` and to `QWaylandQuickSurface` are natural-number
  identities (`ItemId`, `SurfaceId`); a null pointer is `none`.
* The compositor object is the record `WebOSCoreCompositor`; every member function is a
  pure function from the state before the call to the state after it.
* Everything a member function does to the outside world (signals emitted, calls into
  `m_surfaceModel`, `m_inputMethod->deactivate()`, `item->close()`, `delete item`) is
  appended, in program order, to the field `trace`.
* `QList::operator<<` is `++ [x]`, `QList::removeOne` is `List.erase` (first occurrence
  only), `QList::contains` is `List.contains`.
* A `Call` is one entry into the compositor (a protocol callback or a command);
  `run` executes a list of calls, so the reachable states are the `initial.run calls`.
-/

namespace WebOS

/-! ## Data model -/

/-- Identity (address) of a `WebOSSurfaceItem` object. -/
abbrev ItemId := Nat

/-- Identity (address) of a `QWaylandQuickSurface` object. -/
abbrev SurfaceId := Nat

/-- Identity of a wayland client connection. -/
abbrev ClientId := Nat

/-- The enumeration `WebOSSurfaceItem::ItemState`. -/
inductive ItemState where
  | ItemStateNormal
  | ItemStateProxy
  | ItemStateClosing
  deriving DecidableEq, Repr

/-- The members of a `WebOSSurfaceItem` that the compositor reads or writes. -/
structure WebOSSurfaceItem where
  appId : String
  title : String
  subtitle : String
  cardSnapShotFilePath : String
  itemState : ItemState
  surface : Option SurfaceId
  lastFullscreenTick : Nat
  width : Int
  height : Int
  deriving DecidableEq, Repr

/-- Modelled from the spec: `WebOSSurfaceItem::isProxy()` is declared outside the two
source files; the spec's data model gives an item a `state` in Normal, Proxy, Closing and
calls an item a proxy when it is in Proxy state. -/
def WebOSSurfaceItem.isProxy (it : WebOSSurfaceItem) : Bool :=
  it.itemState == ItemState.ItemStateProxy

/-- Modelled from the spec: the constructor `WebOSSurfaceItem(compositor, surface)` is
outside the two source files; the spec says an item is created in Normal state, with the
(nullable) reference to the underlying surface it was given and no identity yet. -/
def WebOSSurfaceItem.new (surface : Option SurfaceId) : WebOSSurfaceItem :=
  { appId := "", title := "", subtitle := "", cardSnapShotFilePath := "",
    itemState := ItemState.ItemStateNormal, surface := surface,
    lastFullscreenTick := 0, width := 0, height := 0 }

/-- A `QWaylandSurface *` argument that is not null: either a `QWaylandQuickSurface`
(the only kind the compositor stores) or some other surface object, for which
`qobject_cast<QWaylandQuickSurface *>` yields null. -/
inductive QWaylandSurface where
  | quick (s : SurfaceId)
  | other (n : Nat)
  deriving DecidableEq, Repr

/-- The cast `qobject_cast<QWaylandQuickSurface *>(s)` on a nullable `QWaylandSurface *`. -/
def qobject_cast (s : Option QWaylandSurface) : Option SurfaceId :=
  match s with
  | some (QWaylandSurface.quick q) => some q
  | _ => none

/-- What a member function does to the outside world, in program order. -/
inductive Effect where
  /-- Call `m_surfaceModel->surfaceMapped(item)`. -/
  | modelSurfaceMapped (item : ItemId)
  /-- Call `m_surfaceModel->surfaceUnmapped(item)`. -/
  | modelSurfaceUnmapped (item : ItemId)
  /-- Call `m_surfaceModel->surfaceDestroyed(item)`. -/
  | modelSurfaceDestroyed (item : ItemId)
  /-- Signal `surfaceMapped(item)`. -/
  | surfaceMapped (item : ItemId)
  /-- Signal `surfaceUnmapped(item)`. -/
  | surfaceUnmapped (item : ItemId)
  /-- Signal `surfaceDestroyed(item)`. -/
  | surfaceDestroyed (item : ItemId)
  /-- Signal `homeScreenExposed()`. -/
  | homeScreenExposed
  /-- Signal `fullscreenSurfaceChanged()`. -/
  | fullscreenSurfaceChanged
  /-- Signal `fullscreenChanged()`, which the constructor connects to
  `fullscreenSurfaceChanged()` (line 152) and which therefore fires right after it. -/
  | fullscreenChanged
  /-- Signal `fullscreenSurfaceChanged(previous, current)`. -/
  | fullscreenSurfaceChangedPair (previous current : Option SurfaceId)
  /-- Call `m_inputMethod->deactivate()`. -/
  | inputMethodDeactivate
  /-- Call `item->close()`: the client is asked to close. -/
  | itemClose (item : ItemId)
  /-- Calls `item->updateTexture(); item->update()` after the surface was released. -/
  | itemTextureCleared (item : ItemId)
  /-- Statement `delete item`. -/
  | itemDeleted (item : ItemId)
  /-- Signal `outputUpdateDone()`. -/
  | outputUpdateDone
  deriving DecidableEq, Repr

/-- The state of the compositor object together with the heap of surface items.

* `items i` is the record stored at address `i`; `live i` tells whether the object at `i`
  exists (allocated and not yet deleted); `nextItem` is the next address `new` hands out.
* `surfaceItem s` is `s->surfaceItem()`, the item currently attached to surface `s`.
* `client s` is `s->client()`.
* the `m_` fields are the members of the C++ class of the same name.
* `sizeChangedConnections` lists, one entry per `connect` call, the surfaces whose
  `sizeChanged` signal is connected to `onSurfaceSizeChanged`. -/
structure WebOSCoreCompositor where
  items : ItemId → WebOSSurfaceItem
  live : ItemId → Bool
  nextItem : ItemId
  surfaceItem : SurfaceId → Option ItemId
  client : SurfaceId → Option ClientId
  m_surfaces : List ItemId
  m_surfacesOnUpdate : List ItemId
  m_previousFullscreenSurface : Option SurfaceId
  m_fullscreenSurface : Option SurfaceId
  m_fullscreenTick : Nat
  sizeChangedConnections : List SurfaceId
  trace : List Effect

namespace WebOSCoreCompositor

/-- The compositor right after its constructor: nothing allocated, empty registry,
`m_previousFullscreenSurface(0)`, `m_fullscreenSurface(0)`, `m_fullscreenTick(0)`. -/
def initial : WebOSCoreCompositor :=
  { items := fun _ => WebOSSurfaceItem.new none
    live := fun _ => false
    nextItem := 0
    surfaceItem := fun _ => none
    client := fun _ => none
    m_surfaces := []
    m_surfacesOnUpdate := []
    m_previousFullscreenSurface := none
    m_fullscreenSurface := none
    m_fullscreenTick := 0
    sizeChangedConnections := []
    trace := [] }

/-- Append one effect to the trace. -/
def emit (c : WebOSCoreCompositor) (e : Effect) : WebOSCoreCompositor :=
  { c with trace := c.trace ++ [e] }

/-- Overwrite the record of one item (a setter called through an item pointer). -/
def modifyItem (c : WebOSCoreCompositor) (item : ItemId)
    (f : WebOSSurfaceItem → WebOSSurfaceItem) : WebOSCoreCompositor :=
  { c with items := fun j => if j = item then f (c.items j) else c.items j }

/-- The call `item->setItemState(state)`. -/
def setItemState (c : WebOSCoreCompositor) (item : ItemId) (state : ItemState) :
    WebOSCoreCompositor :=
  c.modifyItem item (fun it => { it with itemState := state })

/-- The call `item->setAppId(appId)` (made by `createProxyItem`, and by the shell
protocol for a real surface). -/
def setAppId (c : WebOSCoreCompositor) (item : ItemId) (appId : String) :
    WebOSCoreCompositor :=
  c.modifyItem item (fun it => { it with appId := appId })

/-- The scene graph gives an item a new geometry (`QQuickItem::setWidth`, `setHeight`);
sizes are kept as integers, the code only compares width and height for equality. -/
def setSize (c : WebOSCoreCompositor) (item : ItemId) (width height : Int) :
    WebOSCoreCompositor :=
  c.modifyItem item (fun it => { it with width := width, height := height })

/-- The expression `new WebOSSurfaceItem(this, surface)`: a fresh address holding a fresh
record; when a surface is given (a surface that was just created and has no item yet)
the item becomes the item of that surface. -/
def newItem (c : WebOSCoreCompositor) (surface : Option SurfaceId) :
    WebOSCoreCompositor × ItemId :=
  let item := c.nextItem
  ({ c with
      items := fun j => if j = item then WebOSSurfaceItem.new surface else c.items j
      live := fun j => if j = item then true else c.live j
      nextItem := item + 1
      surfaceItem := fun s => if some s = surface then some item else c.surfaceItem s },
    item)

/-- The statement `delete item`: the object no longer exists and, being destroyed, is no
longer the item of any surface. -/
def deleteItem (c : WebOSCoreCompositor) (item : ItemId) : WebOSCoreCompositor :=
  { c with
      live := fun j => if j = item then false else c.live j
      surfaceItem := fun s => if c.surfaceItem s = some item then none else c.surfaceItem s
      trace := c.trace ++ [Effect.itemDeleted item] }

/-- Modelled from the spec: `WebOSSurfaceItem::releaseSurface()` is outside the two source
files; the spec says that for a proxy "the wrapped reference is released", so the item's
surface reference becomes null and the item stops being the item of a surface. -/
def releaseSurface (c : WebOSCoreCompositor) (item : ItemId) : WebOSCoreCompositor :=
  { c with
      items := fun j => if j = item then { c.items j with surface := none } else c.items j
      surfaceItem := fun s => if c.surfaceItem s = some item then none else c.surfaceItem s }

/-- `WebOSCoreCompositor::isMapped` (lines 229-232). -/
def isMapped (c : WebOSCoreCompositor) (item : ItemId) : Bool :=
  (c.items item).surface.isSome && c.m_surfaces.contains item

/-- `WebOSCoreCompositor::setFullscreenSurface` (lines 422-448). The C++ function returns
the constant `true`; the model returns the state after the call. The signal
`fullscreenSurfaceChanged()` is forwarded to `fullscreenChanged()` by the connection made
in the constructor (line 152). -/
def setFullscreenSurface (c : WebOSCoreCompositor) (s : Option QWaylandSurface) :
    WebOSCoreCompositor :=
  let surface := qobject_cast s
  let c1 := if surface = none then c.emit Effect.homeScreenExposed else c
  if surface ≠ c1.m_fullscreenSurface then
    let c2 := c1.emit Effect.inputMethodDeactivate
    let c3 :=
      if surface = none then { c2 with m_previousFullscreenSurface := none }
      else { c2 with m_previousFullscreenSurface := c2.m_fullscreenSurface }
    let c4 := { c3 with m_fullscreenSurface := surface }
    let c5 := (c4.emit Effect.fullscreenSurfaceChanged).emit Effect.fullscreenChanged
    c5.emit (Effect.fullscreenSurfaceChangedPair c5.m_previousFullscreenSurface
      c5.m_fullscreenSurface)
  else
    c1

/-- `WebOSCoreCompositor::setFullscreen` (lines 417-420): `item ? item->surface() : NULL`. -/
def setFullscreen (c : WebOSCoreCompositor) (item : Option ItemId) : WebOSCoreCompositor :=
  c.setFullscreenSurface
    (match item with
     | some i => (c.items i).surface.map QWaylandSurface.quick
     | none => none)

/-- The test of the `if` inside the loop of `deleteProxyFor` (lines 400-402). -/
def isProxyFor (c : WebOSCoreCompositor) (newItem item : ItemId) : Bool :=
  (c.items item).isProxy && ((c.items newItem).appId == (c.items item).appId)
    && (newItem != item)

/-- The body of the `if` in the loop of `deleteProxyFor` (lines 403-407): `si.remove()`
takes the element just returned by `si.next()` out of `m_surfaces`, which then is what
was kept before the iterator (`before`) followed by what is still to visit (`rest`); the
model and the listeners are told, and the item is deleted. -/
def removeProxy (c : WebOSCoreCompositor) (before rest : List ItemId) (item : ItemId) :
    WebOSCoreCompositor :=
  let c1 := { c with m_surfaces := before ++ rest }
  let c2 := c1.emit (Effect.modelSurfaceDestroyed item)
  let c3 := c2.emit (Effect.surfaceDestroyed item)
  c3.deleteItem item

/-- The `while (si.hasNext())` loop of `deleteProxyFor` (lines 398-409). The mutable
iterator stands between `before` (already visited and kept) and the elements still to
visit. -/
def deleteProxyForLoop (newItem : ItemId) :
    List ItemId → List ItemId → WebOSCoreCompositor → WebOSCoreCompositor
  | _, [], c => c
  | before, item :: rest, c =>
    if c.isProxyFor newItem item then
      deleteProxyForLoop newItem before rest (c.removeProxy before rest item)
    else
      deleteProxyForLoop newItem (before ++ [item]) rest c

/-- The effects of deleting one proxy in `deleteProxyFor`, in program order. -/
def deleteEffects (j : ItemId) : List Effect :=
  [Effect.modelSurfaceDestroyed j, Effect.surfaceDestroyed j, Effect.itemDeleted j]

/-- `WebOSCoreCompositor::deleteProxyFor` (lines 394-410). -/
def deleteProxyFor (c : WebOSCoreCompositor) (newItem : ItemId) : WebOSCoreCompositor :=
  deleteProxyForLoop newItem [] c.m_surfaces c

/-- `WebOSCoreCompositor::surfaceCreated` (lines 358-373): the three `connect` calls make
the callbacks below run for this surface; then the item is constructed. `client` is the
client connection the new surface belongs to. -/
def surfaceCreated (c : WebOSCoreCompositor) (surface : SurfaceId)
    (client : Option ClientId) : WebOSCoreCompositor :=
  let c1 := { c with client := fun s => if s = surface then client else c.client s }
  (c1.newItem (some surface)).1

/-- `WebOSCoreCompositor::onSurfaceMapped` (lines 237-275); `surface` is `sender()`. -/
def onSurfaceMapped (c : WebOSCoreCompositor) (surface : SurfaceId) : WebOSCoreCompositor :=
  match c.surfaceItem surface with
  | none => c
  | some item =>
    let c1 := c.deleteProxyFor item
    let c2 := c1.setItemState item ItemState.ItemStateNormal
    let c3 :=
      if c2.m_surfaces.contains item then c2
      else
        let c2a := c2.emit (Effect.modelSurfaceMapped item)
        { c2a with m_surfaces := c2a.m_surfaces ++ [item] }
    c3.emit (Effect.surfaceMapped item)

/-- `WebOSCoreCompositor::onSurfaceUnmapped` (lines 288-304); `surface` is `sender()`. -/
def onSurfaceUnmapped (c : WebOSCoreCompositor) (surface : SurfaceId) :
    WebOSCoreCompositor :=
  match c.surfaceItem surface with
  | none => c
  | some item =>
    if !(c.items item).isProxy then
      let c1 := c.emit (Effect.modelSurfaceUnmapped item)
      let c2 := c1.emit (Effect.surfaceUnmapped item)
      { c2 with m_surfaces := c2.m_surfaces.erase item }
    else
      c.emit (Effect.surfaceUnmapped item)

/-- The block `if (item) { ... }` of `onSurfaceDestroyed` (lines 310-330). -/
def onSurfaceDestroyedItem (c : WebOSCoreCompositor) (surface : SurfaceId) :
    WebOSCoreCompositor :=
  match c.surfaceItem surface with
  | none => c
  | some item =>
    if !(c.items item).isProxy then
      let d1 := c.emit (Effect.modelSurfaceDestroyed item)
      let d2 := d1.emit (Effect.surfaceDestroyed item)
      let d3 := { d2 with m_surfaces := d2.m_surfaces.erase item }
      let d4 := { d3 with m_surfacesOnUpdate := d3.m_surfacesOnUpdate.erase item }
      d4.deleteItem item
    else
      let d1 := c.emit (Effect.surfaceDestroyed item)
      let d2 := d1.releaseSurface item
      d2.emit (Effect.itemTextureCleared item)

/-- `WebOSCoreCompositor::onSurfaceDestroyed` (lines 306-334); `surface` is `sender()`.
After the item block, `if (surface == m_fullscreenSurface) setFullscreenSurface(NULL)`. -/
def onSurfaceDestroyed (c : WebOSCoreCompositor) (surface : SurfaceId) :
    WebOSCoreCompositor :=
  let c1 := c.onSurfaceDestroyedItem surface
  if some surface = c1.m_fullscreenSurface then c1.setFullscreenSurface none else c1

/-- The effects of `setFullscreenSurface(NULL)` while a surface is fullscreen. -/
def homeScreenEffects : List Effect :=
  [Effect.homeScreenExposed, Effect.inputMethodDeactivate, Effect.fullscreenSurfaceChanged,
   Effect.fullscreenChanged, Effect.fullscreenSurfaceChangedPair none none]

/-- `WebOSCoreCompositor::createProxyItem` (lines 375-392); `getFullscreenTick()` reads
`m_fullscreenTick`. -/
def createProxyItem (c : WebOSCoreCompositor) (appId title subtitle snapshotPath : String) :
    WebOSCoreCompositor × ItemId :=
  let (c0, item) := c.newItem none
  let c1 := c0.setAppId item appId
  let c2 := c1.modifyItem item (fun it => { it with title := title })
  let c3 := c2.modifyItem item (fun it => { it with subtitle := subtitle })
  let c4 := c3.modifyItem item (fun it => { it with cardSnapShotFilePath := snapshotPath })
  let c5 := c4.setItemState item ItemState.ItemStateProxy
  let c6 := c5.modifyItem item (fun it => { it with lastFullscreenTick := c5.m_fullscreenTick })
  let c7 := c6.emit (Effect.modelSurfaceMapped item)
  ({ c7 with m_surfaces := c7.m_surfaces ++ [item] }, item)

/-- The test `item->surface() && item->surface()->client()` of `closeWindow` and
`closeWindowKeepItem`. -/
def hasLiveClient (c : WebOSCoreCompositor) (item : ItemId) : Bool :=
  match (c.items item).surface with
  | some s => (c.client s).isSome
  | none => false

/-- `WebOSCoreCompositor::closeWindow` (lines 461-477); `window` is the result of
`qvariant_cast<WebOSSurfaceItem *>`, null when the variant holds no surface item. -/
def closeWindow (c : WebOSCoreCompositor) (window : Option ItemId) : WebOSCoreCompositor :=
  match window with
  | none => c
  | some item =>
    let c1 := c.setItemState item ItemState.ItemStateClosing
    if c1.hasLiveClient item then
      c1.emit (Effect.itemClose item)
    else
      let c2 := c1.emit (Effect.modelSurfaceDestroyed item)
      let c3 := { c2 with m_surfaces := c2.m_surfaces.erase item }
      c3.deleteItem item

/-- `WebOSCoreCompositor::closeWindowKeepItem` (lines 479-492). -/
def closeWindowKeepItem (c : WebOSCoreCompositor) (window : Option ItemId) :
    WebOSCoreCompositor :=
  match window with
  | none => c
  | some item =>
    let c1 :=
      if (c.items item).itemState ≠ ItemState.ItemStateClosing then
        c.setItemState item ItemState.ItemStateProxy
      else c
    if c1.hasLiveClient item then c1.emit (Effect.itemClose item) else c1

/-- The `foreach` loop of `prepareOutputUpdate` (lines 691-698), over a copy of
`m_surfaces`. -/
def prepareOutputUpdateLoop : List ItemId → WebOSCoreCompositor → WebOSCoreCompositor
  | [], c => c
  | item :: rest, c =>
    match (c.items item).surface with
    | none => prepareOutputUpdateLoop rest c
    | some s =>
      if (c.items item).width = (c.items item).height then prepareOutputUpdateLoop rest c
      else
        prepareOutputUpdateLoop rest
          { c with
              sizeChangedConnections := c.sizeChangedConnections ++ [s]
              m_surfacesOnUpdate := c.m_surfacesOnUpdate ++ [item] }

/-- `WebOSCoreCompositor::prepareOutputUpdate` (lines 689-701): the state after the call
and the returned `m_surfacesOnUpdate.count()`. -/
def prepareOutputUpdate (c : WebOSCoreCompositor) : WebOSCoreCompositor × Nat :=
  let c1 := prepareOutputUpdateLoop c.m_surfaces c
  (c1, c1.m_surfacesOnUpdate.length)

/-- The `foreach` loop of `finalizeOutputUpdate` (lines 721-724): `disconnect` drops every
connection of the surface's `sizeChanged` signal to the slot. -/
def finalizeOutputUpdateLoop : List ItemId → WebOSCoreCompositor → WebOSCoreCompositor
  | [], c => c
  | item :: rest, c =>
    match (c.items item).surface with
    | none => finalizeOutputUpdateLoop rest c
    | some s =>
      finalizeOutputUpdateLoop rest
        { c with sizeChangedConnections := c.sizeChangedConnections.filter (fun t => t ≠ s) }

/-- `WebOSCoreCompositor::finalizeOutputUpdate` (lines 719-726). -/
def finalizeOutputUpdate (c : WebOSCoreCompositor) : WebOSCoreCompositor :=
  let c1 := finalizeOutputUpdateLoop c.m_surfacesOnUpdate c
  { c1 with m_surfacesOnUpdate := [] }

/-- `WebOSCoreCompositor::onSurfaceSizeChanged` (lines 728-741); `surface` is `sender()`.
When the surface has no item, `removeOne` is handed a null pointer and removes nothing. -/
def onSurfaceSizeChanged (c : WebOSCoreCompositor) (surface : SurfaceId) :
    WebOSCoreCompositor :=
  let c1 :=
    match c.surfaceItem surface with
    | none => c
    | some item => { c with m_surfacesOnUpdate := c.m_surfacesOnUpdate.erase item }
  let c2 :=
    { c1 with sizeChangedConnections := c1.sizeChangedConnections.filter (fun t => t ≠ surface) }
  if c2.m_surfacesOnUpdate.isEmpty then c2.emit Effect.outputUpdateDone else c2

end WebOSCoreCompositor

/-! ## Call sequences -/

/-- One call into the compositor: a protocol callback, a command from the UI, or a
change the shell or the scene graph makes to an item. -/
inductive Call where
  | surfaceCreated (surface : SurfaceId) (client : Option ClientId)
  | setAppId (item : ItemId) (appId : String)
  | setSize (item : ItemId) (width height : Int)
  | createProxyItem (appId title subtitle snapshotPath : String)
  | deleteProxyFor (newItem : ItemId)
  | onSurfaceMapped (surface : SurfaceId)
  | onSurfaceUnmapped (surface : SurfaceId)
  | onSurfaceDestroyed (surface : SurfaceId)
  | setFullscreen (item : Option ItemId)
  | closeWindow (window : Option ItemId)
  | closeWindowKeepItem (window : Option ItemId)
  | prepareOutputUpdate
  | finalizeOutputUpdate
  | onSurfaceSizeChanged (surface : SurfaceId)
  deriving DecidableEq, Repr

namespace WebOSCoreCompositor

/-- The state after one call. -/
def step (c : WebOSCoreCompositor) : Call → WebOSCoreCompositor
  | Call.surfaceCreated surface client => c.surfaceCreated surface client
  | Call.setAppId item appId => c.setAppId item appId
  | Call.setSize item width height => c.setSize item width height
  | Call.createProxyItem appId title subtitle snapshotPath =>
    (c.createProxyItem appId title subtitle snapshotPath).1
  | Call.deleteProxyFor newItem => c.deleteProxyFor newItem
  | Call.onSurfaceMapped surface => c.onSurfaceMapped surface
  | Call.onSurfaceUnmapped surface => c.onSurfaceUnmapped surface
  | Call.onSurfaceDestroyed surface => c.onSurfaceDestroyed surface
  | Call.setFullscreen item => c.setFullscreen item
  | Call.closeWindow window => c.closeWindow window
  | Call.closeWindowKeepItem window => c.closeWindowKeepItem window
  | Call.prepareOutputUpdate => c.prepareOutputUpdate.1
  | Call.finalizeOutputUpdate => c.finalizeOutputUpdate
  | Call.onSurfaceSizeChanged surface => c.onSurfaceSizeChanged surface

/-- The state after a sequence of calls, first call first. -/
def run (c : WebOSCoreCompositor) (calls : List Call) : WebOSCoreCompositor :=
  calls.foldl step c

end WebOSCoreCompositor

/-- Whether a call is `closeWindowKeepItem`. -/
def Call.isCloseWindowKeepItem : Call → Bool
  | Call.closeWindowKeepItem _ => true
  | _ => false

/-- The registry items that are in Proxy state and carry the identity `appId`. -/
def WebOSCoreCompositor.proxiesWithAppId (c : WebOSCoreCompositor) (appId : String) :
    List ItemId :=
  c.m_surfaces.filter (fun j => (c.items j).isProxy && ((c.items j).appId == appId))

/-- The registry items that carry the identity `appId`. -/
def WebOSCoreCompositor.itemsWithAppId (c : WebOSCoreCompositor) (appId : String) :
    List ItemId :=
  c.m_surfaces.filter (fun j => (c.items j).appId == appId)

/-- Registry well-formedness: no item is tracked twice, every tracked address has been
handed out by `new`, and so has every item a surface resolves to. -/
def WebOSCoreCompositor.WellFormed (c : WebOSCoreCompositor) : Prop :=
  c.m_surfaces.Nodup ∧ (∀ j ∈ c.m_surfaces, j < c.nextItem) ∧
    (∀ (t : SurfaceId) (i : ItemId), c.surfaceItem t = some i → i < c.nextItem)

/-- Every item in Proxy state has a null surface reference. -/
def WebOSCoreCompositor.ProxiesHaveNoSurface (c : WebOSCoreCompositor) : Prop :=
  ∀ j : ItemId, (c.items j).isProxy = true → (c.items j).surface = none

/-- Only existing objects are referred to: every tracked item exists, and so does every
item a surface resolves to. -/
def WebOSCoreCompositor.RegistryLive (c : WebOSCoreCompositor) : Prop :=
  (∀ i ∈ c.m_surfaces, c.live i = true) ∧
    (∀ (t : SurfaceId) (i : ItemId), c.surfaceItem t = some i → c.live i = true)

/-- The signal `QWaylandSurface::sizeChanged` of `surface` is emitted. The slot
`onSurfaceSizeChanged` runs when a connection of that signal to it stands (made at line
695), and not otherwise. It runs once also when `connect` was called more than once for
the surface: the first run disconnects every connection of the surface (line 736), and a
connection dropped during the emission is not served any more. -/
def WebOSCoreCompositor.sizeChanged (c : WebOSCoreCompositor) (surface : SurfaceId) :
    WebOSCoreCompositor :=
  if surface ∈ c.sizeChangedConnections then c.onSurfaceSizeChanged surface else c

/-- Two proxies are created, for "tv" and for "mail"; then the real surface 5 of "mail"
appears (item 2). -/
def proxiesThenSurface : List Call :=
  [Call.createProxyItem "tv" "TV" "" "", Call.createProxyItem "mail" "Mail" "" "",
   Call.surfaceCreated 5 (some 1), Call.setAppId 2 "mail"]

/-- Two proxies are created for the same identity "tv"; then the real surface 5 of
"mail" appears (item 2) and is mapped. -/
def twoProxiesThenMapped : List Call :=
  [Call.createProxyItem "tv" "TV" "" "", Call.createProxyItem "tv" "TV" "" "",
   Call.surfaceCreated 5 (some 1), Call.setAppId 2 "mail", Call.onSurfaceMapped 5]

/-- The real surface 5 of "mail" exists (item 0) before any proxy is made. -/
def surfaceOfMail : List Call :=
  [Call.surfaceCreated 5 (some 1), Call.setAppId 0 "mail"]

/-- Surface 5 is created (item 0), sized 1920x1080 and mapped; then
`prepareOutputUpdate` is called twice with no `finalizeOutputUpdate` in between. -/
def preparedTwice : List Call :=
  [Call.surfaceCreated 5 (some 1), Call.setSize 0 1920 1080, Call.onSurfaceMapped 5,
   Call.prepareOutputUpdate, Call.prepareOutputUpdate]

/-- Surface 5 is created (item 0), sized 1920x1080 and mapped; `prepareOutputUpdate` is
called once. -/
def preparedOnce : List Call :=
  [Call.surfaceCreated 5 (some 1), Call.setSize 0 1920 1080, Call.onSurfaceMapped 5,
   Call.prepareOutputUpdate]

/-- Surface 5 is created (item 0), mapped, made fullscreen and closed with
`closeWindowKeepItem`, which turns item 0 into a proxy that still has its surface. -/
def fullscreenThenKeepItem : List Call :=
  [Call.surfaceCreated 5 (some 1), Call.onSurfaceMapped 5, Call.setFullscreen (some 0),
   Call.closeWindowKeepItem (some 0)]

/-- Surface 5, which has no client, is created (item 0), mapped and made fullscreen;
`closeWindow` then deletes item 0 at once, so surface 5 is left without an item while it
is still the current fullscreen surface. -/
def deletedWhileFullscreen : List Call :=
  [Call.surfaceCreated 5 none, Call.onSurfaceMapped 5, Call.setFullscreen (some 0),
   Call.closeWindow (some 0)]

/-- Surface 5 with a live client is created (item 0) and mapped. -/
def mappedWithClient : List Call :=
  [Call.surfaceCreated 5 (some 1), Call.onSurfaceMapped 5]

/-- Surface 5 without a client is created (item 0) and mapped. -/
def mappedWithoutClient : List Call :=
  [Call.surfaceCreated 5 none, Call.onSurfaceMapped 5]

/-- Surface 5, which has no client, is created (item 0), sized 1920x1080 and mapped;
`prepareOutputUpdate` lists item 0 as pending; `closeWindow` then deletes item 0. -/
def closedWhilePending : List Call :=
  [Call.surfaceCreated 5 none, Call.setSize 0 1920 1080, Call.onSurfaceMapped 5,
   Call.prepareOutputUpdate, Call.closeWindow (some 0)]

/-- Surface 5 of "mail" is created (item 0), sized 1920x1080, mapped and closed with
`closeWindowKeepItem`, which leaves item 0 as a proxy with its surface;
`prepareOutputUpdate` lists item 0 as pending; then "mail" is relaunched: its new surface
6 (item 1) is mapped and `deleteProxyFor` deletes item 0. -/
def replacedWhilePending : List Call :=
  [Call.surfaceCreated 5 (some 1), Call.setAppId 0 "mail", Call.setSize 0 1920 1080,
   Call.onSurfaceMapped 5, Call.closeWindowKeepItem (some 0), Call.prepareOutputUpdate,
   Call.surfaceCreated 6 (some 2), Call.setAppId 1 "mail", Call.onSurfaceMapped 6]

/-- Two windows of "mail" are created and mapped (surface 5 with item 0, surface 6 with
item 1); `closeWindowKeepItem` then turns item 0 into a proxy, which stays in the registry
in front of item 1. -/
def secondWindowThenKeepItem : List Call :=
  [Call.surfaceCreated 5 (some 1), Call.setAppId 0 "mail", Call.onSurfaceMapped 5,
   Call.surfaceCreated 6 (some 1), Call.setAppId 1 "mail", Call.onSurfaceMapped 6,
   Call.closeWindowKeepItem (some 0)]

/-- Three proxies are created, for "tv", for "mail" and for "tv" again; then the real
surface 5 of "mail" appears (item 3). -/
def threeProxiesThenSurface : List Call :=
  [Call.createProxyItem "tv" "TV" "" "", Call.createProxyItem "mail" "Mail" "" "",
   Call.createProxyItem "tv" "TV" "" "", Call.surfaceCreated 5 (some 1),
   Call.setAppId 3 "mail"]

/-! ## Input device routing (`MULTIINPUT_SUPPORT`) -/

/-- Identity (address) of a `QWaylandInputDevice` object. -/
abbrev DeviceAddr := Nat

/-- Modelled from the spec: `WebOSInputDevice::getDeviceId(event)` is outside the two
source files; the spec says the router "derives a device identity from the raw event",
the reserved default value being 0. A `QInputEvent` is kept as far as routing reads it:
the field is that identity. -/
structure QInputEvent where
  deviceId : Nat
  deriving DecidableEq, Repr

/-- The input devices of the compositor.

* `inputDevices` is `inputDevices()`, the list kept by the protocol engine;
* `defaultInputDevice` is `defaultInputDevice()`;
* `m_deviceId d` is the identity a `WebOSInputDevice` was stamped with by `setDeviceId`,
  `none` while it has not been stamped;
* `m_inputDevicePreallocated` is the member of that name, `nextDevice` the next address
  `new` hands out. -/
structure InputDeviceTable where
  inputDevices : List DeviceAddr
  defaultInputDevice : DeviceAddr
  m_deviceId : DeviceAddr → Option Nat
  m_inputDevicePreallocated : DeviceAddr
  nextDevice : DeviceAddr

namespace InputDeviceTable

/-- Modelled from the spec: `isOwner` is outside the two source files. The spec speaks of
"an `isOwner(identity)` predicate" and says the default device is "guaranteed to claim
ownership of any event" (so does the comment at lines 768-769); another device owns the
events that carry the identity it was stamped with. -/
def isOwner (t : InputDeviceTable) (d : DeviceAddr) (e : QInputEvent) : Bool :=
  if d = t.defaultInputDevice then true else t.m_deviceId d == some e.deviceId

/-- Modelled from the spec: the constructor `WebOSInputDevice(compositor)` is outside the
two source files. The new device has no identity yet and joins the device list ahead of
the default device, whose place is the last slot. -/
def newWebOSInputDevice (t : InputDeviceTable) : InputDeviceTable × DeviceAddr :=
  let d := t.nextDevice
  ({ t with
      inputDevices := d :: t.inputDevices
      m_deviceId := fun k => if k = d then none else t.m_deviceId k
      nextDevice := d + 1 },
    d)

/-- The device table right after the constructor of the compositor: the default device
(address 0) and the spare made at line 170. -/
def initial : InputDeviceTable :=
  let t0 : InputDeviceTable :=
    { inputDevices := [0], defaultInputDevice := 0, m_deviceId := fun _ => none,
      m_inputDevicePreallocated := 0, nextDevice := 1 }
  let (t1, spare) := t0.newWebOSInputDevice
  { t1 with m_inputDevicePreallocated := spare }

/-- `WebOSCoreCompositor::queryInputDevice` (lines 651-662): null for device id 0;
otherwise the spare is stamped with the identity of the event (`setDeviceId`), a new
spare is made, and the stamped device is returned. -/
def queryInputDevice (t : InputDeviceTable) (e : QInputEvent) :
    InputDeviceTable × Option DeviceAddr :=
  if e.deviceId = 0 then (t, none)
  else
    let newInputDevice := t.m_inputDevicePreallocated
    let t1 :=
      { t with m_deviceId := fun k => if k = newInputDevice then some e.deviceId
                                      else t.m_deviceId k }
    let (t2, spare) := t1.newWebOSInputDevice
    ({ t2 with m_inputDevicePreallocated := spare }, some newInputDevice)

/-- The `for` loop of `inputDeviceFor` (lines 770-776) over the candidates it visits. -/
def firstOwner (t : InputDeviceTable) (e : QInputEvent) : List DeviceAddr → Option DeviceAddr
  | [] => none
  | candidate :: rest => if t.isOwner candidate e then some candidate else firstOwner t e rest

/-- `WebOSCoreCompositor::inputDeviceFor` (lines 764-787), multi-device branch: the loop
visits the indices below `inputDevices().size() - 1`. -/
def inputDeviceFor (t : InputDeviceTable) (e : QInputEvent) : InputDeviceTable × DeviceAddr :=
  match t.firstOwner e (t.inputDevices.take (t.inputDevices.length - 1)) with
  | some dev => (t, dev)
  | none =>
    match t.queryInputDevice e with
    | (t1, some dev) => (t1, dev)
    | (t1, none) => (t1, t1.defaultInputDevice)

/-- The device table after routing a list of events, first event first. -/
def routeEvents (t : InputDeviceTable) (events : List QInputEvent) : InputDeviceTable :=
  events.foldl (fun u e => (u.inputDeviceFor e).1) t

/-- No device other than the default one carries the identity 0. -/
def NoZeroIdentity (t : InputDeviceTable) : Prop :=
  ∀ d ∈ t.inputDevices, d ≠ t.defaultInputDevice → t.m_deviceId d ≠ some 0

/-- Events with the identities 3, 4, 3: two devices get provisioned. -/
def threeEvents : List QInputEvent :=
  [{ deviceId := 3 }, { deviceId := 4 }, { deviceId := 3 }]

end InputDeviceTable

/-! ## Mirror event translator (`webossurfaceitemmirror.cpp`) -/

/-- A `QPointF`. Coordinates are exact rationals: the arithmetic of `translatePoint` is
followed without rounding. -/
structure QPointF where
  x : ℚ
  y : ℚ
  deriving DecidableEq

/-- What `translatePoint` reads from the `WebOSCompositorWindow` of the mirror:
`outputGeometry().width()` and `.height()`, `positionInCluster()` and `clusterSize()`,
all of integer type. -/
structure WebOSCompositorWindow where
  outputWidth : Int
  outputHeight : Int
  positionInClusterX : Int
  positionInClusterY : Int
  clusterWidth : Int
  clusterHeight : Int
  deriving DecidableEq

/-- Modelled from the spec: the members of `WebOSSurfaceItem` the mirror container
calls are outside the two source files. The spec gives an item an `isMirrorItem` flag and
speaks of the source a mirror replicates; `width` and `height` are the logical size of an
item; `createMirrorItem i` is what the renderer returns when asked for a mirror child of
item `i`, null when it fails. -/
structure SceneItems where
  isMirrorItem : ItemId → Bool
  mirrorSource : ItemId → Option ItemId
  width : ItemId → ℚ
  height : ItemId → ℚ
  createMirrorItem : ItemId → Option ItemId

/-- What `setSourceItem` does to the outside world, in program order. -/
inductive MirrorEffect where
  /-- The four `disconnect` calls (lines 45-48). -/
  | disconnectObservers
  /-- Call `m_sourceItem->removeMirrorItem(m_mirrorItem)`. -/
  | removeMirrorItem (source mirror : ItemId)
  /-- Statement `delete m_mirrorItem`. -/
  | deleteMirrorItem (mirror : ItemId)
  /-- Calls `setParentItem(this)`, `setSizeFollowsSurface(false)`, `setSize(size())`. -/
  | adoptMirrorItem (mirror : ItemId)
  /-- The four `connect` calls (lines 71-86). -/
  | connectObservers (source mirror : ItemId)
  /-- The `qWarning` of line 88. -/
  | warnFailedToStart (source : ItemId)
  /-- Signal `sourceItemChanged()`. -/
  | sourceItemChanged
  deriving DecidableEq, Repr

/-- The members of a `WebOSSurfaceItemMirror` and its `window()`. -/
structure WebOSSurfaceItemMirror where
  m_sourceItem : Option ItemId
  m_mirrorItem : Option ItemId
  m_clustered : Bool
  m_propagateEvents : Bool
  window : Option WebOSCompositorWindow
  trace : List MirrorEffect

namespace WebOSSurfaceItemMirror

/-- The redirection of lines 60-63: a source that is a mirror and has a mirror source is
replaced by that mirror source. -/
def redirect (scene : SceneItems) (sourceItem : ItemId) : ItemId :=
  match scene.isMirrorItem sourceItem, scene.mirrorSource sourceItem with
  | true, some u => u
  | _, _ => sourceItem

/-- The block `if (m_sourceItem) { ... }` of `setSourceItem` (lines 44-57). -/
def dropLink (m : WebOSSurfaceItemMirror) : WebOSSurfaceItemMirror :=
  match m.m_sourceItem with
  | none => m
  | some old =>
    let m1 := { m with trace := m.trace ++ [MirrorEffect.disconnectObservers] }
    match m1.m_mirrorItem with
    | none => m1
    | some mirror =>
      { m1 with
          m_mirrorItem := none
          trace := m1.trace ++ [MirrorEffect.removeMirrorItem old mirror,
            MirrorEffect.deleteMirrorItem mirror] }

/-- `WebOSSurfaceItemMirror::setSourceItem` (lines 39-96). -/
def setSourceItem (scene : SceneItems) (m : WebOSSurfaceItemMirror)
    (sourceItem : Option ItemId) : WebOSSurfaceItemMirror :=
  if m.m_sourceItem ≠ sourceItem then
    let m1 := m.dropLink
    match sourceItem with
    | some given =>
      let source := redirect scene given
      let m2 := { m1 with m_mirrorItem := scene.createMirrorItem source }
      match m2.m_mirrorItem with
      | some mirror =>
        { m2 with
            m_sourceItem := some source
            trace := m2.trace ++ [MirrorEffect.adoptMirrorItem mirror,
              MirrorEffect.connectObservers source mirror, MirrorEffect.sourceItemChanged] }
      | none => { m2 with trace := m2.trace ++ [MirrorEffect.warnFailedToStart source] }
    | none =>
      { m1 with m_sourceItem := none, trace := m1.trace ++ [MirrorEffect.sourceItemChanged] }
  else m

/-- `WebOSSurfaceItemMirror::needToPropagate` (lines 217-233); `eventValid` tells whether
the event pointer is non-null. -/
def needToPropagate (m : WebOSSurfaceItemMirror) (eventValid : Bool) : Bool :=
  if !m.m_propagateEvents then false
  else if m.m_sourceItem.isNone then false
  else if !eventValid then false
  else true

/-- The cast `(int)v` of a `qreal` to the 32-bit `int`: truncation toward zero. The
result is `none` where the truncated value is not a 32-bit `int` (below `-2^31` or above
`2^31 - 1`): C++ leaves that conversion undefined. -/
def toInt (v : ℚ) : Option Int :=
  let t : Int := if 0 ≤ v then ⌊v⌋ else ⌈v⌉
  if -2147483648 ≤ t ∧ t ≤ 2147483647 then some t else none

/-- The folding of one coordinate (lines 248-251):
`if (v > size) v = (int)v % size`, with the remainder of C++ (`Int.tmod`). The result is
`none` where the cast is undefined or the divisor is 0. -/
def foldCoordinate (size : Int) (v : ℚ) : Option ℚ :=
  if v > (size : ℚ) then
    match toInt v with
    | none => none
    | some n => if size = 0 then none else some ((Int.tmod n size : Int) : ℚ)
  else some v

/-- `WebOSSurfaceItemMirror::translatePoint` (lines 235-260). The result is `none` where
the behaviour of the C++ code is undefined: a cast or remainder of `foldCoordinate` that
is, or the dereference of a null `m_sourceItem`. -/
def translatePoint (scene : SceneItems) (m : WebOSSurfaceItemMirror) (point : QPointF) :
    Option QPointF :=
  if !m.m_clustered then some point
  else
    match m.window with
    | none => some point
    | some w =>
      match foldCoordinate w.outputWidth point.x with
      | none => none
      | some x1 =>
        match foldCoordinate w.outputHeight point.y with
        | none => none
        | some y1 =>
          let x2 := x1 + (w.positionInClusterX : ℚ)
          let y2 := y1 + (w.positionInClusterY : ℚ)
          match m.m_sourceItem with
          | none => none
          | some source =>
            some { x := x2 * scene.width source / (w.clusterWidth : ℚ)
                   y := y2 * scene.height source / (w.clusterHeight : ℚ) }

/-- The formula of the claim, in the words of the spec: each coordinate is folded into
the single-output bounds by modulo, then offset, then scaled. -/
def specTranslatePoint (w : WebOSCompositorWindow) (sourceWidth sourceHeight : ℚ)
    (point : QPointF) : QPointF :=
  { x := ((point.x - (w.outputWidth : ℚ) * (⌊point.x / (w.outputWidth : ℚ)⌋ : ℚ))
            + (w.positionInClusterX : ℚ)) * sourceWidth / (w.clusterWidth : ℚ)
    y := ((point.y - (w.outputHeight : ℚ) * (⌊point.y / (w.outputHeight : ℚ)⌋ : ℚ))
            + (w.positionInClusterY : ℚ)) * sourceHeight / (w.clusterHeight : ℚ) }

/-- A mirror container with nothing bound; events are propagated. -/
def unbound : WebOSSurfaceItemMirror :=
  { m_sourceItem := none, m_mirrorItem := none, m_clustered := false,
    m_propagateEvents := true, window := none, trace := [] }

/-- A scene in which the renderer makes mirror child 10 for item 1 and fails for every
other item; item 3 is flagged as a mirror item and has no mirror source. -/
def sceneOne : SceneItems :=
  { isMirrorItem := fun i => decide (i = 3)
    mirrorSource := fun _ => none
    width := fun _ => 1280
    height := fun _ => 720
    createMirrorItem := fun i => if i = 1 then some 10 else none }

/-- A scene in which item 3 is flagged as a mirror item without a mirror source, item 4
is a mirror of item 1, and the renderer makes mirror child `i + 10` for item `i`. -/
def sceneTwo : SceneItems :=
  { isMirrorItem := fun i => decide (i = 3 ∨ i = 4)
    mirrorSource := fun i => if i = 4 then some 1 else none
    width := fun _ => 1280
    height := fun _ => 720
    createMirrorItem := fun i => some (i + 10) }

/-- The second tile of a cluster of two 1920x1080 outputs. -/
def secondTile : WebOSCompositorWindow :=
  { outputWidth := 1920, outputHeight := 1080, positionInClusterX := 1920,
    positionInClusterY := 0, clusterWidth := 3840, clusterHeight := 1080 }

/-- A clustered mirror on the second tile, bound to source item 1. -/
def clusteredMirror : WebOSSurfaceItemMirror :=
  { m_sourceItem := some 1, m_mirrorItem := some 11, m_clustered := true,
    m_propagateEvents := true, window := some secondTile, trace := [] }

end WebOSSurfaceItemMirror

/-! ## Theorems -/

namespace WebOSCoreCompositor

/-! ### Fullscreen arbitration -/

/-- Closed form of `setFullscreenSurface` when the argument casts to a surface other than
the current one. -/
theorem setFullscreenSurface_some_ne (c : WebOSCoreCompositor) (s : Option QWaylandSurface)
    (q : SurfaceId) (hs : qobject_cast s = some q) (h : c.m_fullscreenSurface ≠ some q) :
    c.setFullscreenSurface s =
      { c with
          m_previousFullscreenSurface := c.m_fullscreenSurface
          m_fullscreenSurface := some q
          trace := c.trace ++ [Effect.inputMethodDeactivate, Effect.fullscreenSurfaceChanged,
            Effect.fullscreenChanged,
            Effect.fullscreenSurfaceChangedPair c.m_fullscreenSurface (some q)] } := by
  have h' : ¬ (some q = c.m_fullscreenSurface) := fun e => h e.symm
  simp [setFullscreenSurface, hs, h', emit]

/-- Closed form of `setFullscreenSurface` when the argument casts to the current surface. -/
theorem setFullscreenSurface_some_eq (c : WebOSCoreCompositor) (s : Option QWaylandSurface)
    (q : SurfaceId) (hs : qobject_cast s = some q) (h : c.m_fullscreenSurface = some q) :
    c.setFullscreenSurface s = c := by
  simp [setFullscreenSurface, hs, h]

/-- Closed form of `setFullscreenSurface` when the argument casts to null and a surface
is current. -/
theorem setFullscreenSurface_none_ne (c : WebOSCoreCompositor) (s : Option QWaylandSurface)
    (hs : qobject_cast s = none) (h : c.m_fullscreenSurface ≠ none) :
    c.setFullscreenSurface s =
      { c with
          m_previousFullscreenSurface := none
          m_fullscreenSurface := none
          trace := c.trace ++ [Effect.homeScreenExposed, Effect.inputMethodDeactivate,
            Effect.fullscreenSurfaceChanged, Effect.fullscreenChanged,
            Effect.fullscreenSurfaceChangedPair none none] } := by
  have h' : ¬ (none = c.m_fullscreenSurface) := fun e => h e.symm
  simp [setFullscreenSurface, hs, h', emit]

/-- Closed form of `setFullscreenSurface` when the argument casts to null and no surface
is current: only `homeScreenExposed` is emitted. -/
theorem setFullscreenSurface_none_eq (c : WebOSCoreCompositor) (s : Option QWaylandSurface)
    (hs : qobject_cast s = none) (h : c.m_fullscreenSurface = none) :
    c.setFullscreenSurface s = c.emit Effect.homeScreenExposed := by
  simp [setFullscreenSurface, hs, h, emit]

/-- After `setFullscreen(A)` for an item with a surface, that surface is current and the
item still refers to it. -/
theorem setFullscreen_item_surface (c : WebOSCoreCompositor) (A : ItemId) (a : SurfaceId)
    (hA : (c.items A).surface = some a) :
    (c.setFullscreen (some A)).m_fullscreenSurface = some a ∧
    ((c.setFullscreen (some A)).items A).surface = some a := by
  have hq : qobject_cast ((c.items A).surface.map QWaylandSurface.quick) = some a := by
    simp [hA, qobject_cast]
  by_cases hc : c.m_fullscreenSurface = some a
  · simp only [setFullscreen]
    rw [setFullscreenSurface_some_eq c _ a hq hc]
    exact ⟨hc, hA⟩
  · simp only [setFullscreen]
    rw [setFullscreenSurface_some_ne c _ a hq hc]
    exact ⟨rfl, hA⟩

/-- C1: when the candidate (the `QWaylandQuickSurface` the argument casts to, null for a
null argument) differs from the current fullscreen surface, `setFullscreenSurface` sets
previous to null for a null candidate and to the old current otherwise, sets current to the
candidate, and appends to the trace: `homeScreenExposed` exactly when the candidate is null,
then the input method deactivation, then both fullscreen-changed signals (the plain one
with the `fullscreenChanged()` it is forwarded to, and the paired one carrying the new
previous and the new current). In particular, for an item `A` with a
surface, `setFullscreen(null)` right after `setFullscreen(A)` leaves previous and current
null. -/
theorem setFullscreenSurface_of_ne (c : WebOSCoreCompositor) (s : Option QWaylandSurface)
    (h : qobject_cast s ≠ c.m_fullscreenSurface) :
    (c.setFullscreenSurface s).m_previousFullscreenSurface
        = (if qobject_cast s = none then none else c.m_fullscreenSurface) ∧
    (c.setFullscreenSurface s).m_fullscreenSurface = qobject_cast s ∧
    (c.setFullscreenSurface s).trace
        = c.trace ++ (if qobject_cast s = none then [Effect.homeScreenExposed] else [])
            ++ [Effect.inputMethodDeactivate, Effect.fullscreenSurfaceChanged,
                Effect.fullscreenChanged,
                Effect.fullscreenSurfaceChangedPair
                  (c.setFullscreenSurface s).m_previousFullscreenSurface
                  (c.setFullscreenSurface s).m_fullscreenSurface] ∧
    (∀ (A : ItemId) (a : SurfaceId), (c.items A).surface = some a →
      (c.setFullscreen (some A)).m_fullscreenSurface = some a ∧
      ((c.setFullscreen (some A)).setFullscreen none).m_previousFullscreenSurface = none ∧
      ((c.setFullscreen (some A)).setFullscreen none).m_fullscreenSurface = none) := by
  refine ⟨?_, ?_, ?_, ?_⟩
  · cases hq : qobject_cast s with
    | none => rw [setFullscreenSurface_none_ne c s hq (fun e => h (hq.trans e.symm))]; simp
    | some q => rw [setFullscreenSurface_some_ne c s q hq (fun e => h (hq.trans e.symm))]; simp
  · cases hq : qobject_cast s with
    | none => rw [setFullscreenSurface_none_ne c s hq (fun e => h (hq.trans e.symm))]
    | some q => rw [setFullscreenSurface_some_ne c s q hq (fun e => h (hq.trans e.symm))]
  · cases hq : qobject_cast s with
    | none => rw [setFullscreenSurface_none_ne c s hq (fun e => h (hq.trans e.symm))]; simp
    | some q => rw [setFullscreenSurface_some_ne c s q hq (fun e => h (hq.trans e.symm))]; simp
  · intro A a hA
    have h1 := (setFullscreen_item_surface c A a hA).1
    refine ⟨h1, ?_⟩
    generalize c.setFullscreen (some A) = d at h1 ⊢
    have hd : d.m_fullscreenSurface ≠ none := by simp [h1]
    simp only [setFullscreen]
    rw [setFullscreenSurface_none_ne d none rfl hd]
    exact ⟨rfl, rfl⟩

/-- Witness for C1: from the initial state (nothing fullscreen), surface 7 becomes
current, previous stays null and the trace holds the deactivation and the signals; and
with surface 5 of item 0 created, `setFullscreen(item 0)` followed by
`setFullscreen(null)` ends with previous and current null. -/
theorem setFullscreenSurface_of_ne_witness :
    qobject_cast (some (QWaylandSurface.quick 7)) ≠ initial.m_fullscreenSurface ∧
    (initial.setFullscreenSurface (some (QWaylandSurface.quick 7))).m_fullscreenSurface
      = some 7 ∧
    (initial.setFullscreenSurface (some (QWaylandSurface.quick 7))).trace
      = [Effect.inputMethodDeactivate, Effect.fullscreenSurfaceChanged,
         Effect.fullscreenChanged, Effect.fullscreenSurfaceChangedPair none (some 7)] ∧
    qobject_cast (some (QWaylandSurface.quick 7))
      ≠ (initial.surfaceCreated 5 (some 1)).m_fullscreenSurface ∧
    ((initial.surfaceCreated 5 (some 1)).items 0).surface = some 5 ∧
    (((initial.surfaceCreated 5 (some 1)).setFullscreen (some 0)).m_fullscreenSurface = some 5 ∧
     (((initial.surfaceCreated 5 (some 1)).setFullscreen (some 0)).setFullscreen
        none).m_previousFullscreenSurface = none ∧
     (((initial.surfaceCreated 5 (some 1)).setFullscreen (some 0)).setFullscreen
        none).m_fullscreenSurface = none) :=
  ⟨by decide,
   (setFullscreenSurface_of_ne initial (some (QWaylandSurface.quick 7)) (by decide)).2.1,
   by decide, by decide, by decide,
   (setFullscreenSurface_of_ne (initial.surfaceCreated 5 (some 1))
      (some (QWaylandSurface.quick 7)) (by decide)).2.2.2 0 5 (by decide)⟩

/-- C2, counterexample: in the initial state the current fullscreen surface is null; a
call with a null candidate (equal to current) still emits `homeScreenExposed`, so the
call is not free of notifications. -/
theorem setFullscreenSurface_null_on_null_emits :
    qobject_cast none = initial.m_fullscreenSurface ∧
    (initial.setFullscreenSurface none).trace = initial.trace ++ [Effect.homeScreenExposed] ∧
    (initial.setFullscreenSurface none).trace ≠ initial.trace := by
  decide

/-- C2, amended: when the candidate equals the current fullscreen surface, previous and
current are unchanged and the trace gains no input method deactivation and no
fullscreen-changed signal: it gains nothing at all when the candidate is a surface (the
whole state is unchanged), and exactly one `homeScreenExposed` when candidate and current
are both null. Hence `setFullscreen(A)` twice in a row, for an item `A` with a surface,
changes nothing the second time. -/
theorem setFullscreenSurface_of_eq (c : WebOSCoreCompositor) (s : Option QWaylandSurface)
    (h : qobject_cast s = c.m_fullscreenSurface) :
    (c.setFullscreenSurface s).m_previousFullscreenSurface = c.m_previousFullscreenSurface ∧
    (c.setFullscreenSurface s).m_fullscreenSurface = c.m_fullscreenSurface ∧
    (c.setFullscreenSurface s).trace
        = c.trace ++ (if qobject_cast s = none then [Effect.homeScreenExposed] else []) ∧
    (qobject_cast s ≠ none → c.setFullscreenSurface s = c) ∧
    (∀ (A : ItemId) (a : SurfaceId), (c.items A).surface = some a →
      (c.setFullscreen (some A)).setFullscreen (some A) = c.setFullscreen (some A)) := by
  have key : (qobject_cast s ≠ none → c.setFullscreenSurface s = c) ∧
      (qobject_cast s = none → c.setFullscreenSurface s = c.emit Effect.homeScreenExposed) := by
    cases hq : qobject_cast s with
    | none =>
      exact ⟨fun e => absurd rfl e,
        fun _ => setFullscreenSurface_none_eq c s hq (h.symm.trans hq)⟩
    | some q =>
      exact ⟨fun _ => setFullscreenSurface_some_eq c s q hq (h.symm.trans hq),
        fun e => by simp at e⟩
  refine ⟨?_, ?_, ?_, key.1, ?_⟩
  · by_cases hq : qobject_cast s = none
    · rw [key.2 hq]; rfl
    · rw [key.1 hq]
  · by_cases hq : qobject_cast s = none
    · rw [key.2 hq]; rfl
    · rw [key.1 hq]
  · by_cases hq : qobject_cast s = none
    · rw [key.2 hq]; simp [hq, emit]
    · rw [key.1 hq]; simp [hq]
  · intro A a hA
    obtain ⟨h1, h2⟩ := setFullscreen_item_surface c A a hA
    generalize c.setFullscreen (some A) = d at h1 h2 ⊢
    have hq : qobject_cast ((d.items A).surface.map QWaylandSurface.quick) = some a := by
      simp [h2, qobject_cast]
    simp only [setFullscreen]
    exact setFullscreenSurface_some_eq d _ a hq h1

/-- Witness for amended C2: with surface 7 current, asking for surface 7 again leaves
the trace as it was. -/
theorem setFullscreenSurface_of_eq_witness :
    qobject_cast (some (QWaylandSurface.quick 7))
      = (initial.setFullscreenSurface (some (QWaylandSurface.quick 7))).m_fullscreenSurface ∧
    ((initial.setFullscreenSurface (some (QWaylandSurface.quick 7))).setFullscreenSurface
        (some (QWaylandSurface.quick 7))).trace
      = (initial.setFullscreenSurface (some (QWaylandSurface.quick 7))).trace ++
          (if qobject_cast (some (QWaylandSurface.quick 7)) = none
            then [Effect.homeScreenExposed] else []) :=
  ⟨by decide,
   (setFullscreenSurface_of_eq (initial.setFullscreenSurface (some (QWaylandSurface.quick 7)))
      (some (QWaylandSurface.quick 7)) (by decide)).2.2.1⟩

/-! ### Proxy substitution: the loop of `deleteProxyFor` -/

/-- The loop test reads only the item records. -/
theorem isProxyFor_congr (c d : WebOSCoreCompositor) (h : d.items = c.items)
    (n j : ItemId) : d.isProxyFor n j = c.isProxyFor n j := by
  simp [isProxyFor, h]

/-- An item is never a proxy for itself: the test `newItem != item` fails. -/
theorem isProxyFor_self (c : WebOSCoreCompositor) (n : ItemId) : c.isProxyFor n n = false := by
  simp [isProxyFor]

/-- Removing one proxy does not touch the item records. -/
theorem removeProxy_items (c : WebOSCoreCompositor) (before rest : List ItemId)
    (item : ItemId) : (c.removeProxy before rest item).items = c.items := rfl

/-- The loop test is the same before and after one removal. -/
theorem removeProxy_isProxyFor (c : WebOSCoreCompositor) (before rest : List ItemId)
    (item n j : ItemId) : (c.removeProxy before rest item).isProxyFor n j = c.isProxyFor n j :=
  isProxyFor_congr c _ rfl n j

/-- One loop iteration on an element that passes the test. -/
theorem deleteProxyForLoop_cons_pos (n item : ItemId) (before rest : List ItemId)
    (c : WebOSCoreCompositor) (h : c.isProxyFor n item = true) :
    deleteProxyForLoop n before (item :: rest) c
      = deleteProxyForLoop n before rest (c.removeProxy before rest item) := by
  simp [deleteProxyForLoop, h]

/-- One loop iteration on an element that fails the test. -/
theorem deleteProxyForLoop_cons_neg (n item : ItemId) (before rest : List ItemId)
    (c : WebOSCoreCompositor) (h : c.isProxyFor n item = false) :
    deleteProxyForLoop n before (item :: rest) c
      = deleteProxyForLoop n (before ++ [item]) rest c := by
  simp [deleteProxyForLoop, h]

/-- The loop leaves untouched everything but the registry, the liveness map, the
surface-to-item map and the trace. -/
theorem deleteProxyForLoop_frame (n : ItemId) (rest : List ItemId) :
    ∀ (before : List ItemId) (c : WebOSCoreCompositor),
      (deleteProxyForLoop n before rest c).items = c.items ∧
      (deleteProxyForLoop n before rest c).nextItem = c.nextItem ∧
      (deleteProxyForLoop n before rest c).client = c.client ∧
      (deleteProxyForLoop n before rest c).m_surfacesOnUpdate = c.m_surfacesOnUpdate ∧
      (deleteProxyForLoop n before rest c).m_previousFullscreenSurface
        = c.m_previousFullscreenSurface ∧
      (deleteProxyForLoop n before rest c).m_fullscreenSurface = c.m_fullscreenSurface ∧
      (deleteProxyForLoop n before rest c).m_fullscreenTick = c.m_fullscreenTick ∧
      (deleteProxyForLoop n before rest c).sizeChangedConnections
        = c.sizeChangedConnections := by
  induction rest with
  | nil => intro before c; simp [deleteProxyForLoop]
  | cons item rest ih =>
    intro before c
    cases hp : c.isProxyFor n item with
    | true =>
      rw [deleteProxyForLoop_cons_pos n item before rest c hp]
      exact ih before (c.removeProxy before rest item)
    | false =>
      rw [deleteProxyForLoop_cons_neg n item before rest c hp]
      exact ih (before ++ [item]) c

/-- The registry after the loop: what was kept before the iterator, then the remaining
elements that fail the loop test. -/
theorem deleteProxyForLoop_surfaces (n : ItemId) (rest : List ItemId) :
    ∀ (before : List ItemId) (c : WebOSCoreCompositor), c.m_surfaces = before ++ rest →
      (deleteProxyForLoop n before rest c).m_surfaces
        = before ++ rest.filter (fun j => !c.isProxyFor n j) := by
  induction rest with
  | nil => intro before c h; simpa [deleteProxyForLoop] using h
  | cons item rest ih =>
    intro before c h
    cases hp : c.isProxyFor n item with
    | true =>
      rw [deleteProxyForLoop_cons_pos n item before rest c hp,
        ih before (c.removeProxy before rest item) rfl]
      simp [removeProxy_isProxyFor, hp]
    | false =>
      rw [deleteProxyForLoop_cons_neg n item before rest c hp,
        ih (before ++ [item]) c (by simp [h])]
      simp [hp]

/-- The trace after the loop: three effects for every element that passes the test. -/
theorem deleteProxyForLoop_trace (n : ItemId) (rest : List ItemId) :
    ∀ (before : List ItemId) (c : WebOSCoreCompositor),
      (deleteProxyForLoop n before rest c).trace
        = c.trace ++ ((rest.filter (fun j => c.isProxyFor n j)).map deleteEffects).flatten := by
  induction rest with
  | nil => intro before c; simp [deleteProxyForLoop]
  | cons item rest ih =>
    intro before c
    cases hp : c.isProxyFor n item with
    | true =>
      rw [deleteProxyForLoop_cons_pos n item before rest c hp,
        ih before (c.removeProxy before rest item)]
      have ht : (c.removeProxy before rest item).trace = c.trace ++ deleteEffects item := by
        simp [removeProxy, emit, deleteItem, deleteEffects]
      simp [removeProxy_isProxyFor, hp, ht]
    | false =>
      rw [deleteProxyForLoop_cons_neg n item before rest c hp, ih (before ++ [item]) c]
      simp [hp]

/-- The objects that exist after the loop: those that existed before and were not
deleted by it. -/
theorem deleteProxyForLoop_live (n : ItemId) (rest : List ItemId) :
    ∀ (before : List ItemId) (c : WebOSCoreCompositor) (k : ItemId),
      (deleteProxyForLoop n before rest c).live k
        = (c.live k && !(rest.filter (fun j => c.isProxyFor n j)).contains k) := by
  induction rest with
  | nil => intro before c k; simp [deleteProxyForLoop]
  | cons item rest ih =>
    intro before c k
    cases hp : c.isProxyFor n item with
    | true =>
      rw [deleteProxyForLoop_cons_pos n item before rest c hp,
        ih before (c.removeProxy before rest item) k]
      have hl : (c.removeProxy before rest item).live k = (if k = item then false else c.live k) := by
        simp [removeProxy, emit, deleteItem]
      by_cases hk : k = item
      · subst hk
        simp [removeProxy_isProxyFor, hp, hl]
      · simp [removeProxy_isProxyFor, hp, hl, hk]
    | false =>
      rw [deleteProxyForLoop_cons_neg n item before rest c hp, ih (before ++ [item]) c k]
      simp [hp]

/-- When no remaining element passes the test, the loop changes nothing. -/
theorem deleteProxyForLoop_noop (n : ItemId) (rest : List ItemId) :
    ∀ (before : List ItemId) (c : WebOSCoreCompositor),
      (∀ j ∈ rest, c.isProxyFor n j = false) → deleteProxyForLoop n before rest c = c := by
  induction rest with
  | nil => intro before c _; simp [deleteProxyForLoop]
  | cons item rest ih =>
    intro before c h
    have hp : c.isProxyFor n item = false := h item (by simp)
    rw [deleteProxyForLoop_cons_neg n item before rest c hp]
    exact ih (before ++ [item]) c (fun j hj => h j (by simp [hj]))

/-- `deleteProxyFor` does not touch the item records. -/
theorem deleteProxyFor_items (c : WebOSCoreCompositor) (n : ItemId) :
    (c.deleteProxyFor n).items = c.items :=
  (deleteProxyForLoop_frame n c.m_surfaces [] c).1

/-- `deleteProxyFor` filters the registry by the negated loop test. -/
theorem deleteProxyFor_surfaces (c : WebOSCoreCompositor) (n : ItemId) :
    (c.deleteProxyFor n).m_surfaces = c.m_surfaces.filter (fun j => !c.isProxyFor n j) := by
  have := deleteProxyForLoop_surfaces n c.m_surfaces [] c (by simp)
  simpa [deleteProxyFor] using this

/-- The trace of `deleteProxyFor`. -/
theorem deleteProxyFor_trace (c : WebOSCoreCompositor) (n : ItemId) :
    (c.deleteProxyFor n).trace
      = c.trace ++ ((c.m_surfaces.filter (fun j => c.isProxyFor n j)).map deleteEffects).flatten :=
  deleteProxyForLoop_trace n c.m_surfaces [] c

/-- The objects that exist after `deleteProxyFor`. -/
theorem deleteProxyFor_live (c : WebOSCoreCompositor) (n k : ItemId) :
    (c.deleteProxyFor n).live k
      = (c.live k && !(c.m_surfaces.filter (fun j => c.isProxyFor n j)).contains k) :=
  deleteProxyForLoop_live n c.m_surfaces [] c k

/-- C7: `deleteProxyFor` is idempotent. A second call right after the first returns the
state of the first call unchanged: the registry is the same, no object is deleted and
nothing is appended to the trace. -/
theorem deleteProxyFor_idempotent (c : WebOSCoreCompositor) (newItem : ItemId) :
    (c.deleteProxyFor newItem).deleteProxyFor newItem = c.deleteProxyFor newItem ∧
    ((c.deleteProxyFor newItem).deleteProxyFor newItem).m_surfaces
      = (c.deleteProxyFor newItem).m_surfaces ∧
    ((c.deleteProxyFor newItem).deleteProxyFor newItem).live
      = (c.deleteProxyFor newItem).live ∧
    ((c.deleteProxyFor newItem).deleteProxyFor newItem).trace
      = (c.deleteProxyFor newItem).trace := by
  have key : (c.deleteProxyFor newItem).deleteProxyFor newItem = c.deleteProxyFor newItem := by
    have hno : ∀ j ∈ (c.deleteProxyFor newItem).m_surfaces,
        (c.deleteProxyFor newItem).isProxyFor newItem j = false := by
      intro j hj
      rw [deleteProxyFor_surfaces] at hj
      rw [isProxyFor_congr c _ (deleteProxyFor_items c newItem)]
      simpa using (List.mem_filter.mp hj).2
    exact deleteProxyForLoop_noop newItem _ [] _ hno
  exact ⟨key, by rw [key], by rw [key], by rw [key]⟩

/-! ### Surface registry: `onSurfaceMapped` -/

/-- The mapped item itself always survives `deleteProxyFor`, so it is tracked afterwards
exactly when it was tracked before. -/
theorem mem_deleteProxyFor_self (c : WebOSCoreCompositor) (i : ItemId) :
    i ∈ (c.deleteProxyFor i).m_surfaces ↔ i ∈ c.m_surfaces := by
  rw [deleteProxyFor_surfaces, List.mem_filter]
  simp [isProxyFor_self]

/-- The item records after `onSurfaceMapped`: only the state of the mapped item is
written. -/
theorem onSurfaceMapped_items (c : WebOSCoreCompositor) (s : SurfaceId) (i : ItemId)
    (h : c.surfaceItem s = some i) :
    (c.onSurfaceMapped s).items
      = fun j => if j = i then { c.items j with itemState := ItemState.ItemStateNormal }
                 else c.items j := by
  simp only [onSurfaceMapped, h]
  split <;> simp [emit, setItemState, modifyItem, deleteProxyFor_items]

/-- The registry after `onSurfaceMapped`. -/
theorem onSurfaceMapped_surfaces (c : WebOSCoreCompositor) (s : SurfaceId) (i : ItemId)
    (h : c.surfaceItem s = some i) :
    (c.onSurfaceMapped s).m_surfaces
      = if i ∈ c.m_surfaces then c.m_surfaces.filter (fun j => !c.isProxyFor i j)
        else c.m_surfaces.filter (fun j => !c.isProxyFor i j) ++ [i] := by
  have hm := mem_deleteProxyFor_self c i
  simp only [onSurfaceMapped, h]
  by_cases hi : i ∈ c.m_surfaces
  · have hi' : i ∈ (c.deleteProxyFor i).m_surfaces := hm.mpr hi
    simp [emit, setItemState, modifyItem, hi, hi', deleteProxyFor_surfaces, isProxyFor_self]
  · have hi' : i ∉ (c.deleteProxyFor i).m_surfaces := fun e => hi (hm.mp e)
    simp [emit, setItemState, modifyItem, hi, hi', deleteProxyFor_surfaces, isProxyFor_self]

/-- The trace after `onSurfaceMapped`. -/
theorem onSurfaceMapped_trace (c : WebOSCoreCompositor) (s : SurfaceId) (i : ItemId)
    (h : c.surfaceItem s = some i) :
    (c.onSurfaceMapped s).trace
      = c.trace ++ ((c.m_surfaces.filter (fun j => c.isProxyFor i j)).map deleteEffects).flatten
          ++ (if i ∈ c.m_surfaces then [] else [Effect.modelSurfaceMapped i])
          ++ [Effect.surfaceMapped i] := by
  have hm := mem_deleteProxyFor_self c i
  simp only [onSurfaceMapped, h]
  by_cases hi : i ∈ c.m_surfaces
  · have hi' : i ∈ (c.deleteProxyFor i).m_surfaces := hm.mpr hi
    simp [emit, setItemState, modifyItem, hi, hi', deleteProxyFor_trace, deleteProxyFor_surfaces, isProxyFor_self]
  · have hi' : i ∉ (c.deleteProxyFor i).m_surfaces := fun e => hi (hm.mp e)
    simp [emit, setItemState, modifyItem, hi, hi', deleteProxyFor_trace, deleteProxyFor_surfaces, isProxyFor_self]

/-- The position of a kept element in a filtered list: the number of kept elements in
front of it. -/
theorem indexOf_filter_of_kept {α : Type} [DecidableEq α] (p : α → Bool) (i : α)
    (hp : p i = true) :
    ∀ l : List α, i ∈ l →
      (l.filter p).indexOf i = ((l.take (l.indexOf i)).filter p).length := by
  intro l
  induction l with
  | nil => intro h; simp at h
  | cons a t ih =>
    intro h
    by_cases ha : a = i
    · subst ha
      simp [hp]
    · have hi : i ∈ t := by
        rcases List.mem_cons.mp h with e | e
        · exact absurd e.symm ha
        · exact e
      rw [List.indexOf_cons_ne _ ha]
      by_cases hpa : p a = true
      · simp [hpa, List.indexOf_cons_ne _ ha, ih hi]
      · simp [hpa, ih hi]

/-- C4, counterexample: two windows of "mail" are tracked, items 0 and 1 in this order,
and item 0 has been turned into a proxy by `closeWindowKeepItem`. `onSurfaceMapped` for
surface 6 of the tracked item 1 lets `deleteProxyFor` take the proxy out in front of it:
item 1 moves from position 1 to position 0. -/
theorem onSurfaceMapped_moves_tracked_item :
    (initial.run secondWindowThenKeepItem).surfaceItem 6 = some 1 ∧
    (initial.run secondWindowThenKeepItem).m_surfaces = [0, 1] ∧
    (initial.run secondWindowThenKeepItem).m_surfaces.indexOf 1 = 1 ∧
    ((initial.run secondWindowThenKeepItem).onSurfaceMapped 6).m_surfaces = [1] ∧
    ((initial.run secondWindowThenKeepItem).onSurfaceMapped 6).m_surfaces.indexOf 1 = 0 ∧
    ((initial.run secondWindowThenKeepItem).onSurfaceMapped 6).m_surfaces.indexOf 1
      ≠ (initial.run secondWindowThenKeepItem).m_surfaces.indexOf 1 := by
  decide

/-- C4, amended: for a raw surface that resolves to an item occurring at most once in the
registry (the registry never holds an item twice), after `onSurfaceMapped` the item is in
state Normal and occurs in the registry exactly once; if it was tracked, the registry is
the old one without the deleted proxies, so the item keeps its place among the survivors:
its position is the number of surviving items in front of it, and is unchanged when no
proxy of its identity stood in front of it; if it was not tracked it is appended at the
end; the other surviving items keep their relative order; and the trace ends with the
surface-mapped signal for the item. -/
theorem onSurfaceMapped_registry (c : WebOSCoreCompositor) (s : SurfaceId) (i : ItemId)
    (h : c.surfaceItem s = some i) (hcount : c.m_surfaces.count i ≤ 1) :
    ((c.onSurfaceMapped s).items i).itemState = ItemState.ItemStateNormal ∧
    (c.onSurfaceMapped s).m_surfaces.count i = 1 ∧
    (i ∈ c.m_surfaces →
      (c.onSurfaceMapped s).m_surfaces = c.m_surfaces.filter (fun j => !c.isProxyFor i j)) ∧
    (i ∉ c.m_surfaces →
      (c.onSurfaceMapped s).m_surfaces
        = c.m_surfaces.filter (fun j => !c.isProxyFor i j) ++ [i]) ∧
    ((c.onSurfaceMapped s).m_surfaces.filter (fun j => j ≠ i)).Sublist c.m_surfaces ∧
    (c.onSurfaceMapped s).trace
      = c.trace ++ ((c.m_surfaces.filter (fun j => c.isProxyFor i j)).map deleteEffects).flatten
          ++ (if i ∈ c.m_surfaces then [] else [Effect.modelSurfaceMapped i])
          ++ [Effect.surfaceMapped i] ∧
    (i ∈ c.m_surfaces →
      (c.onSurfaceMapped s).m_surfaces.indexOf i
        = ((c.m_surfaces.take (c.m_surfaces.indexOf i)).filter
            (fun j => !c.isProxyFor i j)).length) ∧
    (i ∈ c.m_surfaces →
      (∀ j ∈ c.m_surfaces.take (c.m_surfaces.indexOf i), c.isProxyFor i j = false) →
      (c.onSurfaceMapped s).m_surfaces.indexOf i = c.m_surfaces.indexOf i) := by
  have hkeep : (fun j => !c.isProxyFor i j) i = true := by simp [isProxyFor_self]
  have hcf : (c.m_surfaces.filter (fun j => !c.isProxyFor i j)).count i = c.m_surfaces.count i :=
    List.count_filter hkeep
  have hpos : i ∈ c.m_surfaces →
      (c.onSurfaceMapped s).m_surfaces.indexOf i
        = ((c.m_surfaces.take (c.m_surfaces.indexOf i)).filter
            (fun j => !c.isProxyFor i j)).length := by
    intro hi
    rw [onSurfaceMapped_surfaces c s i h, if_pos hi]
    exact indexOf_filter_of_kept (fun j => !c.isProxyFor i j) i hkeep c.m_surfaces hi
  have hsame : i ∈ c.m_surfaces →
      (∀ j ∈ c.m_surfaces.take (c.m_surfaces.indexOf i), c.isProxyFor i j = false) →
      (c.onSurfaceMapped s).m_surfaces.indexOf i = c.m_surfaces.indexOf i := by
    intro hi hfront
    rw [hpos hi]
    have hall : (c.m_surfaces.take (c.m_surfaces.indexOf i)).filter
        (fun j => !c.isProxyFor i j) = c.m_surfaces.take (c.m_surfaces.indexOf i) :=
      List.filter_eq_self.mpr (by intro j hj; simp [hfront j hj])
    rw [hall, List.length_take]
    exact Nat.min_eq_left List.indexOf_le_length
  refine ⟨?_, ?_, ?_, ?_, ?_, onSurfaceMapped_trace c s i h, hpos, hsame⟩
  · rw [onSurfaceMapped_items c s i h]; simp
  · rw [onSurfaceMapped_surfaces c s i h]
    by_cases hi : i ∈ c.m_surfaces
    · have hpos : 0 < c.m_surfaces.count i := List.count_pos_iff.mpr hi
      simp only [hi, if_true, hcf]
      omega
    · have hz : c.m_surfaces.count i = 0 := List.count_eq_zero.mpr hi
      simp [hi, List.count_append, hcf, hz]
  · intro hi; rw [onSurfaceMapped_surfaces c s i h]; simp [hi]
  · intro hi; rw [onSurfaceMapped_surfaces c s i h]; simp [hi]
  · rw [onSurfaceMapped_surfaces c s i h]
    by_cases hi : i ∈ c.m_surfaces
    · simp only [hi, if_true]
      exact (List.filter_sublist _).trans (List.filter_sublist _)
    · simp only [hi, if_false, List.filter_append]
      have : List.filter (fun j => decide (j ≠ i)) [i] = [] := by simp
      rw [this, List.append_nil]
      exact (List.filter_sublist _).trans (List.filter_sublist _)

/-- Witness for amended C4: after two proxies ("tv", "mail") and the creation of the real
"mail" surface 5 with item 2, mapping surface 5 turns the registry `[0, 1]` into
`[0, 2]`. With item 1 tracked behind the "mail" proxy 0, mapping its surface 6 turns the
registry `[0, 1]` into `[1]`: no surviving item stands in front of item 1. -/
theorem onSurfaceMapped_registry_witness :
    ((initial.run proxiesThenSurface).surfaceItem 5 = some 2 ∧
      (initial.run proxiesThenSurface).m_surfaces.count 2 ≤ 1 ∧
      (initial.run proxiesThenSurface).m_surfaces = [0, 1] ∧
      ((initial.run proxiesThenSurface).onSurfaceMapped 5).m_surfaces = [0, 2] ∧
      ((initial.run proxiesThenSurface).onSurfaceMapped 5).m_surfaces.count 2 = 1) ∧
    ((initial.run secondWindowThenKeepItem).surfaceItem 6 = some 1 ∧
      (initial.run secondWindowThenKeepItem).m_surfaces.count 1 ≤ 1 ∧
      1 ∈ (initial.run secondWindowThenKeepItem).m_surfaces ∧
      ((initial.run secondWindowThenKeepItem).onSurfaceMapped 6).m_surfaces = [1] ∧
      ((initial.run secondWindowThenKeepItem).onSurfaceMapped 6).m_surfaces.indexOf 1
        = (((initial.run secondWindowThenKeepItem).m_surfaces.take
              ((initial.run secondWindowThenKeepItem).m_surfaces.indexOf 1)).filter
            (fun j => !(initial.run secondWindowThenKeepItem).isProxyFor 1 j)).length ∧
      (((initial.run secondWindowThenKeepItem).m_surfaces.take
            ((initial.run secondWindowThenKeepItem).m_surfaces.indexOf 1)).filter
          (fun j => !(initial.run secondWindowThenKeepItem).isProxyFor 1 j)).length = 0) :=
  ⟨⟨by decide, by decide, by decide, by decide,
    (onSurfaceMapped_registry (initial.run proxiesThenSurface) 5 2 (by decide)
      (by decide)).2.1⟩,
   ⟨by decide, by decide, by decide, by decide,
    (onSurfaceMapped_registry (initial.run secondWindowThenKeepItem) 6 1 (by decide)
      (by decide)).2.2.2.2.2.2.1 (by decide),
    by decide⟩⟩

/-! ### Proxy substitution: `createProxyItem` followed by `onSurfaceMapped` -/

/-- The address `createProxyItem` returns is the next free one. -/
theorem createProxyItem_snd (c : WebOSCoreCompositor) (X t sb sn : String) :
    (c.createProxyItem X t sb sn).2 = c.nextItem := rfl

/-- The registry after `createProxyItem`: the proxy is appended. -/
theorem createProxyItem_surfaces (c : WebOSCoreCompositor) (X t sb sn : String) :
    (c.createProxyItem X t sb sn).1.m_surfaces = c.m_surfaces ++ [c.nextItem] := rfl

/-- The record of the proxy made by `createProxyItem`. -/
theorem createProxyItem_items_new (c : WebOSCoreCompositor) (X t sb sn : String) :
    (c.createProxyItem X t sb sn).1.items c.nextItem
      = { appId := X, title := t, subtitle := sb, cardSnapShotFilePath := sn,
          itemState := ItemState.ItemStateProxy, surface := none,
          lastFullscreenTick := c.m_fullscreenTick, width := 0, height := 0 } := by
  simp [createProxyItem, newItem, setAppId, setItemState, modifyItem, emit,
    WebOSSurfaceItem.new]

/-- The records of the other items are untouched by `createProxyItem`. -/
theorem createProxyItem_items_old (c : WebOSCoreCompositor) (X t sb sn : String)
    (j : ItemId) (hj : j ≠ c.nextItem) :
    (c.createProxyItem X t sb sn).1.items j = c.items j := by
  simp [createProxyItem, newItem, setAppId, setItemState, modifyItem, emit, hj]

/-- C5: starting from a registry that holds no item with appId `X`, after
`createProxyItem(X, ...)` followed by `onSurfaceMapped` of a surface whose item `r` has
appId `X` and is not the proxy, the registry items with appId `X` are exactly `[r]`; `r`
is in Normal state, hence no proxy; and the proxy is out of the registry and deleted. -/
theorem createProxyItem_then_onSurfaceMapped (c : WebOSCoreCompositor)
    (X t sb sn : String) (s : SurfaceId) (r : ItemId)
    (hreg : ∀ j ∈ c.m_surfaces, (c.items j).appId ≠ X)
    (hres : (c.createProxyItem X t sb sn).1.surfaceItem s = some r)
    (happ : ((c.createProxyItem X t sb sn).1.items r).appId = X)
    (hreal : r ≠ (c.createProxyItem X t sb sn).2) :
    (((c.createProxyItem X t sb sn).1.onSurfaceMapped s).itemsWithAppId X) = [r] ∧
    (((c.createProxyItem X t sb sn).1.onSurfaceMapped s).items r).itemState
      = ItemState.ItemStateNormal ∧
    (((c.createProxyItem X t sb sn).1.onSurfaceMapped s).items r).isProxy = false ∧
    (c.createProxyItem X t sb sn).2 ∉ ((c.createProxyItem X t sb sn).1.onSurfaceMapped s).m_surfaces ∧
    ((c.createProxyItem X t sb sn).1.onSurfaceMapped s).live (c.createProxyItem X t sb sn).2
      = false := by
  rw [createProxyItem_snd] at hreal ⊢
  have hrold : (c.createProxyItem X t sb sn).1.items r = c.items r :=
    createProxyItem_items_old c X t sb sn r hreal
  have happ0 : (c.items r).appId = X := by rw [← hrold]; exact happ
  have hrnot : r ∉ c.m_surfaces := fun hr => hreg r hr happ0
  -- the loop test of `deleteProxyFor` in the state after `createProxyItem`
  have htest_old : ∀ j ∈ c.m_surfaces, j ≠ c.nextItem →
      (c.createProxyItem X t sb sn).1.isProxyFor r j = false := by
    intro j hj hne
    have hj' := hreg j hj
    simp only [isProxyFor, createProxyItem_items_old c X t sb sn j hne, happ]
    have : (X == (c.items j).appId) = false := by
      simp only [beq_eq_false_iff_ne, ne_eq]
      exact fun e => hj' e.symm
    simp [this]
  have htest_new : (c.createProxyItem X t sb sn).1.isProxyFor r c.nextItem = true := by
    simp [isProxyFor, createProxyItem_items_new, happ, WebOSSurfaceItem.isProxy, hreal]
  have hfilter : (c.createProxyItem X t sb sn).1.m_surfaces.filter
      (fun j => !(c.createProxyItem X t sb sn).1.isProxyFor r j)
      = c.m_surfaces.filter (fun j => j ≠ c.nextItem) := by
    rw [createProxyItem_surfaces, List.filter_append]
    have h1 : List.filter (fun j => !(c.createProxyItem X t sb sn).1.isProxyFor r j)
        [c.nextItem] = [] := by simp [htest_new]
    rw [h1, List.append_nil]
    apply List.filter_congr
    intro j hj
    by_cases hne : j = c.nextItem
    · subst hne; simp [htest_new]
    · simp [htest_old j hj hne, hne]
  have hrnot1 : r ∉ (c.createProxyItem X t sb sn).1.m_surfaces := by
    rw [createProxyItem_surfaces]
    simp [hrnot, hreal]
  have hsurf : ((c.createProxyItem X t sb sn).1.onSurfaceMapped s).m_surfaces
      = c.m_surfaces.filter (fun j => j ≠ c.nextItem) ++ [r] := by
    rw [onSurfaceMapped_surfaces _ s r hres, if_neg hrnot1, hfilter]
  have hitems := onSurfaceMapped_items _ s r hres
  refine ⟨?_, ?_, ?_, ?_, ?_⟩
  · simp only [itemsWithAppId, hsurf, List.filter_append]
    have h1 : List.filter
        (fun j => (((c.createProxyItem X t sb sn).1.onSurfaceMapped s).items j).appId == X)
        (c.m_surfaces.filter (fun j => j ≠ c.nextItem)) = [] := by
      rw [List.filter_eq_nil_iff]
      intro j hj
      obtain ⟨hj1, hj2⟩ := List.mem_filter.mp hj
      have hne : j ≠ c.nextItem := by simpa using hj2
      have hjr : j ≠ r := fun e => hrnot (e ▸ hj1)
      rw [hitems]
      simp only [hjr, if_false, createProxyItem_items_old c X t sb sn j hne]
      simpa using hreg j hj1
    have h2 : List.filter
        (fun j => (((c.createProxyItem X t sb sn).1.onSurfaceMapped s).items j).appId == X)
        [r] = [r] := by
      rw [hitems]; simp [happ]
    rw [h1, h2, List.nil_append]
  · rw [hitems]; simp
  · rw [hitems]; simp [WebOSSurfaceItem.isProxy]
  · rw [hsurf]
    simp [Ne.symm hreal]
  · simp only [onSurfaceMapped, hres]
    have hl : ((c.createProxyItem X t sb sn).1.deleteProxyFor r).live c.nextItem = false := by
      rw [deleteProxyFor_live, createProxyItem_surfaces]
      simp [htest_new]
    split <;> simp [emit, setItemState, modifyItem, hl]

/-- Witness for C5: the real "mail" item 0 exists with surface 5 and is untracked; a
proxy for "mail" is created (item 1) and then surface 5 is mapped: item 0 is the only
registry item with appId "mail". -/
theorem createProxyItem_then_onSurfaceMapped_witness :
    (∀ j ∈ (initial.run surfaceOfMail).m_surfaces,
      ((initial.run surfaceOfMail).items j).appId ≠ "mail") ∧
    ((initial.run surfaceOfMail).createProxyItem "mail" "Mail" "" "").1.surfaceItem 5
      = some 0 ∧
    (((initial.run surfaceOfMail).createProxyItem "mail" "Mail" "" "").1.items 0).appId
      = "mail" ∧
    0 ≠ ((initial.run surfaceOfMail).createProxyItem "mail" "Mail" "" "").2 ∧
    ((((initial.run surfaceOfMail).createProxyItem "mail" "Mail" "" "").1.onSurfaceMapped
      5).itemsWithAppId "mail") = [0] :=
  ⟨by decide, by decide, by decide, by decide,
   (createProxyItem_then_onSurfaceMapped (initial.run surfaceOfMail) "mail" "Mail" "" "" 5 0
      (by decide) (by decide) (by decide) (by decide)).1⟩

/-- C6, counterexample: two proxies for "tv" are created, then the real surface of
"mail" is mapped. After that `onSurfaceMapped` call the registry still holds two items in
Proxy state with the identity "tv". -/
theorem onSurfaceMapped_leaves_two_proxies :
    (initial.run twoProxiesThenMapped).proxiesWithAppId "tv" = [0, 1] ∧
    ¬ ((initial.run twoProxiesThenMapped).proxiesWithAppId "tv").length ≤ 1 := by
  decide

/-- The objects that exist after `onSurfaceMapped` are those `deleteProxyFor` left. -/
theorem onSurfaceMapped_live (c : WebOSCoreCompositor) (s : SurfaceId) (i : ItemId)
    (h : c.surfaceItem s = some i) :
    (c.onSurfaceMapped s).live = (c.deleteProxyFor i).live := by
  simp only [onSurfaceMapped, h]
  split <;> simp [emit, setItemState, modifyItem]

/-- C6, amended: after `onSurfaceMapped` of a surface resolving to item `i`, no registry
item in Proxy state carries the identity of `i` (so at most one does), no registry item
in Proxy state is `i` itself, and `i` is not in Proxy state. The proxies of every other
identity are left as they were: for such an identity the list of its proxies in the
registry is the same as before the call, however many there are, and each of them keeps
its record and still exists if it did. -/
theorem onSurfaceMapped_no_proxy_for_mapped (c : WebOSCoreCompositor) (s : SurfaceId)
    (i : ItemId) (h : c.surfaceItem s = some i) :
    (c.onSurfaceMapped s).proxiesWithAppId (((c.onSurfaceMapped s).items i).appId) = [] ∧
    (∀ j ∈ (c.onSurfaceMapped s).m_surfaces,
      ((c.onSurfaceMapped s).items j).isProxy = true → j ≠ i) ∧
    ((c.onSurfaceMapped s).items i).isProxy = false ∧
    (∀ a : String, a ≠ (c.items i).appId →
      (c.onSurfaceMapped s).proxiesWithAppId a = c.proxiesWithAppId a) ∧
    (∀ j ∈ c.m_surfaces, (c.items j).isProxy = true →
      (c.items j).appId ≠ (c.items i).appId →
      j ∈ (c.onSurfaceMapped s).m_surfaces ∧
      (c.onSurfaceMapped s).items j = c.items j ∧
      (c.onSurfaceMapped s).live j = c.live j) := by
  have hitems := onSurfaceMapped_items c s i h
  have hi : ((c.onSurfaceMapped s).items i).isProxy = false := by
    rw [hitems]; simp [WebOSSurfaceItem.isProxy]
  have happ : ((c.onSurfaceMapped s).items i).appId = (c.items i).appId := by
    rw [hitems]; simp
  have hmem : ∀ j ∈ (c.onSurfaceMapped s).m_surfaces, j ≠ i →
      j ∈ c.m_surfaces ∧ c.isProxyFor i j = false := by
    intro j hj hne
    rw [onSurfaceMapped_surfaces c s i h] at hj
    have hj' : j ∈ c.m_surfaces.filter (fun j => !c.isProxyFor i j) := by
      split at hj
      · exact hj
      · rcases List.mem_append.mp hj with hj | hj
        · exact hj
        · exact absurd (by simpa using hj) hne
    obtain ⟨h1, h2⟩ := List.mem_filter.mp hj'
    exact ⟨h1, by simpa using h2⟩
  have hother : ∀ a : String, a ≠ (c.items i).appId →
      (c.onSurfaceMapped s).proxiesWithAppId a = c.proxiesWithAppId a := by
    intro a ha
    have hpred : ∀ j, (((c.onSurfaceMapped s).items j).isProxy
          && (((c.onSurfaceMapped s).items j).appId == a))
        = ((c.items j).isProxy && ((c.items j).appId == a)) := by
      intro j
      by_cases hji : j = i
      · subst hji
        have hne : ((c.items j).appId == a) = false := by
          simpa using fun e => ha e.symm
        rw [happ, hne]; simp
      · rw [hitems]; simp [hji]
    have himp : ∀ j, ((c.items j).isProxy && ((c.items j).appId == a)) = true →
        (!c.isProxyFor i j) = true := by
      intro j hj
      simp only [Bool.and_eq_true, beq_iff_eq] at hj
      have hne : ((c.items i).appId == (c.items j).appId) = false := by
        rw [hj.2]; simpa using fun e => ha e.symm
      simp [isProxyFor, hne]
    have hnoti : ((c.items i).isProxy && ((c.items i).appId == a)) = false := by
      have hne : ((c.items i).appId == a) = false := by
        simpa using fun e => ha e.symm
      rw [hne]; simp
    simp only [proxiesWithAppId]
    rw [List.filter_congr (fun j _ => hpred j), onSurfaceMapped_surfaces c s i h]
    have hff : (c.m_surfaces.filter (fun j => !c.isProxyFor i j)).filter
          (fun j => (c.items j).isProxy && ((c.items j).appId == a))
        = c.m_surfaces.filter (fun j => (c.items j).isProxy && ((c.items j).appId == a)) := by
      rw [List.filter_filter]
      apply List.filter_congr
      intro j _
      cases hj : ((c.items j).isProxy && ((c.items j).appId == a)) with
      | false => simp
      | true => simp [himp j hj]
    split
    · exact hff
    · rw [List.filter_append, hff]
      simp [hnoti]
  have hkept : ∀ j ∈ c.m_surfaces, (c.items j).isProxy = true →
      (c.items j).appId ≠ (c.items i).appId →
      j ∈ (c.onSurfaceMapped s).m_surfaces ∧
      (c.onSurfaceMapped s).items j = c.items j ∧
      (c.onSurfaceMapped s).live j = c.live j := by
    intro j hj _ hne
    have hji : j ≠ i := by
      intro e; apply hne; rw [e]
    have hnot : c.isProxyFor i j = false := by
      have hb : ((c.items i).appId == (c.items j).appId) = false := by
        simpa using fun e => hne e.symm
      simp [isProxyFor, hb]
    have hin : j ∈ c.m_surfaces.filter (fun j => !c.isProxyFor i j) :=
      List.mem_filter.mpr ⟨hj, by simp [hnot]⟩
    refine ⟨?_, ?_, ?_⟩
    · rw [onSurfaceMapped_surfaces c s i h]
      split
      · exact hin
      · exact List.mem_append_left _ hin
    · rw [hitems]; simp [hji]
    · rw [onSurfaceMapped_live c s i h, deleteProxyFor_live]
      simp [hnot]
  refine ⟨?_, ?_, hi, hother, hkept⟩
  · simp only [proxiesWithAppId]
    rw [List.filter_eq_nil_iff]
    intro j hj
    by_cases hne : j = i
    · subst hne; simp [hi]
    · obtain ⟨_, h2⟩ := hmem j hj hne
      have hjrec : (c.onSurfaceMapped s).items j = c.items j := by
        rw [hitems]; simp [hne]
      rw [happ, hjrec]
      simp only [isProxyFor] at h2
      have hne' : (i != j) = true := by simpa using fun e => hne e.symm
      rw [hne', Bool.and_true] at h2
      intro hcon
      simp only [Bool.and_eq_true, beq_iff_eq] at hcon
      rw [hcon.1, Bool.true_and] at h2
      simp [hcon.2] at h2
  · intro j _ hp hji
    subst hji
    rw [hi] at hp
    exact Bool.noConfusion hp

/-- Witness for amended C6: the registry holds the proxies 0 and 2 for "tv" and the
proxy 1 for "mail"; surface 5 resolves to item 3 of "mail". After mapping it no proxy for
"mail" is in the registry, and the proxies for "tv" are the two of before. -/
theorem onSurfaceMapped_no_proxy_for_mapped_witness :
    (initial.run threeProxiesThenSurface).surfaceItem 5 = some 3 ∧
    (initial.run threeProxiesThenSurface).proxiesWithAppId "mail" = [1] ∧
    (initial.run threeProxiesThenSurface).proxiesWithAppId "tv" = [0, 2] ∧
    ((initial.run threeProxiesThenSurface).items 3).appId = "mail" ∧
    ((initial.run threeProxiesThenSurface).onSurfaceMapped 5).proxiesWithAppId
      ((((initial.run threeProxiesThenSurface).onSurfaceMapped 5).items 3).appId) = [] ∧
    ((initial.run threeProxiesThenSurface).onSurfaceMapped 5).proxiesWithAppId "tv"
      = (initial.run threeProxiesThenSurface).proxiesWithAppId "tv" :=
  ⟨by decide, by decide, by decide, by decide,
   (onSurfaceMapped_no_proxy_for_mapped (initial.run threeProxiesThenSurface) 5 3
      (by decide)).1,
   (onSurfaceMapped_no_proxy_for_mapped (initial.run threeProxiesThenSurface) 5 3
      (by decide)).2.2.2.1 "tv" (by decide)⟩

/-! ### Surface registry: `onSurfaceDestroyed` -/

/-- `setFullscreenSurface` writes only the fullscreen pair and the trace. -/
theorem setFullscreenSurface_frame (c : WebOSCoreCompositor) (s : Option QWaylandSurface) :
    (c.setFullscreenSurface s).items = c.items ∧
    (c.setFullscreenSurface s).live = c.live ∧
    (c.setFullscreenSurface s).nextItem = c.nextItem ∧
    (c.setFullscreenSurface s).surfaceItem = c.surfaceItem ∧
    (c.setFullscreenSurface s).client = c.client ∧
    (c.setFullscreenSurface s).m_surfaces = c.m_surfaces ∧
    (c.setFullscreenSurface s).m_surfacesOnUpdate = c.m_surfacesOnUpdate ∧
    (c.setFullscreenSurface s).m_fullscreenTick = c.m_fullscreenTick ∧
    (c.setFullscreenSurface s).sizeChangedConnections = c.sizeChangedConnections := by
  cases hq : qobject_cast s with
  | none =>
    by_cases hc : c.m_fullscreenSurface = none
    · rw [setFullscreenSurface_none_eq c s hq hc]; simp [emit]
    · rw [setFullscreenSurface_none_ne c s hq hc]; simp
  | some q =>
    by_cases hc : c.m_fullscreenSurface = some q
    · rw [setFullscreenSurface_some_eq c s q hq hc]; simp
    · rw [setFullscreenSurface_some_ne c s q hq hc]; simp

/-- The item block for an item that is not a proxy. -/
theorem onSurfaceDestroyedItem_normal (c : WebOSCoreCompositor) (s : SurfaceId) (i : ItemId)
    (h : c.surfaceItem s = some i) (hp : (c.items i).isProxy = false) :
    c.onSurfaceDestroyedItem s =
      { c with
          m_surfaces := c.m_surfaces.erase i
          m_surfacesOnUpdate := c.m_surfacesOnUpdate.erase i
          live := fun j => if j = i then false else c.live j
          surfaceItem := fun t => if c.surfaceItem t = some i then none else c.surfaceItem t
          trace := c.trace ++ deleteEffects i } := by
  simp [onSurfaceDestroyedItem, h, hp, emit, deleteItem, deleteEffects]

/-- The item block for a proxy. -/
theorem onSurfaceDestroyedItem_proxy (c : WebOSCoreCompositor) (s : SurfaceId) (i : ItemId)
    (h : c.surfaceItem s = some i) (hp : (c.items i).isProxy = true) :
    c.onSurfaceDestroyedItem s =
      { c with
          items := fun j => if j = i then { c.items j with surface := none } else c.items j
          surfaceItem := fun t => if c.surfaceItem t = some i then none else c.surfaceItem t
          trace := c.trace ++ [Effect.surfaceDestroyed i, Effect.itemTextureCleared i] } := by
  simp [onSurfaceDestroyedItem, h, hp, emit, releaseSurface]

/-- The item block when the surface resolves to no item. -/
theorem onSurfaceDestroyedItem_none (c : WebOSCoreCompositor) (s : SurfaceId)
    (h : c.surfaceItem s = none) : c.onSurfaceDestroyedItem s = c := by
  simp [onSurfaceDestroyedItem, h]

/-- The item block of `onSurfaceDestroyed` never writes the fullscreen pair. -/
theorem onSurfaceDestroyedItem_fullscreen (c : WebOSCoreCompositor) (s : SurfaceId) :
    (c.onSurfaceDestroyedItem s).m_previousFullscreenSurface = c.m_previousFullscreenSurface ∧
    (c.onSurfaceDestroyedItem s).m_fullscreenSurface = c.m_fullscreenSurface := by
  cases hsi : c.surfaceItem s with
  | none => rw [onSurfaceDestroyedItem_none c s hsi]; exact ⟨rfl, rfl⟩
  | some i =>
    cases hp : (c.items i).isProxy with
    | false => rw [onSurfaceDestroyedItem_normal c s i hsi hp]; exact ⟨rfl, rfl⟩
    | true => rw [onSurfaceDestroyedItem_proxy c s i hsi hp]; exact ⟨rfl, rfl⟩

/-- The item block of `onSurfaceDestroyed` only appends to the trace. -/
theorem onSurfaceDestroyedItem_trace (c : WebOSCoreCompositor) (s : SurfaceId) :
    ∃ pre, (c.onSurfaceDestroyedItem s).trace = c.trace ++ pre := by
  cases hsi : c.surfaceItem s with
  | none => rw [onSurfaceDestroyedItem_none c s hsi]; exact ⟨[], by simp⟩
  | some i =>
    cases hp : (c.items i).isProxy with
    | false => rw [onSurfaceDestroyedItem_normal c s i hsi hp]; exact ⟨deleteEffects i, rfl⟩
    | true =>
      rw [onSurfaceDestroyedItem_proxy c s i hsi hp]
      exact ⟨[Effect.surfaceDestroyed i, Effect.itemTextureCleared i], rfl⟩

/-- `onSurfaceDestroyed` when the destroyed surface is the fullscreen one. -/
theorem onSurfaceDestroyed_of_fullscreen (c : WebOSCoreCompositor) (s : SurfaceId)
    (h : c.m_fullscreenSurface = some s) :
    c.onSurfaceDestroyed s =
      { c.onSurfaceDestroyedItem s with
          m_previousFullscreenSurface := none
          m_fullscreenSurface := none
          trace := (c.onSurfaceDestroyedItem s).trace ++ homeScreenEffects } := by
  have hf : (c.onSurfaceDestroyedItem s).m_fullscreenSurface = some s :=
    (onSurfaceDestroyedItem_fullscreen c s).2.trans h
  have hne : (c.onSurfaceDestroyedItem s).m_fullscreenSurface ≠ none := by simp [hf]
  simp only [onSurfaceDestroyed, hf, if_true]
  rw [setFullscreenSurface_none_ne _ none rfl hne]
  rfl

/-- `onSurfaceDestroyed` when the destroyed surface is not the fullscreen one. -/
theorem onSurfaceDestroyed_of_not_fullscreen (c : WebOSCoreCompositor) (s : SurfaceId)
    (h : c.m_fullscreenSurface ≠ some s) :
    c.onSurfaceDestroyed s = c.onSurfaceDestroyedItem s := by
  have hf : ¬ (some s = (c.onSurfaceDestroyedItem s).m_fullscreenSurface) := by
    rw [(onSurfaceDestroyedItem_fullscreen c s).2]
    exact fun e => h e.symm
  simp only [onSurfaceDestroyed, hf, if_false]

/-- The effects `onSurfaceDestroyed` appends after the item block. -/
theorem onSurfaceDestroyed_trace (c : WebOSCoreCompositor) (s : SurfaceId) :
    (c.onSurfaceDestroyed s).trace
      = (c.onSurfaceDestroyedItem s).trace
          ++ (if c.m_fullscreenSurface = some s then homeScreenEffects else []) := by
  by_cases h : c.m_fullscreenSurface = some s
  · rw [onSurfaceDestroyed_of_fullscreen c s h]; simp [h]
  · rw [onSurfaceDestroyed_of_not_fullscreen c s h]; simp [h]

/-- Everything but the fullscreen pair and the trace is decided by the item block. -/
theorem onSurfaceDestroyed_frame (c : WebOSCoreCompositor) (s : SurfaceId) :
    (c.onSurfaceDestroyed s).items = (c.onSurfaceDestroyedItem s).items ∧
    (c.onSurfaceDestroyed s).live = (c.onSurfaceDestroyedItem s).live ∧
    (c.onSurfaceDestroyed s).nextItem = (c.onSurfaceDestroyedItem s).nextItem ∧
    (c.onSurfaceDestroyed s).surfaceItem = (c.onSurfaceDestroyedItem s).surfaceItem ∧
    (c.onSurfaceDestroyed s).m_surfaces = (c.onSurfaceDestroyedItem s).m_surfaces ∧
    (c.onSurfaceDestroyed s).m_surfacesOnUpdate
      = (c.onSurfaceDestroyedItem s).m_surfacesOnUpdate := by
  by_cases h : c.m_fullscreenSurface = some s
  · rw [onSurfaceDestroyed_of_fullscreen c s h]; simp
  · rw [onSurfaceDestroyed_of_not_fullscreen c s h]; simp

/-- Erasing the only occurrence of an element removes it from the list. -/
theorem not_mem_erase_of_count_le_one (l : List ItemId) (i : ItemId) (h : l.count i ≤ 1) :
    i ∉ l.erase i := by
  intro hm
  have h1 : 0 < (l.erase i).count i := List.count_pos_iff.mpr hm
  rw [List.count_erase_self] at h1
  omega

/-- C8, counterexample: item 0 (not a proxy) was listed twice in the pending list by two
calls of `prepareOutputUpdate`; after `onSurfaceDestroyed` of its surface the item is
deleted but still occurs in the pending list. -/
theorem onSurfaceDestroyed_leaves_pending :
    (initial.run preparedTwice).surfaceItem 5 = some 0 ∧
    ((initial.run preparedTwice).items 0).isProxy = false ∧
    (initial.run preparedTwice).m_surfacesOnUpdate = [0, 0] ∧
    ((initial.run preparedTwice).onSurfaceDestroyed 5).m_surfacesOnUpdate = [0] ∧
    ((initial.run preparedTwice).onSurfaceDestroyed 5).live 0 = false ∧
    0 ∈ ((initial.run preparedTwice).onSurfaceDestroyed 5).m_surfacesOnUpdate := by
  decide

/-- C8, amended: for a raw surface resolving to item `i`, which occurs at most once in
the registry and at most once in the pending list: if `i` is not a proxy, `removeOne`
takes it out of both lists, so afterwards it occurs in neither, the object is deleted,
and the trace shows the model call and the surface-destroyed signal before the deletion;
if `i` is a proxy, the registry is unchanged, the object stays alive, its surface
reference is null, and the surface-destroyed signal is still emitted. -/
theorem onSurfaceDestroyed_item (c : WebOSCoreCompositor) (s : SurfaceId) (i : ItemId)
    (h : c.surfaceItem s = some i) (hreg : c.m_surfaces.count i ≤ 1)
    (hupd : c.m_surfacesOnUpdate.count i ≤ 1) :
    ((c.items i).isProxy = false →
      (c.onSurfaceDestroyed s).m_surfaces = c.m_surfaces.erase i ∧
      (c.onSurfaceDestroyed s).m_surfacesOnUpdate = c.m_surfacesOnUpdate.erase i ∧
      i ∉ (c.onSurfaceDestroyed s).m_surfaces ∧
      i ∉ (c.onSurfaceDestroyed s).m_surfacesOnUpdate ∧
      (c.onSurfaceDestroyed s).live i = false ∧
      (c.onSurfaceDestroyed s).trace
        = c.trace ++ [Effect.modelSurfaceDestroyed i, Effect.surfaceDestroyed i,
              Effect.itemDeleted i]
            ++ (if c.m_fullscreenSurface = some s then homeScreenEffects else [])) ∧
    ((c.items i).isProxy = true →
      (c.onSurfaceDestroyed s).m_surfaces = c.m_surfaces ∧
      (c.onSurfaceDestroyed s).live i = c.live i ∧
      ((c.onSurfaceDestroyed s).items i).surface = none ∧
      (c.onSurfaceDestroyed s).trace
        = c.trace ++ [Effect.surfaceDestroyed i, Effect.itemTextureCleared i]
            ++ (if c.m_fullscreenSurface = some s then homeScreenEffects else [])) := by
  obtain ⟨hfi, hfl, _, _, hfs, hfu⟩ := onSurfaceDestroyed_frame c s
  constructor
  · intro hp
    have hb := onSurfaceDestroyedItem_normal c s i h hp
    have hs : (c.onSurfaceDestroyed s).m_surfaces = c.m_surfaces.erase i := by
      rw [hfs, hb]
    have hu : (c.onSurfaceDestroyed s).m_surfacesOnUpdate = c.m_surfacesOnUpdate.erase i := by
      rw [hfu, hb]
    refine ⟨hs, hu, ?_, ?_, ?_, ?_⟩
    · rw [hs]; exact not_mem_erase_of_count_le_one _ _ hreg
    · rw [hu]; exact not_mem_erase_of_count_le_one _ _ hupd
    · rw [hfl, hb]; simp
    · rw [onSurfaceDestroyed_trace, hb]; simp [deleteEffects]
  · intro hp
    have hb := onSurfaceDestroyedItem_proxy c s i h hp
    refine ⟨?_, ?_, ?_, ?_⟩
    · rw [hfs, hb]
    · rw [hfl, hb]
    · rw [hfi, hb]; simp
    · rw [onSurfaceDestroyed_trace, hb]

/-- Witness for amended C8. Not a proxy: after one `prepareOutputUpdate`, item 0 is once
in the registry and once in the pending list; destroying its surface 5 empties both.
Proxy: after `closeWindowKeepItem`, item 0 is a proxy with surface 5; destroying the
surface leaves the registry `[0]` and nulls the item's surface reference. -/
theorem onSurfaceDestroyed_item_witness :
    ((initial.run preparedOnce).surfaceItem 5 = some 0 ∧
      (initial.run preparedOnce).m_surfaces.count 0 ≤ 1 ∧
      (initial.run preparedOnce).m_surfacesOnUpdate.count 0 ≤ 1 ∧
      ((initial.run preparedOnce).items 0).isProxy = false ∧
      (initial.run preparedOnce).m_surfacesOnUpdate = [0] ∧
      0 ∉ ((initial.run preparedOnce).onSurfaceDestroyed 5).m_surfaces ∧
      0 ∉ ((initial.run preparedOnce).onSurfaceDestroyed 5).m_surfacesOnUpdate) ∧
    ((initial.run fullscreenThenKeepItem).surfaceItem 5 = some 0 ∧
      (initial.run fullscreenThenKeepItem).m_surfaces.count 0 ≤ 1 ∧
      (initial.run fullscreenThenKeepItem).m_surfacesOnUpdate.count 0 ≤ 1 ∧
      ((initial.run fullscreenThenKeepItem).items 0).isProxy = true ∧
      (initial.run fullscreenThenKeepItem).m_surfaces = [0] ∧
      ((initial.run fullscreenThenKeepItem).onSurfaceDestroyed 5).m_surfaces
        = (initial.run fullscreenThenKeepItem).m_surfaces ∧
      (((initial.run fullscreenThenKeepItem).onSurfaceDestroyed 5).items 0).surface = none) :=
  ⟨⟨by decide, by decide, by decide, by decide, by decide,
    ((onSurfaceDestroyed_item (initial.run preparedOnce) 5 0 (by decide) (by decide)
      (by decide)).1 (by decide)).2.2.1,
    ((onSurfaceDestroyed_item (initial.run preparedOnce) 5 0 (by decide) (by decide)
      (by decide)).1 (by decide)).2.2.2.1⟩,
   ⟨by decide, by decide, by decide, by decide, by decide,
    ((onSurfaceDestroyed_item (initial.run fullscreenThenKeepItem) 5 0 (by decide) (by decide)
      (by decide)).2 (by decide)).1,
    ((onSurfaceDestroyed_item (initial.run fullscreenThenKeepItem) 5 0 (by decide) (by decide)
      (by decide)).2 (by decide)).2.2.1⟩⟩

/-- C9: when the destroyed raw surface is the current fullscreen surface, after
`onSurfaceDestroyed` current and previous are null and the call has appended
`homeScreenExposed` (followed by the input method deactivation and both fullscreen-changed
signals) to the trace; when it is not, previous and current are unchanged. -/
theorem onSurfaceDestroyed_fullscreen (c : WebOSCoreCompositor) (s : SurfaceId) :
    (c.m_fullscreenSurface = some s →
      (c.onSurfaceDestroyed s).m_fullscreenSurface = none ∧
      (c.onSurfaceDestroyed s).m_previousFullscreenSurface = none ∧
      ∃ pre, (c.onSurfaceDestroyed s).trace
        = c.trace ++ pre ++ [Effect.homeScreenExposed, Effect.inputMethodDeactivate,
            Effect.fullscreenSurfaceChanged, Effect.fullscreenChanged,
            Effect.fullscreenSurfaceChangedPair none none]) ∧
    (c.m_fullscreenSurface ≠ some s →
      (c.onSurfaceDestroyed s).m_previousFullscreenSurface = c.m_previousFullscreenSurface ∧
      (c.onSurfaceDestroyed s).m_fullscreenSurface = c.m_fullscreenSurface) := by
  constructor
  · intro h
    rw [onSurfaceDestroyed_of_fullscreen c s h]
    refine ⟨rfl, rfl, ?_⟩
    obtain ⟨pre, hpre⟩ := onSurfaceDestroyedItem_trace c s
    exact ⟨pre, by simp [hpre, homeScreenEffects]⟩
  · intro h
    rw [onSurfaceDestroyed_of_not_fullscreen c s h]
    exact onSurfaceDestroyedItem_fullscreen c s

/-! ### What each call does to the registry, the allocator and the item records -/

/-- The loop of `prepareOutputUpdate` writes only the pending list and the connections. -/
theorem prepareOutputUpdateLoop_frame (l : List ItemId) :
    ∀ c : WebOSCoreCompositor,
      (prepareOutputUpdateLoop l c).items = c.items ∧
      (prepareOutputUpdateLoop l c).live = c.live ∧
      (prepareOutputUpdateLoop l c).nextItem = c.nextItem ∧
      (prepareOutputUpdateLoop l c).surfaceItem = c.surfaceItem ∧
      (prepareOutputUpdateLoop l c).m_surfaces = c.m_surfaces ∧
      (prepareOutputUpdateLoop l c).m_previousFullscreenSurface
        = c.m_previousFullscreenSurface ∧
      (prepareOutputUpdateLoop l c).m_fullscreenSurface = c.m_fullscreenSurface ∧
      (prepareOutputUpdateLoop l c).trace = c.trace := by
  induction l with
  | nil => intro c; simp [prepareOutputUpdateLoop]
  | cons item rest ih =>
    intro c
    simp only [prepareOutputUpdateLoop]
    cases (c.items item).surface with
    | none => exact ih c
    | some t =>
      by_cases hw : (c.items item).width = (c.items item).height
      · simp only [hw, if_true]; exact ih c
      · simp only [hw, if_false]
        exact ih _

/-- The loop of `finalizeOutputUpdate` writes only the connections. -/
theorem finalizeOutputUpdateLoop_frame (l : List ItemId) :
    ∀ c : WebOSCoreCompositor,
      (finalizeOutputUpdateLoop l c).items = c.items ∧
      (finalizeOutputUpdateLoop l c).live = c.live ∧
      (finalizeOutputUpdateLoop l c).nextItem = c.nextItem ∧
      (finalizeOutputUpdateLoop l c).surfaceItem = c.surfaceItem ∧
      (finalizeOutputUpdateLoop l c).m_surfaces = c.m_surfaces ∧
      (finalizeOutputUpdateLoop l c).m_previousFullscreenSurface
        = c.m_previousFullscreenSurface ∧
      (finalizeOutputUpdateLoop l c).m_fullscreenSurface = c.m_fullscreenSurface ∧
      (finalizeOutputUpdateLoop l c).trace = c.trace := by
  induction l with
  | nil => intro c; simp [finalizeOutputUpdateLoop]
  | cons item rest ih =>
    intro c
    simp only [finalizeOutputUpdateLoop]
    cases (c.items item).surface with
    | none => exact ih c
    | some t => exact ih _

/-- The loop of `deleteProxyFor` only clears entries of the surface-to-item map. -/
theorem deleteProxyForLoop_surfaceItem (n : ItemId) (rest : List ItemId) :
    ∀ (before : List ItemId) (c : WebOSCoreCompositor) (t : SurfaceId) (i : ItemId),
      (deleteProxyForLoop n before rest c).surfaceItem t = some i →
        c.surfaceItem t = some i := by
  induction rest with
  | nil => intro before c t i h; simpa [deleteProxyForLoop] using h
  | cons item rest ih =>
    intro before c t i h
    cases hp : c.isProxyFor n item with
    | true =>
      rw [deleteProxyForLoop_cons_pos n item before rest c hp] at h
      have h1 := ih before _ t i h
      simp only [removeProxy, emit, deleteItem] at h1
      split at h1
      · exact absurd h1 (by simp)
      · exact h1
    | false =>
      rw [deleteProxyForLoop_cons_neg n item before rest c hp] at h
      exact ih _ c t i h

/-- A call that allocates nothing, removes registry entries at most, and clears entries
of the surface-to-item map at most, keeps the registry well-formed. -/
theorem WellFormed.of_shrink {c d : WebOSCoreCompositor} (hc : c.WellFormed)
    (hn : d.nextItem = c.nextItem) (hs : d.m_surfaces.Sublist c.m_surfaces)
    (hm : ∀ (t : SurfaceId) (i : ItemId), d.surfaceItem t = some i →
      c.surfaceItem t = some i) : d.WellFormed := by
  obtain ⟨h1, h2, h3⟩ := hc
  refine ⟨h1.sublist hs, ?_, ?_⟩
  · intro j hj; rw [hn]; exact h2 j (hs.subset hj)
  · intro t i h; rw [hn]; exact h3 t i (hm t i h)

/-- `deleteProxyFor` keeps the registry well-formed. -/
theorem WellFormed.deleteProxyFor {c : WebOSCoreCompositor} (hc : c.WellFormed)
    (n : ItemId) : (c.deleteProxyFor n).WellFormed := by
  apply hc.of_shrink
  · exact (deleteProxyForLoop_frame n c.m_surfaces [] c).2.1
  · rw [deleteProxyFor_surfaces]; exact List.filter_sublist _
  · exact deleteProxyForLoop_surfaceItem n c.m_surfaces [] c

/-- `onSurfaceMapped` keeps the registry well-formed. -/
theorem WellFormed.onSurfaceMapped {c : WebOSCoreCompositor} (hc : c.WellFormed)
    (s : SurfaceId) : (c.onSurfaceMapped s).WellFormed := by
  cases hsi : c.surfaceItem s with
  | none => simpa [WebOSCoreCompositor.onSurfaceMapped, hsi] using hc
  | some i =>
    have hd := hc.deleteProxyFor i
    have hi : i < c.nextItem := hc.2.2 s i hsi
    have hnx : (c.deleteProxyFor i).nextItem = c.nextItem :=
      (deleteProxyForLoop_frame i c.m_surfaces [] c).2.1
    obtain ⟨h1, h2, h3⟩ := hd
    simp only [WebOSCoreCompositor.onSurfaceMapped, hsi]
    by_cases hin : i ∈ (c.deleteProxyFor i).m_surfaces
    · have : ((c.deleteProxyFor i).setItemState i ItemState.ItemStateNormal).m_surfaces.contains i
          = true := by simpa [setItemState, modifyItem] using hin
      simp only [this, if_true]
      exact ⟨h1, h2, h3⟩
    · have : ((c.deleteProxyFor i).setItemState i ItemState.ItemStateNormal).m_surfaces.contains i
          = false := by simpa [setItemState, modifyItem] using hin
      simp only [this]
      refine ⟨?_, ?_, h3⟩
      · show ((c.deleteProxyFor i).m_surfaces ++ [i]).Nodup
        exact List.Nodup.append h1 (List.nodup_singleton i) (by simpa using hin)
      · intro j hj
        have hj' : j ∈ (c.deleteProxyFor i).m_surfaces ++ [i] := hj
        rcases List.mem_append.mp hj' with hj1 | hj1
        · exact h2 j hj1
        · have hji : j = i := by simpa using hj1
          rw [hji]; show i < (c.deleteProxyFor i).nextItem; rw [hnx]; exact hi
/-- The initial state is well-formed. -/
theorem wellFormed_initial : initial.WellFormed := by
  refine ⟨List.nodup_nil, ?_, ?_⟩
  · intro j hj; cases hj
  · intro t i h; cases h

/-- `surfaceCreated` keeps the registry well-formed. -/
theorem WellFormed.surfaceCreated {c : WebOSCoreCompositor} (hc : c.WellFormed)
    (s : SurfaceId) (cl : Option ClientId) : (c.surfaceCreated s cl).WellFormed := by
  obtain ⟨h1, h2, h3⟩ := hc
  refine ⟨h1, ?_, ?_⟩
  · intro j hj
    exact Nat.lt_succ_of_lt (h2 j hj)
  · intro t i h
    simp only [WebOSCoreCompositor.surfaceCreated, newItem] at h
    show i < c.nextItem + 1
    split at h
    · have : i = c.nextItem := by simpa using h.symm
      rw [this]; exact Nat.lt_succ_self _
    · exact Nat.lt_succ_of_lt (h3 t i h)

/-- `createProxyItem` keeps the registry well-formed. -/
theorem WellFormed.createProxyItem {c : WebOSCoreCompositor} (hc : c.WellFormed)
    (X t sb sn : String) : (c.createProxyItem X t sb sn).1.WellFormed := by
  obtain ⟨h1, h2, h3⟩ := hc
  have hfresh : c.nextItem ∉ c.m_surfaces := fun h => Nat.lt_irrefl _ (h2 _ h)
  refine ⟨?_, ?_, ?_⟩
  · rw [createProxyItem_surfaces]
    exact List.Nodup.append h1 (List.nodup_singleton _) (by simpa using hfresh)
  · intro j hj
    rw [createProxyItem_surfaces] at hj
    show j < c.nextItem + 1
    rcases List.mem_append.mp hj with hj1 | hj1
    · exact Nat.lt_succ_of_lt (h2 j hj1)
    · have : j = c.nextItem := by simpa using hj1
      rw [this]; exact Nat.lt_succ_self _
  · intro u i h
    show i < c.nextItem + 1
    have h' : c.surfaceItem u = some i := by
      simpa [WebOSCoreCompositor.createProxyItem, newItem, setAppId, setItemState, modifyItem,
        emit] using h
    exact Nat.lt_succ_of_lt (h3 u i h')

/-- `onSurfaceUnmapped` keeps the registry well-formed. -/
theorem WellFormed.onSurfaceUnmapped {c : WebOSCoreCompositor} (hc : c.WellFormed)
    (s : SurfaceId) : (c.onSurfaceUnmapped s).WellFormed := by
  cases hsi : c.surfaceItem s with
  | none => simpa [WebOSCoreCompositor.onSurfaceUnmapped, hsi] using hc
  | some i =>
    cases hp : (c.items i).isProxy with
    | false =>
      apply hc.of_shrink
      · simp [WebOSCoreCompositor.onSurfaceUnmapped, hsi, hp, emit]
      · simp only [WebOSCoreCompositor.onSurfaceUnmapped, hsi, hp, emit]
        exact List.erase_sublist _ _
      · intro t j h
        simpa [WebOSCoreCompositor.onSurfaceUnmapped, hsi, hp, emit] using h
    | true =>
      apply hc.of_shrink
      · simp [WebOSCoreCompositor.onSurfaceUnmapped, hsi, hp, emit]
      · simp [WebOSCoreCompositor.onSurfaceUnmapped, hsi, hp, emit]
      · intro t j h
        simpa [WebOSCoreCompositor.onSurfaceUnmapped, hsi, hp, emit] using h

/-- The item block of `onSurfaceDestroyed` keeps the registry well-formed. -/
theorem WellFormed.onSurfaceDestroyedItem {c : WebOSCoreCompositor} (hc : c.WellFormed)
    (s : SurfaceId) : (c.onSurfaceDestroyedItem s).WellFormed := by
  cases hsi : c.surfaceItem s with
  | none => rw [onSurfaceDestroyedItem_none c s hsi]; exact hc
  | some i =>
    cases hp : (c.items i).isProxy with
    | false =>
      rw [onSurfaceDestroyedItem_normal c s i hsi hp]
      refine hc.of_shrink rfl ?_ ?_
      · exact List.erase_sublist _ _
      intro t j h
      simp only at h
      split at h
      · exact absurd h (by simp)
      · exact h
    | true =>
      rw [onSurfaceDestroyedItem_proxy c s i hsi hp]
      refine hc.of_shrink rfl ?_ ?_
      · exact List.Sublist.refl _
      intro t j h
      simp only at h
      split at h
      · exact absurd h (by simp)
      · exact h

/-- `onSurfaceDestroyed` keeps the registry well-formed. -/
theorem WellFormed.onSurfaceDestroyed {c : WebOSCoreCompositor} (hc : c.WellFormed)
    (s : SurfaceId) : (c.onSurfaceDestroyed s).WellFormed := by
  have hd := hc.onSurfaceDestroyedItem s
  obtain ⟨_, _, hn, hm, hs, _⟩ := onSurfaceDestroyed_frame c s
  exact hd.of_shrink hn (by rw [hs]) (by intro t i h; rw [hm] at h; exact h)

/-- `setFullscreen` keeps the registry well-formed. -/
theorem WellFormed.setFullscreen {c : WebOSCoreCompositor} (hc : c.WellFormed)
    (item : Option ItemId) : (c.setFullscreen item).WellFormed := by
  obtain ⟨_, _, hn, hm, _, hs, _⟩ := setFullscreenSurface_frame c
    (match item with
     | some i => (c.items i).surface.map QWaylandSurface.quick
     | none => none)
  refine hc.of_shrink ?_ ?_ ?_
  · exact hn
  · show (c.setFullscreenSurface _).m_surfaces.Sublist c.m_surfaces
    rw [hs]
  · intro t i h
    have h' : (c.setFullscreenSurface _).surfaceItem t = some i := h
    rw [hm] at h'; exact h'

/-- `closeWindow` keeps the registry well-formed. -/
theorem WellFormed.closeWindow {c : WebOSCoreCompositor} (hc : c.WellFormed)
    (w : Option ItemId) : (c.closeWindow w).WellFormed := by
  cases w with
  | none => exact hc
  | some i =>
    simp only [WebOSCoreCompositor.closeWindow]
    cases (c.setItemState i ItemState.ItemStateClosing).hasLiveClient i with
    | true =>
      refine hc.of_shrink ?_ ?_ ?_
      · rfl
      · exact List.Sublist.refl _
      · exact fun _ _ h => h
    | false =>
      refine hc.of_shrink ?_ ?_ ?_
      · rfl
      · exact List.erase_sublist _ _
      · intro t j h
        simp only [Bool.false_eq_true, if_false, deleteItem, emit, setItemState,
          modifyItem] at h
        split at h
        · exact absurd h (by simp)
        · exact h

/-- `closeWindowKeepItem` keeps the registry well-formed. -/
theorem WellFormed.closeWindowKeepItem {c : WebOSCoreCompositor} (hc : c.WellFormed)
    (w : Option ItemId) : (c.closeWindowKeepItem w).WellFormed := by
  cases w with
  | none => exact hc
  | some i =>
    apply hc.of_shrink
    · simp only [WebOSCoreCompositor.closeWindowKeepItem]
      split <;> split <;> rfl
    · simp only [WebOSCoreCompositor.closeWindowKeepItem]
      split <;> split <;> exact List.Sublist.refl _
    · intro t j h
      simp only [WebOSCoreCompositor.closeWindowKeepItem] at h
      split at h <;> split at h <;> exact h

/-- `prepareOutputUpdate` keeps the registry well-formed. -/
theorem WellFormed.prepareOutputUpdate {c : WebOSCoreCompositor} (hc : c.WellFormed) :
    c.prepareOutputUpdate.1.WellFormed := by
  obtain ⟨_, _, hn, hm, hs, _⟩ := prepareOutputUpdateLoop_frame c.m_surfaces c
  exact hc.of_shrink hn (by rw [WebOSCoreCompositor.prepareOutputUpdate, hs])
    (by intro t i h; rw [WebOSCoreCompositor.prepareOutputUpdate, hm] at h; exact h)

/-- `finalizeOutputUpdate` keeps the registry well-formed. -/
theorem WellFormed.finalizeOutputUpdate {c : WebOSCoreCompositor} (hc : c.WellFormed) :
    c.finalizeOutputUpdate.WellFormed := by
  obtain ⟨_, _, hn, hm, hs, _⟩ := finalizeOutputUpdateLoop_frame c.m_surfacesOnUpdate c
  exact hc.of_shrink hn (by simp [WebOSCoreCompositor.finalizeOutputUpdate, hs])
    (by intro t i h; simp only [WebOSCoreCompositor.finalizeOutputUpdate, hm] at h; exact h)

/-- `onSurfaceSizeChanged` keeps the registry well-formed. -/
theorem WellFormed.onSurfaceSizeChanged {c : WebOSCoreCompositor} (hc : c.WellFormed)
    (s : SurfaceId) : (c.onSurfaceSizeChanged s).WellFormed := by
  apply hc.of_shrink
  · simp only [WebOSCoreCompositor.onSurfaceSizeChanged]
    split <;> split <;> rfl
  · simp only [WebOSCoreCompositor.onSurfaceSizeChanged]
    split <;> split <;> exact List.Sublist.refl _
  · intro t j h
    simp only [WebOSCoreCompositor.onSurfaceSizeChanged] at h
    split at h <;> split at h <;> exact h

/-- Every call keeps the registry well-formed. -/
theorem WellFormed.step {c : WebOSCoreCompositor} (hc : c.WellFormed) (call : Call) :
    (c.step call).WellFormed := by
  cases call with
  | surfaceCreated s cl => exact hc.surfaceCreated s cl
  | setAppId i a =>
    refine hc.of_shrink ?_ ?_ ?_
    · rfl
    · exact List.Sublist.refl _
    · exact fun _ _ h => h
  | setSize i w h =>
    refine hc.of_shrink ?_ ?_ ?_
    · rfl
    · exact List.Sublist.refl _
    · exact fun _ _ h => h
  | createProxyItem X t sb sn => exact hc.createProxyItem X t sb sn
  | deleteProxyFor n => exact hc.deleteProxyFor n
  | onSurfaceMapped s => exact hc.onSurfaceMapped s
  | onSurfaceUnmapped s => exact hc.onSurfaceUnmapped s
  | onSurfaceDestroyed s => exact hc.onSurfaceDestroyed s
  | setFullscreen i => exact hc.setFullscreen i
  | closeWindow w => exact hc.closeWindow w
  | closeWindowKeepItem w => exact hc.closeWindowKeepItem w
  | prepareOutputUpdate => exact hc.prepareOutputUpdate
  | finalizeOutputUpdate => exact hc.finalizeOutputUpdate
  | onSurfaceSizeChanged s => exact hc.onSurfaceSizeChanged s

/-- Running calls one after the other. -/
theorem run_append_singleton (c : WebOSCoreCompositor) (calls : List Call) (call : Call) :
    c.run (calls ++ [call]) = (c.run calls).step call := by
  simp [run, List.foldl_append]

/-- Every state reached from a well-formed one is well-formed. -/
theorem WellFormed.run {c : WebOSCoreCompositor} (hc : c.WellFormed) (calls : List Call) :
    (c.run calls).WellFormed := by
  induction calls using List.reverseRecOn with
  | nil => exact hc
  | append_singleton calls call ih => rw [run_append_singleton]; exact ih.step call

/-- In every state reached from the initial one, no item is tracked twice. -/
theorem run_registry_nodup (calls : List Call) : (initial.run calls).m_surfaces.Nodup :=
  (wellFormed_initial.run calls).1

/-! ### Surface registry: `isMapped` along created, mapped, unmapped -/

/-- The loop of `deleteProxyFor` keeps the entries of the surface-to-item map that
point to `newItem`, which it never deletes. -/
theorem deleteProxyForLoop_surfaceItem_self (n : ItemId) (rest : List ItemId) :
    ∀ (before : List ItemId) (c : WebOSCoreCompositor) (t : SurfaceId),
      c.surfaceItem t = some n → (deleteProxyForLoop n before rest c).surfaceItem t = some n := by
  induction rest with
  | nil => intro before c t h; simpa [deleteProxyForLoop] using h
  | cons item rest ih =>
    intro before c t h
    cases hp : c.isProxyFor n item with
    | true =>
      rw [deleteProxyForLoop_cons_pos n item before rest c hp]
      apply ih
      have hne : n ≠ item := by
        intro e; rw [← e, isProxyFor_self] at hp; exact Bool.noConfusion hp
      simp [removeProxy, emit, deleteItem, h, hne]
    | false =>
      rw [deleteProxyForLoop_cons_neg n item before rest c hp]
      exact ih _ c t h

/-- After `onSurfaceMapped` the surface still resolves to the mapped item. -/
theorem onSurfaceMapped_surfaceItem_self (c : WebOSCoreCompositor) (s : SurfaceId)
    (i : ItemId) (h : c.surfaceItem s = some i) :
    (c.onSurfaceMapped s).surfaceItem s = some i := by
  have hd : (c.deleteProxyFor i).surfaceItem s = some i :=
    deleteProxyForLoop_surfaceItem_self i c.m_surfaces [] c s h
  simp only [onSurfaceMapped, h]
  split <;> simpa [emit, setItemState, modifyItem] using hd

/-- The mapped item is not deleted by `onSurfaceMapped`. -/
theorem onSurfaceMapped_live_self (c : WebOSCoreCompositor) (s : SurfaceId)
    (i : ItemId) (h : c.surfaceItem s = some i) :
    (c.onSurfaceMapped s).live i = c.live i := by
  have hd : (c.deleteProxyFor i).live i = c.live i := by
    rw [deleteProxyFor_live]; simp [isProxyFor_self]
  simp only [onSurfaceMapped, h]
  split <;> simpa [emit, setItemState, modifyItem] using hd

/-- The mapped item is tracked after `onSurfaceMapped`. -/
theorem mem_onSurfaceMapped_self (c : WebOSCoreCompositor) (s : SurfaceId)
    (i : ItemId) (h : c.surfaceItem s = some i) : i ∈ (c.onSurfaceMapped s).m_surfaces := by
  rw [onSurfaceMapped_surfaces c s i h]
  by_cases hi : i ∈ c.m_surfaces
  · simp only [hi, if_true]
    exact List.mem_filter.mpr ⟨hi, by simp [isProxyFor_self]⟩
  · simp [hi]

/-- An untracked item is tracked exactly once after `onSurfaceMapped`. -/
theorem count_onSurfaceMapped_self (c : WebOSCoreCompositor) (s : SurfaceId)
    (i : ItemId) (h : c.surfaceItem s = some i) (hi : i ∉ c.m_surfaces) :
    (c.onSurfaceMapped s).m_surfaces.count i = 1 := by
  have hkeep : (fun j => !c.isProxyFor i j) i = true := by simp [isProxyFor_self]
  have hz : c.m_surfaces.count i = 0 := List.count_eq_zero.mpr hi
  have hcf : (c.m_surfaces.filter (fun j => !c.isProxyFor i j)).count i
      = c.m_surfaces.count i := List.count_filter hkeep
  have hf : (c.m_surfaces.filter (fun j => !c.isProxyFor i j)).count i = 0 := hcf.trans hz
  rw [onSurfaceMapped_surfaces c s i h]
  simp [hi, List.count_append, hf]

/-- `onSurfaceUnmapped` for an item that is not a proxy. -/
theorem onSurfaceUnmapped_normal (c : WebOSCoreCompositor) (s : SurfaceId) (i : ItemId)
    (h : c.surfaceItem s = some i) (hp : (c.items i).isProxy = false) :
    c.onSurfaceUnmapped s =
      { c with
          m_surfaces := c.m_surfaces.erase i
          trace := c.trace ++ [Effect.modelSurfaceUnmapped i, Effect.surfaceUnmapped i] } := by
  simp [onSurfaceUnmapped, h, hp, emit]

/-- What `isMapped` computes. -/
theorem isMapped_iff (x : WebOSCoreCompositor) (j : ItemId) :
    x.isMapped j = true ↔ ((x.items j).surface ≠ none ∧ j ∈ x.m_surfaces) := by
  simp [isMapped, Option.isSome_iff_ne_none]

/-- C10: `isMapped(item)` is true iff the item has a surface and is in the registry.
Consequently, along created, mapped, unmapped on one surface `s`: right after
`surfaceCreated` the new item is not mapped; after `onSurfaceMapped`, in any state `d`
where `s` resolves to item `i` that refers to `s`, `i` is mapped; after
`onSurfaceUnmapped`, in any state `e` where `s` resolves to a non-proxy item `i` tracked
at most once, `i` is not mapped, being out of the registry, although the object still
exists with its record untouched. The last part spells this out for the three callbacks run back to back. -/
theorem isMapped_lifecycle (c d e : WebOSCoreCompositor) (s : SurfaceId)
    (cl : Option ClientId) (i : ItemId)
    (hwf : ∀ j ∈ c.m_surfaces, j < c.nextItem)
    (hd : d.surfaceItem s = some i) (hds : (d.items i).surface = some s)
    (he : e.surfaceItem s = some i) (hep : (e.items i).isProxy = false)
    (hec : e.m_surfaces.count i ≤ 1) :
    (∀ (x : WebOSCoreCompositor) (j : ItemId),
      x.isMapped j = true ↔ ((x.items j).surface ≠ none ∧ j ∈ x.m_surfaces)) ∧
    ((c.surfaceCreated s cl).surfaceItem s = some c.nextItem ∧
      ((c.surfaceCreated s cl).items c.nextItem).surface = some s ∧
      (c.surfaceCreated s cl).isMapped c.nextItem = false) ∧
    (d.onSurfaceMapped s).isMapped i = true ∧
    ((e.onSurfaceUnmapped s).isMapped i = false ∧
      i ∉ (e.onSurfaceUnmapped s).m_surfaces ∧
      (e.onSurfaceUnmapped s).live i = e.live i ∧
      (e.onSurfaceUnmapped s).items i = e.items i) ∧
    (((c.surfaceCreated s cl).onSurfaceMapped s).isMapped c.nextItem = true ∧
      (((c.surfaceCreated s cl).onSurfaceMapped s).onSurfaceUnmapped s).isMapped c.nextItem
        = false ∧
      (((c.surfaceCreated s cl).onSurfaceMapped s).onSurfaceUnmapped s).live c.nextItem
        = true) := by
  have hfresh : c.nextItem ∉ c.m_surfaces := fun h => Nat.lt_irrefl _ (hwf _ h)
  -- the state right after `surfaceCreated`
  have hc1 : (c.surfaceCreated s cl).surfaceItem s = some c.nextItem := by
    simp [surfaceCreated, newItem]
  have hc2 : ((c.surfaceCreated s cl).items c.nextItem).surface = some s := by
    simp [surfaceCreated, newItem, WebOSSurfaceItem.new]
  have hc3 : (c.surfaceCreated s cl).m_surfaces = c.m_surfaces := rfl
  have hc4 : (c.surfaceCreated s cl).live c.nextItem = true := by
    simp [surfaceCreated, newItem]
  -- mapped, from any state
  have mapped : ∀ (x : WebOSCoreCompositor) (k : ItemId), x.surfaceItem s = some k →
      (x.items k).surface = some s → (x.onSurfaceMapped s).isMapped k = true := by
    intro x k hx hxs
    rw [isMapped_iff]
    refine ⟨?_, mem_onSurfaceMapped_self x s k hx⟩
    rw [onSurfaceMapped_items x s k hx]
    simp [hxs]
  -- unmapped, from any state
  have unmapped : ∀ (x : WebOSCoreCompositor) (k : ItemId), x.surfaceItem s = some k →
      (x.items k).isProxy = false → x.m_surfaces.count k ≤ 1 →
      (x.onSurfaceUnmapped s).isMapped k = false ∧
      k ∉ (x.onSurfaceUnmapped s).m_surfaces ∧
      (x.onSurfaceUnmapped s).live k = x.live k ∧
      (x.onSurfaceUnmapped s).items k = x.items k := by
    intro x k hx hxp hxc
    rw [onSurfaceUnmapped_normal x s k hx hxp]
    have hnot : k ∉ x.m_surfaces.erase k := not_mem_erase_of_count_le_one _ _ hxc
    refine ⟨?_, hnot, rfl, rfl⟩
    simp [isMapped, hnot]
  refine ⟨isMapped_iff, ⟨hc1, hc2, ?_⟩, mapped d i hd hds, unmapped e i he hep hec, ?_⟩
  · have hnot : c.nextItem ∉ (c.surfaceCreated s cl).m_surfaces := by rw [hc3]; exact hfresh
    simp [isMapped, hnot]
  · have hm1 := mapped _ _ hc1 hc2
    have hs2 := onSurfaceMapped_surfaceItem_self _ s _ hc1
    have hp2 : (((c.surfaceCreated s cl).onSurfaceMapped s).items c.nextItem).isProxy = false := by
      rw [onSurfaceMapped_items _ s _ hc1]; simp [WebOSSurfaceItem.isProxy]
    have hcnt : ((c.surfaceCreated s cl).onSurfaceMapped s).m_surfaces.count c.nextItem ≤ 1 := by
      rw [count_onSurfaceMapped_self _ s _ hc1 (by rw [hc3]; exact hfresh)]
    obtain ⟨hu1, _, hu2, _⟩ := unmapped _ _ hs2 hp2 hcnt
    refine ⟨hm1, hu1, ?_⟩
    rw [hu2, onSurfaceMapped_live_self _ s _ hc1]
    exact hc4

/-- Witness for C10: from the initial state, surface 5 is created (item 0), mapped and
unmapped; the hypotheses hold at the states before the mapped and the unmapped callback,
and `isMapped` reads false, true, false. -/
theorem isMapped_lifecycle_witness :
    (∀ j ∈ initial.m_surfaces, j < initial.nextItem) ∧
    (initial.surfaceCreated 5 (some 1)).surfaceItem 5 = some 0 ∧
    (((initial.surfaceCreated 5 (some 1)).items 0).surface = some 5) ∧
    ((initial.surfaceCreated 5 (some 1)).onSurfaceMapped 5).surfaceItem 5 = some 0 ∧
    ((((initial.surfaceCreated 5 (some 1)).onSurfaceMapped 5).items 0).isProxy = false) ∧
    ((initial.surfaceCreated 5 (some 1)).onSurfaceMapped 5).m_surfaces.count 0 ≤ 1 ∧
    (initial.surfaceCreated 5 (some 1)).isMapped 0 = false ∧
    ((initial.surfaceCreated 5 (some 1)).onSurfaceMapped 5).isMapped 0 = true ∧
    (((initial.surfaceCreated 5 (some 1)).onSurfaceMapped 5).onSurfaceUnmapped 5).isMapped 0
      = false :=
  ⟨by decide, by decide, by decide, by decide, by decide, by decide,
   (isMapped_lifecycle initial (initial.surfaceCreated 5 (some 1))
      ((initial.surfaceCreated 5 (some 1)).onSurfaceMapped 5) 5 (some 1) 0
      (by decide) (by decide) (by decide) (by decide) (by decide) (by decide)).2.1.2.2,
   (isMapped_lifecycle initial (initial.surfaceCreated 5 (some 1))
      ((initial.surfaceCreated 5 (some 1)).onSurfaceMapped 5) 5 (some 1) 0
      (by decide) (by decide) (by decide) (by decide) (by decide) (by decide)).2.2.1,
   (isMapped_lifecycle initial (initial.surfaceCreated 5 (some 1))
      ((initial.surfaceCreated 5 (some 1)).onSurfaceMapped 5) 5 (some 1) 0
      (by decide) (by decide) (by decide) (by decide) (by decide) (by decide)).2.2.2.1.1⟩

/-! ### Fullscreen arbitration: the current surface and proxies -/

/-- A call that does not write the item records keeps the invariant. -/
theorem ProxiesHaveNoSurface.of_items {c d : WebOSCoreCompositor}
    (hc : c.ProxiesHaveNoSurface) (h : d.items = c.items) : d.ProxiesHaveNoSurface := by
  intro j hj
  rw [h] at hj ⊢
  exact hc j hj

/-- Rewriting one record keeps the invariant when the new record is no proxy, or has no
surface, or is a proxy with the same surface as before. -/
theorem ProxiesHaveNoSurface.of_modify {c d : WebOSCoreCompositor}
    (hc : c.ProxiesHaveNoSurface) (i : ItemId)
    (hother : ∀ j, j ≠ i → d.items j = c.items j)
    (hi : (d.items i).isProxy = true → (d.items i).surface = none ∨
      ((c.items i).isProxy = true ∧ (d.items i).surface = (c.items i).surface)) :
    d.ProxiesHaveNoSurface := by
  intro j hj
  by_cases hji : j = i
  · subst hji
    rcases hi hj with h | ⟨h1, h2⟩
    · exact h
    · rw [h2]; exact hc j h1
  · rw [hother j hji] at hj ⊢
    exact hc j hj

/-- The invariant holds initially. -/
theorem proxiesHaveNoSurface_initial : initial.ProxiesHaveNoSurface := by
  intro j hj
  simp [initial, WebOSSurfaceItem.new, WebOSSurfaceItem.isProxy] at hj

/-- Every call other than `closeWindowKeepItem` keeps the invariant. -/
theorem ProxiesHaveNoSurface.step_other {c : WebOSCoreCompositor} (hc : c.ProxiesHaveNoSurface)
    (call : Call) (hk : call.isCloseWindowKeepItem = false) :
    (c.step call).ProxiesHaveNoSurface := by
  cases call with
  | surfaceCreated s cl =>
    refine hc.of_modify c.nextItem ?_ ?_
    · intro j hj; simp [WebOSCoreCompositor.step, surfaceCreated, newItem, hj]
    · intro h
      simp [WebOSCoreCompositor.step, surfaceCreated, newItem, WebOSSurfaceItem.new,
        WebOSSurfaceItem.isProxy] at h
  | setAppId i a =>
    refine hc.of_modify i ?_ ?_
    · intro j hj; simp [WebOSCoreCompositor.step, setAppId, modifyItem, hj]
    · intro h
      right
      simpa [WebOSCoreCompositor.step, setAppId, modifyItem, WebOSSurfaceItem.isProxy] using h
  | setSize i w h =>
    refine hc.of_modify i ?_ ?_
    · intro j hj; simp [WebOSCoreCompositor.step, setSize, modifyItem, hj]
    · intro h
      right
      simpa [WebOSCoreCompositor.step, setSize, modifyItem, WebOSSurfaceItem.isProxy] using h
  | createProxyItem X t sb sn =>
    refine hc.of_modify c.nextItem ?_ ?_
    · intro j hj; exact createProxyItem_items_old c X t sb sn j hj
    · intro _
      left
      show ((c.createProxyItem X t sb sn).1.items c.nextItem).surface = none
      rw [createProxyItem_items_new]
  | deleteProxyFor n => exact hc.of_items (deleteProxyFor_items c n)
  | onSurfaceMapped s =>
    cases hsi : c.surfaceItem s with
    | none => simpa [WebOSCoreCompositor.step, onSurfaceMapped, hsi] using hc
    | some i =>
      refine hc.of_modify i ?_ ?_
      · intro j hj
        show (c.onSurfaceMapped s).items j = c.items j
        rw [onSurfaceMapped_items c s i hsi]; simp [hj]
      · intro h
        have h' : ((c.onSurfaceMapped s).items i).isProxy = true := h
        rw [onSurfaceMapped_items c s i hsi] at h'
        simp [WebOSSurfaceItem.isProxy] at h'
  | onSurfaceUnmapped s =>
    refine hc.of_items ?_
    show (c.onSurfaceUnmapped s).items = c.items
    simp only [onSurfaceUnmapped]
    split
    · rfl
    · split <;> rfl
  | onSurfaceDestroyed s =>
    have hf : (c.onSurfaceDestroyed s).items = (c.onSurfaceDestroyedItem s).items :=
      (onSurfaceDestroyed_frame c s).1
    cases hsi : c.surfaceItem s with
    | none =>
      refine hc.of_items ?_
      show (c.onSurfaceDestroyed s).items = c.items
      rw [hf, onSurfaceDestroyedItem_none c s hsi]
    | some i =>
      cases hp : (c.items i).isProxy with
      | false =>
        refine hc.of_items ?_
        show (c.onSurfaceDestroyed s).items = c.items
        rw [hf, onSurfaceDestroyedItem_normal c s i hsi hp]
      | true =>
        refine hc.of_modify i ?_ ?_
        · intro j hj
          show (c.onSurfaceDestroyed s).items j = c.items j
          rw [hf, onSurfaceDestroyedItem_proxy c s i hsi hp]; simp [hj]
        · intro _
          left
          show ((c.onSurfaceDestroyed s).items i).surface = none
          rw [hf, onSurfaceDestroyedItem_proxy c s i hsi hp]; simp
  | setFullscreen i => exact hc.of_items (setFullscreenSurface_frame c _).1
  | closeWindow w =>
    cases w with
    | none => exact hc
    | some i =>
      refine hc.of_modify i ?_ ?_
      · intro j hj
        simp only [WebOSCoreCompositor.step, closeWindow]
        split <;> simp [emit, deleteItem, setItemState, modifyItem, hj]
      · intro h
        simp only [WebOSCoreCompositor.step, closeWindow] at h
        split at h <;>
          simp [emit, deleteItem, setItemState, modifyItem, WebOSSurfaceItem.isProxy] at h
  | closeWindowKeepItem w => simp [Call.isCloseWindowKeepItem] at hk
  | prepareOutputUpdate =>
    exact hc.of_items (prepareOutputUpdateLoop_frame c.m_surfaces c).1
  | finalizeOutputUpdate =>
    refine hc.of_items ?_
    show (c.finalizeOutputUpdate).items = c.items
    simp [finalizeOutputUpdate, (finalizeOutputUpdateLoop_frame c.m_surfacesOnUpdate c).1]
  | onSurfaceSizeChanged s =>
    refine hc.of_items ?_
    show (c.onSurfaceSizeChanged s).items = c.items
    simp only [onSurfaceSizeChanged]
    split <;> split <;> rfl

/-- C3, counterexample: surface 5 is created, mapped and made fullscreen, then its item 0
is closed with `closeWindowKeepItem`. Item 0 is now in Proxy state, still tracked and
alive, and its surface 5 is still the current fullscreen surface. -/
theorem fullscreen_surface_of_proxy_after_keepItem :
    (initial.run fullscreenThenKeepItem).m_fullscreenSurface = some 5 ∧
    ((initial.run fullscreenThenKeepItem).items 0).surface = some 5 ∧
    ((initial.run fullscreenThenKeepItem).items 0).isProxy = true ∧
    (initial.run fullscreenThenKeepItem).live 0 = true ∧
    0 ∈ (initial.run fullscreenThenKeepItem).m_surfaces := by
  decide

/-- C3, amended: in every state reachable from the initial state through calls other
than `closeWindowKeepItem`, every item in Proxy state has a null surface reference, so
the current fullscreen surface, when there is one, is never the surface of an item in
Proxy state. -/
theorem fullscreen_never_proxy_without_keepItem (calls : List Call)
    (h : ∀ call ∈ calls, call.isCloseWindowKeepItem = false) :
    (initial.run calls).ProxiesHaveNoSurface ∧
    ∀ (j : ItemId) (s : SurfaceId), (initial.run calls).m_fullscreenSurface = some s →
      ((initial.run calls).items j).surface = some s →
      ((initial.run calls).items j).isProxy = false := by
  have hinv : (initial.run calls).ProxiesHaveNoSurface := by
    induction calls using List.reverseRecOn with
    | nil => exact proxiesHaveNoSurface_initial
    | append_singleton calls call ih =>
      rw [run_append_singleton]
      exact (ih (fun x hx => h x (by simp [hx]))).step_other call (h call (by simp))
  refine ⟨hinv, ?_⟩
  intro j s _ hs
  cases hp : ((initial.run calls).items j).isProxy with
  | false => rfl
  | true =>
    have := hinv j hp
    rw [hs] at this
    exact Option.noConfusion this

/-- Witness for amended C3: a proxy for "tv" and one for "mail" exist and the real "mail"
surface has appeared; no call was `closeWindowKeepItem`, and the proxy item 0 has no
surface. -/
theorem fullscreen_never_proxy_without_keepItem_witness :
    (∀ call ∈ proxiesThenSurface, call.isCloseWindowKeepItem = false) ∧
    ((initial.run proxiesThenSurface).items 0).isProxy = true ∧
    ((initial.run proxiesThenSurface).items 0).surface = none :=
  ⟨by decide, by decide,
   (fullscreen_never_proxy_without_keepItem proxiesThenSurface (by decide)).1 0 (by decide)⟩

/-! ### Proxy substitution: what `deleteProxyFor` removes -/

/-- The number of `surfaceDestroyed` signals for item `j` among the effects of deleting
the items of `removed` is the number of times `j` occurs in `removed`. -/
theorem count_surfaceDestroyed_deleteEffects (removed : List ItemId) (j : ItemId) :
    ((removed.map deleteEffects).flatten).count (Effect.surfaceDestroyed j)
      = removed.count j := by
  induction removed with
  | nil => simp
  | cons k rest ih =>
    simp only [List.map_cons, List.flatten_cons, List.count_append, ih, List.count_cons]
    by_cases hk : k = j
    · subst hk; simp [deleteEffects]; omega
    · have hk' : ¬ (j = k) := fun e => hk e.symm
      simp [deleteEffects, hk, hk']

/-- C17: `deleteProxyFor(newItem)` removes from the registry exactly the items that are
in Proxy state, carry the appId of `newItem` and are not `newItem` itself, however many
there are: the registry afterwards is the old one filtered by the negation of that test,
so every other item (also `newItem`, when tracked) stays, in the original order; the
removed objects are deleted; and the trace gains, per removed item, the model call, one
surface-destroyed signal and the deletion, so the number of surface-destroyed signals for
an item is the number of its removed registry entries. -/
theorem deleteProxyFor_removes_exactly (c : WebOSCoreCompositor) (newItem : ItemId) :
    (c.deleteProxyFor newItem).m_surfaces
      = c.m_surfaces.filter (fun j =>
          !((c.items j).isProxy && ((c.items newItem).appId == (c.items j).appId)
            && (newItem != j))) ∧
    (c.deleteProxyFor newItem).m_surfaces.Sublist c.m_surfaces ∧
    (newItem ∈ c.m_surfaces → newItem ∈ (c.deleteProxyFor newItem).m_surfaces) ∧
    (∀ j ∈ c.m_surfaces, j ∉ (c.deleteProxyFor newItem).m_surfaces →
      (c.deleteProxyFor newItem).live j = false) ∧
    (c.deleteProxyFor newItem).trace
      = c.trace ++ ((c.m_surfaces.filter (fun j => c.isProxyFor newItem j)).map
          deleteEffects).flatten ∧
    (∀ j, ((((c.m_surfaces.filter (fun j => c.isProxyFor newItem j)).map
          deleteEffects).flatten).count (Effect.surfaceDestroyed j))
        = (c.m_surfaces.filter (fun j => c.isProxyFor newItem j)).count j) := by
  have hs := deleteProxyFor_surfaces c newItem
  refine ⟨hs, ?_, ?_, ?_, deleteProxyFor_trace c newItem, ?_⟩
  · rw [hs]; exact List.filter_sublist _
  · intro h; exact (mem_deleteProxyFor_self c newItem).mpr h
  · intro j hj hnot
    rw [deleteProxyFor_live]
    have hp : c.isProxyFor newItem j = true := by
      cases hpj : c.isProxyFor newItem j with
      | true => rfl
      | false =>
        exact absurd (by rw [hs]; exact List.mem_filter.mpr ⟨hj, by simp [hpj]⟩) hnot
    have hmem : j ∈ c.m_surfaces.filter (fun j => c.isProxyFor newItem j) :=
      List.mem_filter.mpr ⟨hj, hp⟩
    simp [hmem, hp, hj]
  · intro j
    exact count_surfaceDestroyed_deleteEffects _ j

/-! ### Commands and callbacks on targets that resolve to nothing -/

/-- The test for a live client reads the surface reference and the client of the surface,
which `setItemState` does not write. -/
theorem hasLiveClient_setItemState (c : WebOSCoreCompositor) (i k : ItemId) (st : ItemState) :
    (c.setItemState i st).hasLiveClient k = c.hasLiveClient k := by
  by_cases hk : k = i
  · simp [hasLiveClient, setItemState, modifyItem, hk]
  · simp [hasLiveClient, setItemState, modifyItem, hk]

/-- `closeWindow` on an item without a live client. -/
theorem closeWindow_no_client (c : WebOSCoreCompositor) (i : ItemId)
    (h : c.hasLiveClient i = false) :
    c.closeWindow (some i) =
      { c with
          items := fun j => if j = i then { c.items j with itemState := ItemState.ItemStateClosing }
                            else c.items j
          m_surfaces := c.m_surfaces.erase i
          live := fun j => if j = i then false else c.live j
          surfaceItem := fun t => if c.surfaceItem t = some i then none else c.surfaceItem t
          trace := c.trace ++ [Effect.modelSurfaceDestroyed i, Effect.itemDeleted i] } := by
  have h' := (hasLiveClient_setItemState c i i ItemState.ItemStateClosing).trans h
  simp only [closeWindow, h']
  simp [emit, deleteItem, setItemState, modifyItem]

/-- `closeWindow` on an item with a live client. -/
theorem closeWindow_with_client (c : WebOSCoreCompositor) (i : ItemId)
    (h : c.hasLiveClient i = true) :
    c.closeWindow (some i) =
      { c with
          items := fun j => if j = i then { c.items j with itemState := ItemState.ItemStateClosing }
                            else c.items j
          trace := c.trace ++ [Effect.itemClose i] } := by
  have h' := (hasLiveClient_setItemState c i i ItemState.ItemStateClosing).trans h
  simp only [closeWindow, h']
  simp [emit, setItemState, modifyItem]

/-- C12: `closeWindow(item)` for an item tracked at most once (the registry never holds
an item twice). Without a live client connection (no surface, or a surface without a
client) the item is deleted within the call and is out of the registry afterwards; the
trace shows the model call and the deletion. With a live client connection the registry
is unchanged, the item is in state Closing, the object stays alive and the trace gains
the close request to the client. With a null target the state is unchanged. In every
state reached from the initial one the item is tracked at most once, so there the item
without a live client is out of the registry after the call. -/
theorem closeWindow_item (c : WebOSCoreCompositor) (i : ItemId)
    (hreg : c.m_surfaces.count i ≤ 1) :
    (c.hasLiveClient i = false →
      (c.closeWindow (some i)).live i = false ∧
      i ∉ (c.closeWindow (some i)).m_surfaces ∧
      (c.closeWindow (some i)).m_surfaces = c.m_surfaces.erase i ∧
      (c.closeWindow (some i)).trace
        = c.trace ++ [Effect.modelSurfaceDestroyed i, Effect.itemDeleted i]) ∧
    (c.hasLiveClient i = true →
      (c.closeWindow (some i)).m_surfaces = c.m_surfaces ∧
      ((c.closeWindow (some i)).items i).itemState = ItemState.ItemStateClosing ∧
      (c.closeWindow (some i)).live i = c.live i ∧
      (c.closeWindow (some i)).trace = c.trace ++ [Effect.itemClose i]) ∧
    c.closeWindow none = c ∧
    (∀ calls : List Call, (initial.run calls).hasLiveClient i = false →
      i ∉ ((initial.run calls).closeWindow (some i)).m_surfaces) := by
  refine ⟨?_, ?_, rfl, ?_⟩
  · intro h
    rw [closeWindow_no_client c i h]
    refine ⟨by simp, ?_, rfl, rfl⟩
    exact not_mem_erase_of_count_le_one _ _ hreg
  · intro h
    rw [closeWindow_with_client c i h]
    exact ⟨rfl, by simp, rfl, rfl⟩
  · intro calls h
    rw [closeWindow_no_client _ i h]
    exact List.Nodup.not_mem_erase (run_registry_nodup calls)

/-- Witness for C12: item 0 of a mapped surface. With a client, `closeWindow` leaves the
registry `[0]` and marks the item Closing; without a client, the registry is empty
afterwards and the item is deleted. -/
theorem closeWindow_item_witness :
    ((initial.run mappedWithClient).m_surfaces.count 0 ≤ 1 ∧
      (initial.run mappedWithClient).hasLiveClient 0 = true ∧
      (initial.run mappedWithClient).m_surfaces = [0] ∧
      ((initial.run mappedWithClient).closeWindow (some 0)).m_surfaces
        = (initial.run mappedWithClient).m_surfaces ∧
      (((initial.run mappedWithClient).closeWindow (some 0)).items 0).itemState
        = ItemState.ItemStateClosing) ∧
    ((initial.run mappedWithoutClient).m_surfaces.count 0 ≤ 1 ∧
      (initial.run mappedWithoutClient).hasLiveClient 0 = false ∧
      (initial.run mappedWithoutClient).m_surfaces = [0] ∧
      ((initial.run mappedWithoutClient).closeWindow (some 0)).live 0 = false ∧
      0 ∉ ((initial.run mappedWithoutClient).closeWindow (some 0)).m_surfaces) :=
  ⟨⟨by decide, by decide, by decide,
    ((closeWindow_item (initial.run mappedWithClient) 0 (by decide)).2.1 (by decide)).1,
    ((closeWindow_item (initial.run mappedWithClient) 0 (by decide)).2.1 (by decide)).2.1⟩,
   ⟨by decide, by decide, by decide,
    ((closeWindow_item (initial.run mappedWithoutClient) 0 (by decide)).1 (by decide)).1,
    ((closeWindow_item (initial.run mappedWithoutClient) 0 (by decide)).1 (by decide)).2.1⟩⟩

/-- C11, counterexample: surface 5 has lost its item (deleted by `closeWindow`) while it
is the current fullscreen surface. `onSurfaceDestroyed` for it resolves to no item, yet
clears the fullscreen pair and emits the home-screen-exposed and fullscreen-changed
signals. -/
theorem onSurfaceDestroyed_without_item_clears_fullscreen :
    (initial.run deletedWhileFullscreen).surfaceItem 5 = none ∧
    (initial.run deletedWhileFullscreen).m_fullscreenSurface = some 5 ∧
    ((initial.run deletedWhileFullscreen).onSurfaceDestroyed 5).m_fullscreenSurface = none ∧
    ((initial.run deletedWhileFullscreen).onSurfaceDestroyed 5).trace
      = (initial.run deletedWhileFullscreen).trace ++ homeScreenEffects ∧
    ((initial.run deletedWhileFullscreen).onSurfaceDestroyed 5).trace
      ≠ (initial.run deletedWhileFullscreen).trace := by
  decide

/-- C11, amended: when the raw surface resolves to no item, `onSurfaceMapped` and
`onSurfaceUnmapped` leave the whole state unchanged; `onSurfaceDestroyed` leaves the
registry and the pending list unchanged, and leaves the whole state unchanged unless the
destroyed surface is the current fullscreen surface, in which case previous and current
become null and the trace gains `homeScreenExposed`, the input method deactivation and
the fullscreen-changed signals. -/
theorem callbacks_without_item (c : WebOSCoreCompositor) (s : SurfaceId)
    (h : c.surfaceItem s = none) :
    c.onSurfaceMapped s = c ∧
    c.onSurfaceUnmapped s = c ∧
    (c.onSurfaceDestroyed s).m_surfaces = c.m_surfaces ∧
    (c.onSurfaceDestroyed s).m_surfacesOnUpdate = c.m_surfacesOnUpdate ∧
    (c.m_fullscreenSurface ≠ some s → c.onSurfaceDestroyed s = c) ∧
    (c.m_fullscreenSurface = some s →
      (c.onSurfaceDestroyed s).m_previousFullscreenSurface = none ∧
      (c.onSurfaceDestroyed s).m_fullscreenSurface = none ∧
      (c.onSurfaceDestroyed s).trace = c.trace ++ homeScreenEffects) := by
  have hi := onSurfaceDestroyedItem_none c s h
  obtain ⟨_, _, _, _, hfs, hfu⟩ := onSurfaceDestroyed_frame c s
  refine ⟨by simp [onSurfaceMapped, h], by simp [onSurfaceUnmapped, h], ?_, ?_, ?_, ?_⟩
  · rw [hfs, hi]
  · rw [hfu, hi]
  · intro hne
    rw [onSurfaceDestroyed_of_not_fullscreen c s hne, hi]
  · intro heq
    rw [onSurfaceDestroyed_of_fullscreen c s heq, hi]
    exact ⟨rfl, rfl, rfl⟩

/-- Witness for amended C11: surface 9 has never been created, so it resolves to no item
in the state where surface 5 is mapped; the three callbacks for surface 9 change
nothing. -/
theorem callbacks_without_item_witness :
    (initial.run mappedWithClient).surfaceItem 9 = none ∧
    (initial.run mappedWithClient).onSurfaceMapped 9 = initial.run mappedWithClient ∧
    (initial.run mappedWithClient).onSurfaceUnmapped 9 = initial.run mappedWithClient ∧
    ((initial.run mappedWithClient).onSurfaceDestroyed 9).m_surfaces
      = (initial.run mappedWithClient).m_surfaces :=
  ⟨by decide,
   (callbacks_without_item (initial.run mappedWithClient) 9 (by decide)).1,
   (callbacks_without_item (initial.run mappedWithClient) 9 (by decide)).2.1,
   (callbacks_without_item (initial.run mappedWithClient) 9 (by decide)).2.2.1⟩

/-! ### Registry well-formedness: tracked items exist -/

/-- A surface that still resolves to an item after the loop of `deleteProxyFor` resolved
to it before, and that item was not deleted by the loop. -/
theorem deleteProxyForLoop_surfaceItem_kept (n : ItemId) (rest : List ItemId) :
    ∀ (before : List ItemId) (c : WebOSCoreCompositor) (t : SurfaceId) (i : ItemId),
      (deleteProxyForLoop n before rest c).surfaceItem t = some i →
        c.surfaceItem t = some i ∧ i ∉ rest.filter (fun j => c.isProxyFor n j) := by
  induction rest with
  | nil => intro before c t i h; exact ⟨by simpa [deleteProxyForLoop] using h, by simp⟩
  | cons item rest ih =>
    intro before c t i h
    cases hp : c.isProxyFor n item with
    | true =>
      rw [deleteProxyForLoop_cons_pos n item before rest c hp] at h
      obtain ⟨h1, h2⟩ := ih before _ t i h
      simp only [removeProxy, emit, deleteItem] at h1
      have h3 : c.surfaceItem t = some i ∧ i ≠ item := by
        split at h1
        · exact absurd h1 (by simp)
        · rename_i hne
          exact ⟨h1, fun e => hne (by rw [h1, e])⟩
      refine ⟨h3.1, ?_⟩
      intro hm
      rcases List.mem_filter.mp hm with ⟨hm1, hm2⟩
      rcases List.mem_cons.mp hm1 with e | hm1
      · exact h3.2 e
      · exact h2 (List.mem_filter.mpr ⟨hm1, by simpa [removeProxy_isProxyFor] using hm2⟩)
    | false =>
      rw [deleteProxyForLoop_cons_neg n item before rest c hp] at h
      obtain ⟨h1, h2⟩ := ih _ c t i h
      refine ⟨h1, ?_⟩
      intro hm
      rcases List.mem_filter.mp hm with ⟨hm1, hm2⟩
      rcases List.mem_cons.mp hm1 with e | hm1
      · rw [e, hp] at hm2; exact Bool.noConfusion hm2
      · exact h2 (List.mem_filter.mpr ⟨hm1, hm2⟩)

/-- A call that deletes nothing, adds nothing to the registry and adds no entry to the
surface-to-item map keeps all references alive. -/
theorem RegistryLive.of_frame {c d : WebOSCoreCompositor} (hc : c.RegistryLive)
    (hl : d.live = c.live) (hs : ∀ i ∈ d.m_surfaces, i ∈ c.m_surfaces)
    (hm : ∀ (t : SurfaceId) (i : ItemId), d.surfaceItem t = some i →
      c.surfaceItem t = some i) : d.RegistryLive := by
  refine ⟨?_, ?_⟩
  · intro i hi; rw [hl]; exact hc.1 i (hs i hi)
  · intro t i h; rw [hl]; exact hc.2 t i (hm t i h)

/-- Deleting item `i` keeps all references alive when `i` leaves the registry (it was
tracked at most once) and the surface-to-item map. -/
theorem RegistryLive.of_delete {c d : WebOSCoreCompositor} (hc : c.RegistryLive)
    (hn : c.m_surfaces.Nodup) (i : ItemId)
    (hl : ∀ j, j ≠ i → d.live j = c.live j)
    (hs : d.m_surfaces = c.m_surfaces.erase i)
    (hm : ∀ (t : SurfaceId) (j : ItemId), d.surfaceItem t = some j →
      c.surfaceItem t = some j ∧ j ≠ i) : d.RegistryLive := by
  refine ⟨?_, ?_⟩
  · intro j hj
    rw [hs] at hj
    have hji : j ≠ i := fun e => (List.Nodup.not_mem_erase hn) (e ▸ hj)
    rw [hl j hji]
    exact hc.1 j (List.mem_of_mem_erase hj)
  · intro t j h
    obtain ⟨h1, h2⟩ := hm t j h
    rw [hl j h2]
    exact hc.2 t j h1

/-- The initial state refers to no object at all. -/
theorem registryLive_initial : initial.RegistryLive := by
  refine ⟨?_, ?_⟩
  · intro i hi; cases hi
  · intro t i h; cases h

/-- `deleteProxyFor` keeps all references alive. -/
theorem RegistryLive.after_deleteProxyFor {c : WebOSCoreCompositor} (hc : c.RegistryLive)
    (n : ItemId) : (c.deleteProxyFor n).RegistryLive := by
  refine ⟨?_, ?_⟩
  · intro i hi
    rw [deleteProxyFor_surfaces] at hi
    obtain ⟨h1, h2⟩ := List.mem_filter.mp hi
    rw [deleteProxyFor_live, hc.1 i h1]
    have hp : c.isProxyFor n i = false := by simpa using h2
    simp [hp]
  · intro t i h
    obtain ⟨h1, h2⟩ := deleteProxyForLoop_surfaceItem_kept n c.m_surfaces [] c t i h
    rw [deleteProxyFor_live, hc.2 t i h1]
    have h2' : i ∈ c.m_surfaces → c.isProxyFor n i = false := by simpa using h2
    by_cases hi : i ∈ c.m_surfaces
    · simp [h2' hi]
    · simp [hi]

/-- `onSurfaceMapped` keeps all references alive. -/
theorem RegistryLive.after_onSurfaceMapped {c : WebOSCoreCompositor} (hc : c.RegistryLive)
    (s : SurfaceId) : (c.onSurfaceMapped s).RegistryLive := by
  cases hsi : c.surfaceItem s with
  | none => simpa [WebOSCoreCompositor.onSurfaceMapped, hsi] using hc
  | some i =>
    have hd := hc.after_deleteProxyFor i
    have hli : (c.deleteProxyFor i).live i = true := by
      rw [deleteProxyFor_live, hc.2 s i hsi]; simp [isProxyFor_self]
    have hlive : (c.onSurfaceMapped s).live = (c.deleteProxyFor i).live := by
      simp only [WebOSCoreCompositor.onSurfaceMapped, hsi]
      split <;> rfl
    have hmap : (c.onSurfaceMapped s).surfaceItem = (c.deleteProxyFor i).surfaceItem := by
      simp only [WebOSCoreCompositor.onSurfaceMapped, hsi]
      split <;> rfl
    refine ⟨?_, ?_⟩
    · intro j hj
      rw [hlive]
      rw [onSurfaceMapped_surfaces c s i hsi, ← deleteProxyFor_surfaces] at hj
      split at hj
      · exact hd.1 j hj
      · rcases List.mem_append.mp hj with hj1 | hj1
        · exact hd.1 j hj1
        · have hji : j = i := by simpa using hj1
          rw [hji]; exact hli
    · intro t j h
      rw [hlive]; rw [hmap] at h
      exact hd.2 t j h

/-- Every call keeps all references alive, in a well-formed state. -/
theorem RegistryLive.step_live {c : WebOSCoreCompositor} (hc : c.RegistryLive)
    (hw : c.WellFormed) (call : Call) : (c.step call).RegistryLive := by
  cases call with
  | surfaceCreated s cl =>
    refine ⟨?_, ?_⟩
    · intro i hi
      have hi' : i ∈ c.m_surfaces := hi
      have : (c.surfaceCreated s cl).live i = if i = c.nextItem then true else c.live i := rfl
      show (c.surfaceCreated s cl).live i = true
      rw [this]; split
      · rfl
      · exact hc.1 i hi'
    · intro t i h
      have h' : (c.surfaceCreated s cl).surfaceItem t = some i := h
      have hl : (c.surfaceCreated s cl).live i = if i = c.nextItem then true else c.live i := rfl
      show (c.surfaceCreated s cl).live i = true
      rw [hl]
      simp only [WebOSCoreCompositor.surfaceCreated, newItem] at h'
      split at h'
      · have : i = c.nextItem := by simpa using h'.symm
        simp [this]
      · split
        · rfl
        · exact hc.2 t i h'
  | setAppId i a => exact hc.of_frame rfl (fun _ h => h) (fun _ _ h => h)
  | setSize i w h => exact hc.of_frame rfl (fun _ h => h) (fun _ _ h => h)
  | createProxyItem X t sb sn =>
    have hl : ∀ j, (c.createProxyItem X t sb sn).1.live j
        = if j = c.nextItem then true else c.live j := fun _ => rfl
    have hm : (c.createProxyItem X t sb sn).1.surfaceItem = c.surfaceItem := by
      funext u
      simp [WebOSCoreCompositor.createProxyItem, newItem, setAppId, setItemState, modifyItem,
        emit]
    refine ⟨?_, ?_⟩
    · intro j hj
      have hj' : j ∈ (c.createProxyItem X t sb sn).1.m_surfaces := hj
      rw [createProxyItem_surfaces] at hj'
      show (c.createProxyItem X t sb sn).1.live j = true
      rw [hl]
      split
      · rfl
      · rcases List.mem_append.mp hj' with h1 | h1
        · exact hc.1 j h1
        · rename_i hne; exact absurd (by simpa using h1) hne
    · intro u j h
      have h' : (c.createProxyItem X t sb sn).1.surfaceItem u = some j := h
      rw [hm] at h'
      show (c.createProxyItem X t sb sn).1.live j = true
      rw [hl]
      split
      · rfl
      · exact hc.2 u j h'
  | deleteProxyFor n => exact hc.after_deleteProxyFor n
  | onSurfaceMapped s => exact hc.after_onSurfaceMapped s
  | onSurfaceUnmapped s =>
    cases hsi : c.surfaceItem s with
    | none => simpa [WebOSCoreCompositor.step, WebOSCoreCompositor.onSurfaceUnmapped, hsi] using hc
    | some i =>
      cases hp : (c.items i).isProxy with
      | false =>
        have he := onSurfaceUnmapped_normal c s i hsi hp
        refine hc.of_frame ?_ ?_ ?_
        · show (c.onSurfaceUnmapped s).live = c.live
          rw [he]
        · intro j hj
          have hj' : j ∈ (c.onSurfaceUnmapped s).m_surfaces := hj
          rw [he] at hj'
          exact List.mem_of_mem_erase hj'
        · intro t j h
          have h' : (c.onSurfaceUnmapped s).surfaceItem t = some j := h
          rw [he] at h'; exact h'
      | true =>
        refine hc.of_frame ?_ ?_ ?_
        · simp [WebOSCoreCompositor.step, WebOSCoreCompositor.onSurfaceUnmapped, hsi, hp, emit]
        · intro j hj
          simpa [WebOSCoreCompositor.step, WebOSCoreCompositor.onSurfaceUnmapped, hsi, hp, emit]
            using hj
        · intro t j h
          simpa [WebOSCoreCompositor.step, WebOSCoreCompositor.onSurfaceUnmapped, hsi, hp, emit]
            using h
  | onSurfaceDestroyed s =>
    obtain ⟨_, hfl, _, hfm, hfs, _⟩ := onSurfaceDestroyed_frame c s
    have key : (c.onSurfaceDestroyedItem s).RegistryLive := by
      cases hsi : c.surfaceItem s with
      | none => rw [onSurfaceDestroyedItem_none c s hsi]; exact hc
      | some i =>
        cases hp : (c.items i).isProxy with
        | false =>
          rw [onSurfaceDestroyedItem_normal c s i hsi hp]
          refine hc.of_delete hw.1 i ?_ rfl ?_
          · intro j hj; simp [hj]
          · intro t j h
            simp only at h
            split at h
            · exact absurd h (by simp)
            · rename_i hne
              exact ⟨h, fun e => hne (by rw [h, e])⟩
        | true =>
          rw [onSurfaceDestroyedItem_proxy c s i hsi hp]
          refine hc.of_frame rfl (fun _ h => h) ?_
          intro t j h
          simp only at h
          split at h
          · exact absurd h (by simp)
          · exact h
    refine key.of_frame ?_ ?_ ?_
    · exact hfl
    · intro j hj
      have hj' : j ∈ (c.onSurfaceDestroyed s).m_surfaces := hj
      rw [hfs] at hj'; exact hj'
    · intro t j h
      have h' : (c.onSurfaceDestroyed s).surfaceItem t = some j := h
      rw [hfm] at h'; exact h'
  | setFullscreen i =>
    obtain ⟨_, hl, _, hm, _, hs, _⟩ := setFullscreenSurface_frame c
      (match i with
       | some k => (c.items k).surface.map QWaylandSurface.quick
       | none => none)
    refine hc.of_frame hl ?_ ?_
    · intro j hj
      have hj' : j ∈ (c.setFullscreenSurface _).m_surfaces := hj
      rw [hs] at hj'; exact hj'
    · intro t j h
      have h' : (c.setFullscreenSurface _).surfaceItem t = some j := h
      rw [hm] at h'; exact h'
  | closeWindow w =>
    cases w with
    | none => exact hc
    | some i =>
      cases hcl : c.hasLiveClient i with
      | true =>
        have he := closeWindow_with_client c i hcl
        refine hc.of_frame ?_ ?_ ?_
        · show (c.closeWindow (some i)).live = c.live
          rw [he]
        · intro j hj
          have hj' : j ∈ (c.closeWindow (some i)).m_surfaces := hj
          rw [he] at hj'; exact hj'
        · intro t j h
          have h' : (c.closeWindow (some i)).surfaceItem t = some j := h
          rw [he] at h'; exact h'
      | false =>
        have he := closeWindow_no_client c i hcl
        refine hc.of_delete hw.1 i ?_ ?_ ?_
        · intro j hj
          show (c.closeWindow (some i)).live j = c.live j
          rw [he]; simp [hj]
        · show (c.closeWindow (some i)).m_surfaces = c.m_surfaces.erase i
          rw [he]
        · intro t j h
          have h' : (c.closeWindow (some i)).surfaceItem t = some j := h
          rw [he] at h'
          simp only at h'
          split at h'
          · exact absurd h' (by simp)
          · rename_i hne
            exact ⟨h', fun e => hne (by rw [h', e])⟩
  | closeWindowKeepItem w =>
    cases w with
    | none => exact hc
    | some i =>
      refine hc.of_frame ?_ ?_ ?_
      · simp only [WebOSCoreCompositor.step, WebOSCoreCompositor.closeWindowKeepItem]
        split <;> split <;> rfl
      · intro j hj
        simp only [WebOSCoreCompositor.step, WebOSCoreCompositor.closeWindowKeepItem] at hj
        split at hj <;> split at hj <;> exact hj
      · intro t j h
        simp only [WebOSCoreCompositor.step, WebOSCoreCompositor.closeWindowKeepItem] at h
        split at h <;> split at h <;> exact h
  | prepareOutputUpdate =>
    obtain ⟨_, hl, _, hm, hs, _⟩ := prepareOutputUpdateLoop_frame c.m_surfaces c
    refine hc.of_frame hl ?_ ?_
    · intro j hj
      have hj' : j ∈ (prepareOutputUpdateLoop c.m_surfaces c).m_surfaces := hj
      rw [hs] at hj'; exact hj'
    · intro t j h
      have h' : (prepareOutputUpdateLoop c.m_surfaces c).surfaceItem t = some j := h
      rw [hm] at h'; exact h'
  | finalizeOutputUpdate =>
    obtain ⟨_, hl, _, hm, hs, _⟩ := finalizeOutputUpdateLoop_frame c.m_surfacesOnUpdate c
    refine hc.of_frame ?_ ?_ ?_
    · show (c.finalizeOutputUpdate).live = c.live
      simp [WebOSCoreCompositor.finalizeOutputUpdate, hl]
    · intro j hj
      have hj' : j ∈ (c.finalizeOutputUpdate).m_surfaces := hj
      simp only [WebOSCoreCompositor.finalizeOutputUpdate, hs] at hj'; exact hj'
    · intro t j h
      have h' : (c.finalizeOutputUpdate).surfaceItem t = some j := h
      simp only [WebOSCoreCompositor.finalizeOutputUpdate, hm] at h'; exact h'
  | onSurfaceSizeChanged s =>
    refine hc.of_frame ?_ ?_ ?_
    · simp only [WebOSCoreCompositor.step, WebOSCoreCompositor.onSurfaceSizeChanged]
      split <;> split <;> rfl
    · intro j hj
      simp only [WebOSCoreCompositor.step, WebOSCoreCompositor.onSurfaceSizeChanged] at hj
      split at hj <;> split at hj <;> exact hj
    · intro t j h
      simp only [WebOSCoreCompositor.step, WebOSCoreCompositor.onSurfaceSizeChanged] at h
      split at h <;> split at h <;> exact h

/-- C19: in every state reached from the initial one (empty registry) by any sequence of
calls, no item occurs in the registry more than once, every item in the registry is an
existing object (allocated and not deleted), and therefore `removeOne` of an item leaves
no occurrence of it behind. -/
theorem registry_well_formed (calls : List Call) :
    (initial.run calls).m_surfaces.Nodup ∧
    (∀ i ∈ (initial.run calls).m_surfaces, (initial.run calls).live i = true) ∧
    (∀ i, (initial.run calls).m_surfaces.count i ≤ 1) ∧
    (∀ i, i ∉ (initial.run calls).m_surfaces.erase i) := by
  have key : (initial.run calls).WellFormed ∧ (initial.run calls).RegistryLive := by
    induction calls using List.reverseRecOn with
    | nil => exact ⟨wellFormed_initial, registryLive_initial⟩
    | append_singleton calls call ih =>
      rw [run_append_singleton]
      exact ⟨ih.1.step call, ih.2.step_live ih.1 call⟩
  obtain ⟨hw, hl⟩ := key
  refine ⟨hw.1, hl.1, ?_, ?_⟩
  · intro i
    exact List.nodup_iff_count_le_one.mp hw.1 i
  · intro i
    exact List.Nodup.not_mem_erase hw.1

/-- C20: two runs that end with a deleted item in the pending list. In the first,
`closeWindow` deletes item 0, which has no client, while it is pending; in the second,
`onSurfaceMapped` of a relaunched "mail" lets `deleteProxyFor` delete the pending proxy
item 0. Neither path takes the item out of `m_surfacesOnUpdate`, as `onSurfaceDestroyed`
does. -/
theorem pending_holds_deleted_item :
    ((initial.run closedWhilePending).m_surfacesOnUpdate = [0] ∧
      (initial.run closedWhilePending).live 0 = false ∧
      Effect.itemDeleted 0 ∈ (initial.run closedWhilePending).trace) ∧
    ((initial.run replacedWhilePending).m_surfacesOnUpdate = [0] ∧
      (initial.run replacedWhilePending).live 0 = false ∧
      Effect.itemDeleted 0 ∈ (initial.run replacedWhilePending).trace) := by
  decide

/-! ### Output reconfiguration: `prepareOutputUpdate` and the size reports -/

/-- A size report for a surface without a connection changes nothing. -/
theorem sizeChanged_not_connected (d : WebOSCoreCompositor) (s : SurfaceId)
    (h : s ∉ d.sizeChangedConnections) : d.sizeChanged s = d := by
  simp [sizeChanged, h]

end WebOSCoreCompositor

namespace InputDeviceTable

/-! ### Input device routing -/

/-- When none of the visited candidates other than the default device owns the event,
the loop finds nothing or finds the default device. -/
theorem firstOwner_none_or_default (t : InputDeviceTable) (e : QInputEvent)
    (l : List DeviceAddr)
    (h : ∀ d ∈ l, d ≠ t.defaultInputDevice → t.m_deviceId d ≠ some e.deviceId) :
    t.firstOwner e l = none ∨ t.firstOwner e l = some t.defaultInputDevice := by
  induction l with
  | nil => left; rfl
  | cons d rest ih =>
    simp only [firstOwner]
    by_cases hd : d = t.defaultInputDevice
    · right; simp [isOwner, hd]
    · have hno : t.isOwner d e = false := by
        have := h d (by simp) hd
        simp [isOwner, hd, this]
      simp only [hno, Bool.false_eq_true, if_false]
      exact ih (fun k hk => h k (by simp [hk]))

/-- The table after `queryInputDevice` for an event with a non-zero identity: the spare
is stamped and a new spare heads the list. -/
theorem queryInputDevice_table (t : InputDeviceTable) (e : QInputEvent)
    (h0 : e.deviceId ≠ 0) :
    (t.queryInputDevice e).1 =
      { t with
          inputDevices := t.nextDevice :: t.inputDevices
          m_deviceId := fun k => if k = t.nextDevice then none
            else if k = t.m_inputDevicePreallocated then some e.deviceId else t.m_deviceId k
          nextDevice := t.nextDevice + 1
          m_inputDevicePreallocated := t.nextDevice } := by
  simp [queryInputDevice, h0, newWebOSInputDevice]

/-- Routing one event either leaves the table as it was or, for an event with a
non-zero identity, provisions one device. -/
theorem inputDeviceFor_table (t : InputDeviceTable) (e : QInputEvent) :
    (t.inputDeviceFor e).1 = t ∨
    (e.deviceId ≠ 0 ∧ (t.inputDeviceFor e).1 = (t.queryInputDevice e).1) := by
  cases hs : t.firstOwner e (t.inputDevices.take (t.inputDevices.length - 1)) with
  | some dev => left; simp [inputDeviceFor, hs]
  | none =>
    by_cases h0 : e.deviceId = 0
    · left; simp [inputDeviceFor, hs, queryInputDevice, h0]
    · right
      refine ⟨h0, ?_⟩
      simp only [inputDeviceFor, hs]
      split <;> simp_all

/-- Routing one event keeps identity 0 away from the provisioned devices. -/
theorem NoZeroIdentity.inputDeviceFor_keeps {t : InputDeviceTable} (h : t.NoZeroIdentity)
    (e : QInputEvent) : (t.inputDeviceFor e).1.NoZeroIdentity := by
  rcases inputDeviceFor_table t e with he | ⟨h0, he⟩
  · rw [he]; exact h
  · rw [he, queryInputDevice_table t e h0]
    intro d hd hne
    simp only [List.mem_cons] at hd
    simp only
    by_cases h1 : d = t.nextDevice
    · simp [h1]
    · simp only [h1, if_false]
      by_cases h2 : d = t.m_inputDevicePreallocated
      · simp only [h2, if_true]
        intro hcon
        exact h0 (Option.some.inj hcon)
      · simp only [h2, if_false]
        rcases hd with hd | hd
        · exact absurd hd h1
        · exact h d hd hne

/-- The initial device table has no provisioned device with identity 0. -/
theorem noZeroIdentity_initial : initial.NoZeroIdentity := by
  intro d _ _
  simp [initial, newWebOSInputDevice]

/-- After any list of events, no provisioned device has identity 0. -/
theorem noZeroIdentity_routeEvents (events : List QInputEvent) :
    (initial.routeEvents events).NoZeroIdentity := by
  induction events using List.reverseRecOn with
  | nil => exact noZeroIdentity_initial
  | append_singleton es e ih =>
    have : initial.routeEvents (es ++ [e]) = ((initial.routeEvents es).inputDeviceFor e).1 := by
      simp [routeEvents, List.foldl_append]
    rw [this]
    exact ih.inputDeviceFor_keeps e

/-- Routing one event leaves the default device where it is: it stays the default device
and stays in the last slot of the device list. -/
theorem inputDeviceFor_default_last (t : InputDeviceTable) (e : QInputEvent) :
    (t.inputDeviceFor e).1.defaultInputDevice = t.defaultInputDevice ∧
    (t.inputDevices.getLast? = some t.defaultInputDevice →
      (t.inputDeviceFor e).1.inputDevices.getLast? = some t.defaultInputDevice) := by
  rcases inputDeviceFor_table t e with he | ⟨h0, he⟩
  · rw [he]; exact ⟨rfl, fun h => h⟩
  · rw [he, queryInputDevice_table t e h0]
    refine ⟨rfl, ?_⟩
    intro h
    cases hl : t.inputDevices with
    | nil => rw [hl] at h; simp at h
    | cons a l => rw [hl] at h; simpa [List.getLast?_cons_cons] using h

/-- After any list of events the default device is device 0 and is in the last slot. -/
theorem routeEvents_default_last (events : List QInputEvent) :
    (initial.routeEvents events).defaultInputDevice = 0 ∧
    (initial.routeEvents events).inputDevices.getLast? = some 0 := by
  induction events using List.reverseRecOn with
  | nil => exact ⟨rfl, rfl⟩
  | append_singleton es e ih =>
    have : initial.routeEvents (es ++ [e]) = ((initial.routeEvents es).inputDeviceFor e).1 := by
      simp [routeEvents, List.foldl_append]
    rw [this]
    obtain ⟨h1, h2⟩ := inputDeviceFor_default_last (initial.routeEvents es) e
    refine ⟨h1.trans ih.1, ?_⟩
    have := h2 (by rw [ih.1]; exact ih.2)
    rw [ih.1] at this
    exact this

/-- C13: in multi-device mode, for an event whose derived device id is 0 and a device
list in which no provisioned device carries the identity 0 (whatever their number),
`inputDeviceFor` returns the default input device and leaves the device table as it was,
so no device is provisioned. Every table reached by routing events from the initial one
is such a list, with the default device in the last slot. -/
theorem inputDeviceFor_default (t : InputDeviceTable) (e : QInputEvent)
    (h0 : e.deviceId = 0) (hids : t.NoZeroIdentity) :
    t.inputDeviceFor e = (t, t.defaultInputDevice) ∧
    (∀ events : List QInputEvent,
      (initial.routeEvents events).inputDevices.getLast?
        = some (initial.routeEvents events).defaultInputDevice ∧
      (initial.routeEvents events).inputDeviceFor e
        = (initial.routeEvents events, (initial.routeEvents events).defaultInputDevice)) := by
  have main : ∀ u : InputDeviceTable, u.NoZeroIdentity →
      u.inputDeviceFor e = (u, u.defaultInputDevice) := by
    intro u hu
    have hscan := firstOwner_none_or_default u e (u.inputDevices.take (u.inputDevices.length - 1))
      (by
        intro d hd hne
        rw [h0]
        exact hu d (List.mem_of_mem_take hd) hne)
    rcases hscan with hs | hs
    · simp [inputDeviceFor, hs, queryInputDevice, h0]
    · simp [inputDeviceFor, hs]
  refine ⟨main t hids, ?_⟩
  intro events
  obtain ⟨h1, h2⟩ := routeEvents_default_last events
  exact ⟨by rw [h1]; exact h2, main _ (noZeroIdentity_routeEvents events)⟩

/-- Witness for C13: after events with the identities 3, 4, 3 the device list is
`[3, 2, 1, 0]` (two provisioned devices, the spare, the default device last); an event
with identity 0 resolves to the default device 0 and the list is unchanged. -/
theorem inputDeviceFor_default_witness :
    ({ deviceId := 0 } : QInputEvent).deviceId = 0 ∧
    (initial.routeEvents threeEvents).NoZeroIdentity ∧
    (initial.routeEvents threeEvents).inputDevices = [3, 2, 1, 0] ∧
    ((initial.routeEvents threeEvents).inputDeviceFor { deviceId := 0 }).2 = 0 ∧
    ((initial.routeEvents threeEvents).inputDeviceFor { deviceId := 0 }).1.inputDevices
      = [3, 2, 1, 0] ∧
    (initial.routeEvents threeEvents).inputDeviceFor { deviceId := 0 }
      = (initial.routeEvents threeEvents, (initial.routeEvents threeEvents).defaultInputDevice) :=
  ⟨rfl, noZeroIdentity_routeEvents threeEvents, by decide, by decide, by decide,
   (inputDeviceFor_default (initial.routeEvents threeEvents) { deviceId := 0 } rfl
      (noZeroIdentity_routeEvents threeEvents)).1⟩

end InputDeviceTable

namespace WebOSSurfaceItemMirror

/-! ### Mirror coordinate translation -/

/-- The cast of a non-negative value below `2^31` is its integer part. -/
theorem toInt_of_nonneg (v : ℚ) (hv : 0 ≤ v) (hu : v < 2147483648) :
    toInt v = some ⌊v⌋ := by
  have h0 : 0 ≤ ⌊v⌋ := Int.floor_nonneg.mpr hv
  have h1 : ⌊v⌋ < 2147483648 := Int.floor_lt.mpr (by exact_mod_cast hu)
  simp only [toInt, hv, if_true]
  rw [if_pos ⟨by omega, by omega⟩]

/-- The cast of a value of `2^31` or more is undefined. -/
theorem toInt_of_large (v : ℚ) (hu : 2147483648 ≤ v) : toInt v = none := by
  have hv : 0 ≤ v := le_trans (by norm_num) hu
  have h1 : (2147483648 : Int) ≤ ⌊v⌋ := Int.le_floor.mpr (by exact_mod_cast hu)
  simp only [toInt, hv, if_true]
  rw [if_neg (by omega)]

/-- Folding a non-negative coordinate below `2^31` that is not exactly the output size:
below the size it is unchanged, above it its integer part is reduced modulo the size. -/
theorem foldCoordinate_of_ne (size : Int) (v : ℚ) (hv : 0 ≤ v) (hu : v < 2147483648)
    (hsize : 0 < size) (hne : v ≠ (size : ℚ)) :
    foldCoordinate size v
      = some (if v < (size : ℚ) then v else (((⌊v⌋ % size : Int)) : ℚ)) := by
  unfold foldCoordinate
  by_cases hgt : v > (size : ℚ)
  · have hlt : ¬ v < (size : ℚ) := not_lt.mpr (le_of_lt hgt)
    have hfl : 0 ≤ ⌊v⌋ := Int.floor_nonneg.mpr hv
    have hs0 : size ≠ 0 := ne_of_gt hsize
    simp only [hgt, if_true, hlt, if_false, toInt_of_nonneg v hv hu, hs0]
    rw [Int.tmod_eq_emod hfl (le_of_lt hsize)]
  · have hlt : v < (size : ℚ) := lt_of_le_of_ne (not_lt.mp hgt) hne
    simp [hgt, hlt]

/-- Folding a non-negative integer coordinate below `2^31` that is not exactly the output
size is reduction modulo the size. -/
theorem foldCoordinate_int (size n : Int) (hn : 0 ≤ n) (hu : n < 2147483648)
    (hsize : 0 < size) (hne : n ≠ size) :
    foldCoordinate size (n : ℚ) = some ((n % size : Int) : ℚ) := by
  have hv : (0 : ℚ) ≤ (n : ℚ) := by exact_mod_cast hn
  have hu' : (n : ℚ) < 2147483648 := by exact_mod_cast hu
  have hne' : (n : ℚ) ≠ (size : ℚ) := by exact_mod_cast hne
  rw [foldCoordinate_of_ne size n hv hu' hsize hne']
  by_cases hlt : (n : ℚ) < (size : ℚ)
  · have hlt' : n < size := by exact_mod_cast hlt
    simp only [hlt, if_true]
    rw [Int.emod_eq_of_lt hn hlt']
  · simp only [hlt, if_false, Int.floor_intCast]

/-- A coordinate of `2^31` or more that lies beyond the output size has no defined
folding: the cast to `int` is undefined there. -/
theorem foldCoordinate_of_large (size : Int) (v : ℚ) (hu : 2147483648 ≤ v)
    (hgt : v > (size : ℚ)) : foldCoordinate size v = none := by
  simp [foldCoordinate, hgt, toInt_of_large v hu]

/-- Over the rationals, `n - W * floor(n / W)` is `n mod W` for integers `n` and
positive `W`. -/
theorem ratMod_int (size n : Int) (hsize : 0 < size) :
    (n : ℚ) - (size : ℚ) * ((⌊(n : ℚ) / (size : ℚ)⌋ : Int) : ℚ) = ((n % size : Int) : ℚ) := by
  obtain ⟨k, hk⟩ := Int.eq_ofNat_of_zero_le (le_of_lt hsize)
  have hfl : ⌊(n : ℚ) / (size : ℚ)⌋ = n / size := by
    rw [hk, Int.cast_natCast]
    exact Rat.floor_intCast_div_natCast n k
  rw [hfl, Int.emod_def]
  push_cast
  ring

/-- C14, counterexample: output 1920x1080, offset (1920, 0), cluster 3840x1080, source
1280x720. The point (1920, 300) is not folded, because 1920 > 1920 is false: the code
gives (1280, 200) where the formula of the claim gives (640, 200). For the point
(2200.5, 300) the cast to int drops the fraction: the code gives (2200/3, 200) where the
formula gives (733.5, 200). -/
theorem translatePoint_differs_from_modulo :
    translatePoint sceneTwo clusteredMirror { x := 1920, y := 300 }
      = some { x := 1280, y := 200 } ∧
    specTranslatePoint secondTile 1280 720 { x := 1920, y := 300 } = { x := 640, y := 200 } ∧
    translatePoint sceneTwo clusteredMirror { x := 4401 / 2, y := 300 }
      = some { x := 2200 / 3, y := 200 } ∧
    specTranslatePoint secondTile 1280 720 { x := 4401 / 2, y := 300 }
      = { x := 1467 / 2, y := 200 } := by
  have f1 : ⌊(4401 / 2 : ℚ)⌋ = 2200 := by
    rw [Int.floor_eq_iff]; constructor <;> norm_num
  have f2 : ⌊(4401 / 2 / 1920 : ℚ)⌋ = 1 := by
    rw [Int.floor_eq_iff]; constructor <;> norm_num
  have f3 : ⌊(300 / 1080 : ℚ)⌋ = 0 := by
    rw [Int.floor_eq_iff]; constructor <;> norm_num
  have f4 : ⌊(1920 / 1920 : ℚ)⌋ = 1 := by
    rw [Int.floor_eq_iff]; constructor <;> norm_num
  have g1 : foldCoordinate 1920 (1920 : ℚ) = some 1920 := by
    norm_num [foldCoordinate]
  have g2 : foldCoordinate 1080 (300 : ℚ) = some 300 := by
    norm_num [foldCoordinate]
  have g3 : foldCoordinate 1920 (4401 / 2 : ℚ) = some 280 := by
    have h5 : Int.tmod 2200 1920 = 280 := by decide
    have h6 : toInt (4401 / 2 : ℚ) = some 2200 := by
      rw [toInt_of_nonneg _ (by norm_num) (by norm_num), f1]
    have h7 : (4401 / 2 : ℚ) > ((1920 : Int) : ℚ) := by norm_num
    simp only [foldCoordinate, h7, if_true, h6]
    norm_num [h5]
  refine ⟨?_, ?_, ?_, ?_⟩
  · simp only [translatePoint, clusteredMirror, secondTile, sceneTwo, g1, g2]
    norm_num
  · simp only [specTranslatePoint, secondTile]
    norm_num [f3, f4]
  · simp only [translatePoint, clusteredMirror, secondTile, sceneTwo, g3, g2]
    norm_num
  · simp only [specTranslatePoint, secondTile]
    norm_num [f2, f3]

/-- C14, amended: with clustered mode enabled, a window and a bound source, for a point
with non-negative coordinates below `2^31`, other than `x = W` and `y = H`, and positive
output and cluster sizes, `translatePoint` folds each coordinate (a coordinate below the
output size is kept, a coordinate above it is replaced by its integer part modulo the
size), adds the cluster offset and scales by source size over cluster size, in exact
rational arithmetic. For integer coordinates the folded coordinate is `x mod W` and the
result is the formula of the claim. -/
theorem translatePoint_clustered (scene : SceneItems) (m : WebOSSurfaceItemMirror)
    (w : WebOSCompositorWindow) (source : ItemId) (x y : ℚ)
    (hc : m.m_clustered = true) (hw : m.window = some w) (hs : m.m_sourceItem = some source)
    (hx : 0 ≤ x) (hy : 0 ≤ y) (hxu : x < 2147483648) (hyu : y < 2147483648)
    (hW : 0 < w.outputWidth) (hH : 0 < w.outputHeight)
    (_hcw : 0 < w.clusterWidth) (_hch : 0 < w.clusterHeight)
    (hxb : x ≠ (w.outputWidth : ℚ)) (hyb : y ≠ (w.outputHeight : ℚ)) :
    translatePoint scene m { x := x, y := y }
      = some
          { x := ((if x < (w.outputWidth : ℚ) then x
                   else (((⌊x⌋ % w.outputWidth : Int)) : ℚ)) + (w.positionInClusterX : ℚ))
                 * scene.width source / (w.clusterWidth : ℚ)
            y := ((if y < (w.outputHeight : ℚ) then y
                   else (((⌊y⌋ % w.outputHeight : Int)) : ℚ)) + (w.positionInClusterY : ℚ))
                 * scene.height source / (w.clusterHeight : ℚ) } ∧
    (∀ n k : Int, x = (n : ℚ) → y = (k : ℚ) →
      translatePoint scene m { x := x, y := y }
        = some
            { x := (((n % w.outputWidth : Int) : ℚ) + (w.positionInClusterX : ℚ))
                   * scene.width source / (w.clusterWidth : ℚ)
              y := (((k % w.outputHeight : Int) : ℚ) + (w.positionInClusterY : ℚ))
                   * scene.height source / (w.clusterHeight : ℚ) } ∧
      translatePoint scene m { x := x, y := y }
        = some (specTranslatePoint w (scene.width source) (scene.height source)
            { x := x, y := y })) := by
  have hfx := foldCoordinate_of_ne w.outputWidth x hx hxu hW hxb
  have hfy := foldCoordinate_of_ne w.outputHeight y hy hyu hH hyb
  refine ⟨?_, ?_⟩
  · simp only [translatePoint, hc, hw, hs, hfx, hfy]
    rfl
  · intro n k hn hk
    have hn0 : 0 ≤ n := by rw [hn] at hx; exact_mod_cast hx
    have hk0 : 0 ≤ k := by rw [hk] at hy; exact_mod_cast hy
    have hnu : n < 2147483648 := by rw [hn] at hxu; exact_mod_cast hxu
    have hku : k < 2147483648 := by rw [hk] at hyu; exact_mod_cast hyu
    have hnb : n ≠ w.outputWidth := by
      intro e; apply hxb; rw [hn, e]
    have hkb : k ≠ w.outputHeight := by
      intro e; apply hyb; rw [hk, e]
    have hgx := foldCoordinate_int w.outputWidth n hn0 hnu hW hnb
    have hgy := foldCoordinate_int w.outputHeight k hk0 hku hH hkb
    have hbase : translatePoint scene m { x := (n : ℚ), y := (k : ℚ) }
        = some
            { x := (((n % w.outputWidth : Int) : ℚ) + (w.positionInClusterX : ℚ))
                   * scene.width source / (w.clusterWidth : ℚ)
              y := (((k % w.outputHeight : Int) : ℚ) + (w.positionInClusterY : ℚ))
                   * scene.height source / (w.clusterHeight : ℚ) } := by
      simp only [translatePoint, hc, hw, hs, hgx, hgy]
      rfl
    rw [hn, hk]
    refine ⟨hbase, ?_⟩
    rw [hbase]
    simp only [specTranslatePoint, ratMod_int _ n hW, ratMod_int _ k hH]

/-- Witness for amended C14: output 1920x1080, offset (1920, 0), cluster 3840x1080,
source 1280x720; the point (2200, 300) is translated to (2200/3, 200). -/
theorem translatePoint_clustered_witness :
    clusteredMirror.m_clustered = true ∧
    clusteredMirror.window = some secondTile ∧
    clusteredMirror.m_sourceItem = some 1 ∧
    (0 : ℚ) ≤ 2200 ∧ (0 : ℚ) ≤ 300 ∧
    (2200 : ℚ) < 2147483648 ∧ (300 : ℚ) < 2147483648 ∧
    0 < secondTile.outputWidth ∧ 0 < secondTile.outputHeight ∧
    0 < secondTile.clusterWidth ∧ 0 < secondTile.clusterHeight ∧
    (2200 : ℚ) ≠ (secondTile.outputWidth : ℚ) ∧ (300 : ℚ) ≠ (secondTile.outputHeight : ℚ) ∧
    translatePoint sceneTwo clusteredMirror { x := 2200, y := 300 }
      = some { x := 2200 / 3, y := 200 } :=
  ⟨rfl, rfl, rfl, by norm_num, by norm_num, by norm_num, by norm_num,
   by decide, by decide, by decide, by decide,
   by norm_num [secondTile], by norm_num [secondTile],
   (((translatePoint_clustered sceneTwo clusteredMirror secondTile 1 2200 300 rfl rfl rfl
      (by norm_num) (by norm_num) (by norm_num) (by norm_num)
      (by decide) (by decide) (by decide) (by decide)
      (by norm_num [secondTile]) (by norm_num [secondTile])).2 2200 300
      (by norm_num) (by norm_num)).1).trans (by norm_num [secondTile, sceneTwo])⟩

/-- A point whose `x` is `2^31` or more and beyond the output width has no defined
translation in clustered mode: the cast `(int)point.x()` is undefined there. -/
theorem translatePoint_of_large (scene : SceneItems) (m : WebOSSurfaceItemMirror)
    (w : WebOSCompositorWindow) (x y : ℚ) (hc : m.m_clustered = true)
    (hw : m.window = some w) (hu : 2147483648 ≤ x) (hgt : x > (w.outputWidth : ℚ)) :
    translatePoint scene m { x := x, y := y } = none := by
  simp only [translatePoint, hc, hw, foldCoordinate_of_large w.outputWidth x hu hgt]
  rfl

/-! ### Mirror link: `setSourceItem` -/

/-- Tearing down the old link never writes `m_sourceItem` and leaves no mirror child
behind when a source was bound. -/
theorem dropLink_source (m : WebOSSurfaceItemMirror) :
    m.dropLink.m_sourceItem = m.m_sourceItem ∧
    (m.m_sourceItem ≠ none → m.dropLink.m_mirrorItem = none) ∧
    MirrorEffect.sourceItemChanged ∉ (m.dropLink.trace.drop m.trace.length) := by
  unfold dropLink
  cases hs : m.m_sourceItem with
  | none => simp [hs]
  | some old =>
    cases hm : m.m_mirrorItem with
    | none => simp [hs, hm]
    | some mirror => simp [hs, hm]

/-- `setSourceItem` with a new source for which the renderer makes no mirror child: the
bound source is what it was before the call, there is no mirror child, and
`sourceItemChanged` is not emitted. -/
theorem setSourceItem_failure (scene : SceneItems) (m : WebOSSurfaceItemMirror)
    (given : ItemId) (hne : m.m_sourceItem ≠ some given)
    (hfail : scene.createMirrorItem (redirect scene given) = none) :
    (setSourceItem scene m (some given)).m_sourceItem = m.m_sourceItem ∧
    (setSourceItem scene m (some given)).m_mirrorItem = none ∧
    (setSourceItem scene m (some given)).trace
      = m.dropLink.trace ++ [MirrorEffect.warnFailedToStart (redirect scene given)] := by
  simp only [setSourceItem, hne, ne_eq, not_false_eq_true, if_true, hfail]
  refine ⟨(dropLink_source m).1, ?_, ?_⟩ <;> trivial

/-- With no source bound before the call, a failed `setSourceItem` leaves the link
unset: no source, no propagation, no `sourceItemChanged`. -/
theorem setSourceItem_failure_without_source (scene : SceneItems)
    (m : WebOSSurfaceItemMirror) (given : ItemId) (hnone : m.m_sourceItem = none)
    (hfail : scene.createMirrorItem (redirect scene given) = none) :
    (setSourceItem scene m (some given)).m_sourceItem = none ∧
    (∀ valid, (setSourceItem scene m (some given)).needToPropagate valid = false) ∧
    (setSourceItem scene m (some given)).trace
      = m.trace ++ [MirrorEffect.warnFailedToStart (redirect scene given)] := by
  have hne : m.m_sourceItem ≠ some given := by rw [hnone]; simp
  obtain ⟨h1, _, h3⟩ := setSourceItem_failure scene m given hne hfail
  have hd : m.dropLink = m := by simp [dropLink, hnone]
  refine ⟨h1.trans hnone, ?_, by rw [h3, hd]⟩
  intro valid
  simp [needToPropagate, h1, hnone]

/-- C15: the mirror is first bound to item 1 (mirror child 10); then `setSourceItem(2)`
is called and the renderer makes no mirror child for item 2. When the call returns, the
old link has been torn down (observers disconnected, mirror child deleted) and
`sourceItemChanged` has not been emitted, but `m_sourceItem` still is item 1, so
`needToPropagate` still lets events through to item 1. -/
theorem setSourceItem_failure_keeps_old_source :
    (setSourceItem sceneOne unbound (some 1)).m_sourceItem = some 1 ∧
    (setSourceItem sceneOne unbound (some 1)).m_mirrorItem = some 10 ∧
    sceneOne.createMirrorItem (redirect sceneOne 2) = none ∧
    (setSourceItem sceneOne (setSourceItem sceneOne unbound (some 1)) (some 2)).m_sourceItem
      = some 1 ∧
    (setSourceItem sceneOne (setSourceItem sceneOne unbound (some 1)) (some 2)).m_mirrorItem
      = none ∧
    (setSourceItem sceneOne (setSourceItem sceneOne unbound (some 1))
      (some 2)).needToPropagate true = true ∧
    (setSourceItem sceneOne (setSourceItem sceneOne unbound (some 1)) (some 2)).trace
      = (setSourceItem sceneOne unbound (some 1)).trace ++
          [MirrorEffect.disconnectObservers, MirrorEffect.removeMirrorItem 1 10,
           MirrorEffect.deleteMirrorItem 10, MirrorEffect.warnFailedToStart 2] := by
  decide

/-- C16, counterexample: item 3 is flagged as a mirror item and has no mirror source;
the renderer makes mirror child 13 for it. After `setSourceItem(3)` the bound source is
item 3, a mirror item. -/
theorem setSourceItem_binds_mirror_item :
    sceneTwo.isMirrorItem 3 = true ∧
    sceneTwo.createMirrorItem (redirect sceneTwo 3) = some 13 ∧
    (setSourceItem sceneTwo unbound (some 3)).m_sourceItem = some 3 ∧
    (setSourceItem sceneTwo unbound (some 3)).m_mirrorItem = some 13 := by
  decide

/-- C16, amended: for a non-null source other than the bound one, on which mirror
creation succeeds, the source bound afterwards is the mirror source of the given item
when the given item is a mirror item that has a mirror source, and the given item itself
otherwise (one step of redirection). Hence it is no mirror item when the given item is
none, and when the given item is a mirror whose mirror source is no mirror item; a mirror
item without a mirror source is bound as it is. -/
theorem setSourceItem_binds_redirected (scene : SceneItems) (m : WebOSSurfaceItemMirror)
    (given mirror : ItemId) (hne : m.m_sourceItem ≠ some given)
    (hok : scene.createMirrorItem (redirect scene given) = some mirror) :
    (setSourceItem scene m (some given)).m_sourceItem = some (redirect scene given) ∧
    (setSourceItem scene m (some given)).m_mirrorItem = some mirror ∧
    (scene.isMirrorItem given = false →
      redirect scene given = given ∧ scene.isMirrorItem (redirect scene given) = false) ∧
    (∀ u, scene.isMirrorItem given = true → scene.mirrorSource given = some u →
      redirect scene given = u) ∧
    (∀ u, scene.isMirrorItem given = true → scene.mirrorSource given = some u →
      scene.isMirrorItem u = false → scene.isMirrorItem (redirect scene given) = false) ∧
    (scene.isMirrorItem given = true → scene.mirrorSource given = none →
      redirect scene given = given) := by
  have hnot : ∀ h : scene.isMirrorItem given = false, redirect scene given = given := by
    intro h; simp [redirect, h]
  have hsome : ∀ u, scene.isMirrorItem given = true → scene.mirrorSource given = some u →
      redirect scene given = u := by
    intro u h1 h2; simp [redirect, h1, h2]
  refine ⟨?_, ?_, ?_, hsome, ?_, ?_⟩
  · simp only [setSourceItem, hne, ne_eq, not_false_eq_true, if_true, hok]
  · simp only [setSourceItem, hne, ne_eq, not_false_eq_true, if_true, hok]
  · intro h; exact ⟨hnot h, by rw [hnot h]; exact h⟩
  · intro u h1 h2 h3; rw [hsome u h1 h2]; exact h3
  · intro h1 h2; simp [redirect, h1, h2]

/-- Witness for amended C16: item 4 is a mirror of item 1, which is no mirror item;
`setSourceItem(4)` binds item 1. -/
theorem setSourceItem_binds_redirected_witness :
    unbound.m_sourceItem ≠ some 4 ∧
    sceneTwo.createMirrorItem (redirect sceneTwo 4) = some 11 ∧
    (setSourceItem sceneTwo unbound (some 4)).m_sourceItem = some (redirect sceneTwo 4) ∧
    redirect sceneTwo 4 = 1 ∧
    sceneTwo.isMirrorItem (redirect sceneTwo 4) = false :=
  ⟨by decide, by decide,
   (setSourceItem_binds_redirected sceneTwo unbound 4 11 (by decide) (by decide)).1,
   (setSourceItem_binds_redirected sceneTwo unbound 4 11 (by decide) (by decide)).2.2.2.1 1
      (by decide) (by decide),
   (setSourceItem_binds_redirected sceneTwo unbound 4 11 (by decide) (by decide)).2.2.2.2.1 1
      (by decide) (by decide) (by decide)⟩

end WebOSSurfaceItemMirror

end WebOS
